import Mathlib

/-!
Verification of the slotted-page storage engine (storage_layer.h /
storage_layer.cpp).

The C++ code is shallowly embedded: every byte buffer is a `List Nat`
(each element one byte), machine integers are `Nat` (with explicit
wrap-around arithmetic at the places where the C++ width semantics can
matter on the inputs the theorems range over), `std::string` values are
byte strings (`List Nat`), fallible C++ code (functions that `throw`)
returns `Except String`, and member functions that mutate `this` take
and return the structure explicitly.

Struct sizes use the x86-64 `sizeof` values of the unpacked C++ structs:
`sizeof(PageHeader) = 32`, `sizeof(Slot) = 12`,
`sizeof(std::bitset<1024>) = 128`, `sizeof(TupleHeader) = 34`.
-/

namespace StorageLayer

/-! ## Constants (storage_layer.h) -/

def PAGE_SIZE : Nat := 8192
def INVALID_PAGE_ID : Nat := 4294967295
def MAX_TABLES : Nat := 256
def CATALOG_PAGE_ID : Nat := 0
def MAX_TABLE_NAME_LEN : Nat := 63
def IDS_PER_PAGE : Nat := 1024
def INT_SIZE : Nat := 4
def MAX_COLUMNS : Nat := 16

def PAGEHEADER_SIZE : Nat := 32
def SLOT_SIZE : Nat := 12
def BITMAP_BYTES : Nat := 128
def TUPLEHEADER_SIZE : Nat := 34

def PAGE_CLEAN : Nat := 0
def PAGE_DIRTY : Nat := 1
def SLOT_OCCUPIED : Nat := 1
def SLOT_DELETED : Nat := 2
def CATALOG_CLEAN : Nat := 0
def CATALOG_DIRTY : Nat := 1

/-! ## Byte-buffer helpers (model of memcpy and of little-endian fields) -/

/-- `List.length`, computed with an accumulator so that concrete
evaluation inside the kernel stays iterative on page-sized lists. -/
def listLen {α : Type} (l : List α) : Nat := l.foldl (fun n _ => n + 1) 0

/-- Read `len` bytes of `buf` starting at `off` (in-bounds reads of the
C++ code; total by truncation). -/
def readBytes (buf : List Nat) (off len : Nat) : List Nat :=
  (buf.drop off).take len

/-- Overwrite `buf` at offset `off` with `src`, the model of
`memcpy(buf + off, src, src.size())`. -/
def writeBytes (buf : List Nat) (off : Nat) (src : List Nat) : List Nat :=
  buf.take off ++ src ++ buf.drop (off + listLen src)

def le16 (n : Nat) : List Nat := [n % 256, n / 256 % 256]

def le32 (n : Nat) : List Nat :=
  [n % 256, n / 256 % 256, n / 65536 % 256, n / 16777216 % 256]

def getU16 (buf : List Nat) (off : Nat) : Nat :=
  buf.getD off 0 % 256 + 256 * (buf.getD (off + 1) 0 % 256)

def getU32 (buf : List Nat) (off : Nat) : Nat :=
  buf.getD off 0 % 256 + 256 * (buf.getD (off + 1) 0 % 256) +
    65536 * (buf.getD (off + 2) 0 % 256) + 16777216 * (buf.getD (off + 3) 0 % 256)

/-- `std::string` literals as byte strings (all strings in play are ASCII). -/
def strBytes (s : String) : List Nat := s.data.map Char.toNat

/-- Structural decidable equality for `Except` results. -/
instance {ε α : Type} [DecidableEq ε] [DecidableEq α] : DecidableEq (Except ε α) := fun x y =>
  match x, y with
  | Except.ok a, Except.ok b =>
    if h : a = b then Decidable.isTrue (by rw [h]) else Decidable.isFalse (by simp [h])
  | Except.ok _, Except.error _ => Decidable.isFalse (by simp)
  | Except.error _, Except.ok _ => Decidable.isFalse (by simp)
  | Except.error e, Except.error f =>
    if h : e = f then Decidable.isTrue (by rw [h]) else Decidable.isFalse (by simp [h])

/-! ## Page structures -/

structure Slot where
  offset : Nat
  length : Nat
  flags : Nat
  record_id : Nat
  deriving DecidableEq, Repr, Inhabited

def Slot.is_occupied (s : Slot) : Bool := s.flags &&& SLOT_OCCUPIED != 0

def Slot.is_deleted (s : Slot) : Bool := s.flags &&& SLOT_DELETED != 0

structure PageHeader where
  page_id : Nat
  slot_count : Nat
  free_space : Nat
  free_space_offset : Nat
  next_page_id : Nat
  flags : Nat
  lsn : Nat
  id_range_start : Nat
  id_range_end : Nat
  deriving DecidableEq, Repr, Inhabited

/-- `PageHeader::initialize` (storage_layer.h). -/
def PageHeader.init (id : Nat) : PageHeader :=
  { page_id := id
    slot_count := 0
    free_space := PAGE_SIZE - PAGEHEADER_SIZE
    free_space_offset := PAGEHEADER_SIZE
    next_page_id := INVALID_PAGE_ID
    flags := PAGE_CLEAN
    lsn := 0
    id_range_start := id
    id_range_end := (id + IDS_PER_PAGE) % 4294967296 }

structure Page where
  header : PageHeader
  slots : List Slot
  data : List Nat
  free_id_bitmap : List Bool
  deriving DecidableEq, Repr, Inhabited

/-- The `Page(page_id, id_range_start)` constructor. -/
def Page.make (page_id id_range_start : Nat) : Page :=
  { header := { PageHeader.init page_id with
      id_range_start := id_range_start
      id_range_end := (id_range_start + IDS_PER_PAGE) % 4294967296 }
    slots := []
    data := List.replicate (PAGE_SIZE - PAGEHEADER_SIZE) 0
    free_id_bitmap := List.replicate IDS_PER_PAGE false }

def Page.has_space (p : Page) (required : Nat) : Bool :=
  required ≤ p.header.free_space

def Page.is_dirty (p : Page) : Bool := p.header.flags &&& PAGE_DIRTY != 0

/-- One step of the `compact_page` loop: the slot, the rebuilt data
area, and the running `current_offset`. -/
def compactStep (dat : List Nat) (acc : List Slot × List Nat × Nat) (s : Slot) :
    List Slot × List Nat × Nat :=
  let (slotsAcc, newData, off) := acc
  if s.is_occupied then
    (slotsAcc ++ [{ s with offset := off }],
     writeBytes newData off (readBytes dat s.offset s.length),
     (off + s.length) % 65536)
  else
    (slotsAcc ++ [s], newData, off)

/-- `Page::compact_page`.  `current_offset` is a `uint16_t`, hence the
mod-2^16 accumulation; `free_space` is assigned from `uint32_t`
arithmetic truncated to `uint16_t`. -/
def Page.compact_page (p : Page) : Page :=
  let init : List Slot × List Nat × Nat :=
    ([], List.replicate (PAGE_SIZE - PAGEHEADER_SIZE) 0, PAGEHEADER_SIZE)
  let res := p.slots.foldl (compactStep p.data) init
  { p with
    slots := res.1
    data := res.2.1
    header := { p.header with
      free_space_offset := res.2.2
      free_space := (PAGE_SIZE - PAGEHEADER_SIZE + 4294967296 - res.2.2) % 4294967296 % 65536
      flags := p.header.flags ||| PAGE_DIRTY } }

/-- `Page::insert_record`.  Returns the optional record id together
with the mutated page.  On the path that performs the subtraction
`free_space -= required_space` the guard `has_space` makes the `Nat`
subtraction exact. -/
def Page.insert_record (p0 : Page) (record_id : Nat) (data : List Nat) :
    Option Nat × Page :=
  let required := SLOT_SIZE + listLen data
  let p := if p0.has_space required then p0 else p0.compact_page
  if p.has_space required then
    let new_slot : Slot :=
      { offset := p.header.free_space_offset
        length := listLen data % 65536
        flags := SLOT_OCCUPIED
        record_id := record_id }
    (some record_id,
     { p with
       data := writeBytes p.data new_slot.offset data
       slots := p.slots ++ [new_slot]
       header := { p.header with
         free_space := p.header.free_space - required
         free_space_offset := (p.header.free_space_offset + listLen data) % 65536
         slot_count := (p.header.slot_count + 1) % 65536
         flags := p.header.flags ||| PAGE_DIRTY } })
  else
    (none, p)

/-- `Page::get_record`: first occupied slot with the matching id. -/
def Page.get_record (p : Page) (record_id : Nat) : Option (List Nat) :=
  match p.slots.find? (fun s => s.record_id == record_id && s.is_occupied) with
  | some s => some (readBytes p.data s.offset s.length)
  | none => none

/-- `Page::update_record`. -/
def Page.update_record (p : Page) (record_id : Nat) (new_data : List Nat) :
    Bool × Page :=
  match p.slots.findIdx? (fun s => s.record_id == record_id && s.is_occupied) with
  | none => (false, p)
  | some i =>
    let s := p.slots.getD i default
    let space_needed := listLen new_data
    let space_available := p.header.free_space + s.length
    if space_needed ≤ s.length then
      let p1 := { p with data := writeBytes p.data s.offset new_data }
      let p2 :=
        if space_needed < s.length then
          { p1 with
            slots := p1.slots.set i { s with length := listLen new_data % 65536 }
            header := { p1.header with
              free_space := (p1.header.free_space + (s.length - space_needed)) % 65536 } }
        else p1
      (true, { p2 with header := { p2.header with flags := p2.header.flags ||| PAGE_DIRTY } })
    else if space_needed ≤ space_available then
      let pc := p.compact_page
      if space_needed ≤ pc.header.free_space then
        let sc := pc.slots.getD i default
        (true,
         { pc with
           data := writeBytes pc.data pc.header.free_space_offset new_data
           slots := pc.slots.set i
             { sc with
               offset := pc.header.free_space_offset
               length := listLen new_data % 65536 }
           header := { pc.header with
             free_space := pc.header.free_space - space_needed
             free_space_offset := (pc.header.free_space_offset + listLen new_data) % 65536
             flags := pc.header.flags ||| PAGE_DIRTY } })
      else (false, pc)
    else (false, p)

/-- `Page::delete_record`: tombstone the first occupied slot with the id. -/
def Page.delete_record (p : Page) (record_id : Nat) : Bool × Page :=
  match p.slots.findIdx? (fun s => s.record_id == record_id && s.is_occupied) with
  | none => (false, p)
  | some i =>
    (true,
     { p with
       slots := p.slots.set i { p.slots.getD i default with flags := SLOT_DELETED }
       header := { p.header with flags := p.header.flags ||| PAGE_DIRTY } })

/-! ## Page binary codec -/

def encodeHeader (h : PageHeader) : List Nat :=
  le32 h.page_id ++ le16 h.slot_count ++ le16 h.free_space ++
    le16 h.free_space_offset ++ [0, 0] ++ le32 h.next_page_id ++
    [h.flags % 256] ++ [0, 0, 0] ++ le32 h.lsn ++
    le32 h.id_range_start ++ le32 h.id_range_end

def decodeHeader (b : List Nat) : PageHeader :=
  { page_id := getU32 b 0
    slot_count := getU16 b 4
    free_space := getU16 b 6
    free_space_offset := getU16 b 8
    next_page_id := getU32 b 12
    flags := b.getD 16 0 % 256
    lsn := getU32 b 20
    id_range_start := getU32 b 24
    id_range_end := getU32 b 28 }

def encodeSlot (s : Slot) : List Nat :=
  le16 s.offset ++ le16 s.length ++ [s.flags % 256] ++ [0, 0, 0] ++ le32 s.record_id

def encodeSlots (ss : List Slot) : List Nat := ss.flatMap encodeSlot

def decodeSlot (b : List Nat) : Slot :=
  { offset := getU16 b 0
    length := getU16 b 2
    flags := b.getD 4 0 % 256
    record_id := getU32 b 8 }

def decodeSlots (b : List Nat) (count : Nat) : List Slot :=
  (List.range count).map (fun k => decodeSlot (readBytes b (SLOT_SIZE * k) SLOT_SIZE))

/-- `std::bitset<1024>` memory image: bit `i` lives in byte `i / 8`,
bit position `i % 8` (little-endian 64-bit words). -/
def encodeBitmap (bits : List Bool) : List Nat :=
  (List.range BITMAP_BYTES).map (fun j =>
    (List.range 8).foldl
      (fun acc k => if bits.getD (8 * j + k) false then acc + 2 ^ k else acc) 0)

def decodeBitmap (b : List Nat) : List Bool :=
  (List.range IDS_PER_PAGE).map (fun i => (b.getD (i / 8) 0) / 2 ^ (i % 8) % 2 == 1)

/-- `Page::serialize`.  Compacts first (a mutation of the page that the
C++ caller observes, hence the returned pair), then assembles the
8192-byte buffer; the two reachable bounds checks throw.
`data_length` is `size_t` arithmetic, so the subtraction wraps at 2^64. -/
def Page.serialize (p0 : Page) : Except String (List Nat) × Page :=
  let p := p0.compact_page
  let buffer0 := List.replicate PAGE_SIZE 0
  let buffer1 := writeBytes buffer0 0 (encodeHeader p.header)
  let slots_bytes := listLen p.slots * SLOT_SIZE
  if PAGEHEADER_SIZE + slots_bytes > PAGE_SIZE then
    (Except.error "Serialize error: slot data out of bounds", p)
  else
    let buffer2 := writeBytes buffer1 PAGEHEADER_SIZE (encodeSlots p.slots)
    let data_offset := PAGEHEADER_SIZE + slots_bytes
    let data_length :=
      (p.header.free_space_offset + 18446744073709551616 - data_offset) % 18446744073709551616
    if data_offset + data_length > PAGE_SIZE then
      (Except.error "Serialize error: data out of bounds", p)
    else
      let buffer3 := writeBytes buffer2 data_offset (readBytes p.data 0 data_length)
      let bitmap_offset := PAGE_SIZE - BITMAP_BYTES
      if bitmap_offset + BITMAP_BYTES > PAGE_SIZE then
        (Except.error "Serialize error: free_id_bitmap out of bounds", p)
      else
        (Except.ok (writeBytes buffer3 bitmap_offset (encodeBitmap p.free_id_bitmap)), p)

/-- `Page::deserialize`.  Note the faithful reproduction of the data
copy `memcpy(data_.data(), data.data() + header_.free_space_offset,
data_.size())` and of its preceding bounds check. -/
def Page.deserialize (data : List Nat) : Except String Page :=
  if listLen data < PAGEHEADER_SIZE then Except.error "Corrupt page: too small"
  else
    let header := decodeHeader (readBytes data 0 PAGEHEADER_SIZE)
    if header.slot_count > IDS_PER_PAGE then Except.error "Corrupt page: too many slots"
    else
      let slots_bytes := header.slot_count * SLOT_SIZE
      if listLen data < PAGEHEADER_SIZE + slots_bytes then
        Except.error "Corrupt page: slot data out of bounds"
      else
        let slots := decodeSlots (readBytes data PAGEHEADER_SIZE slots_bytes) header.slot_count
        let dataSize := PAGE_SIZE - PAGEHEADER_SIZE
        if header.free_space_offset > dataSize then
          Except.error "Corrupt page: free_space_offset out of bounds"
        else if listLen data < header.free_space_offset + dataSize then
          Except.error "Corrupt page: data out of bounds"
        else
          let pdata := readBytes data header.free_space_offset dataSize
          if listLen data < PAGE_SIZE - BITMAP_BYTES + BITMAP_BYTES then
            Except.error "Corrupt page: free_id_bitmap out of bounds"
          else
            Except.ok
              { header := header
                slots := slots
                data := pdata
                free_id_bitmap := decodeBitmap (readBytes data (PAGE_SIZE - BITMAP_BYTES) BITMAP_BYTES) }

/-! ## Row codec (serialize_row / deserialize_row, storage_layer.cpp) -/

inductive ColumnType where
  | INT
  | TEXT
  deriving DecidableEq, Repr, Inhabited

structure ColumnSchema where
  name : List Nat
  type : ColumnType
  size : Nat
  deriving DecidableEq, Repr, Inhabited

def isSpaceByte (c : Nat) : Bool := c == 32 || (9 ≤ c && c ≤ 13)

def isDigitByte (c : Nat) : Bool := 48 ≤ c && c ≤ 57

def digitsToNat (l : List Nat) : Nat := l.foldl (fun a d => a * 10 + (d - 48)) 0

/-- Shared strtol-style front end of `std::stoi` / `std::stoll`:
skip whitespace, optional sign, then a nonempty digit run (trailing
characters are ignored); `none` when no digits were consumed. -/
def parseInt (s : List Nat) : Option Int :=
  let s1 := s.dropWhile isSpaceByte
  let signAndRest : Bool × List Nat :=
    match s1 with
    | 45 :: rest => (true, rest)
    | 43 :: rest => (false, rest)
    | l => (false, l)
  let digits := signAndRest.2.takeWhile isDigitByte
  if digits.isEmpty then none
  else
    let v : Int := (digitsToNat digits : Nat)
    some (if signAndRest.1 then -v else v)

/-- `std::stoi`: throws (modelled as `none`) on no conversion and on
values outside the `int` range. -/
def stoi32 (s : List Nat) : Option Int :=
  match parseInt s with
  | none => none
  | some v => if v < -2147483648 || 2147483647 < v then none else some v

/-- `std::stoll`: as `stoi32` with the 64-bit range. -/
def stoll64 (s : List Nat) : Option Int :=
  match parseInt s with
  | none => none
  | some v =>
    if v < -9223372036854775808 || 9223372036854775807 < v then none else some v

/-- `std::to_string` on a signed integer, as a byte string. -/
def intToBytes (i : Int) : List Nat := strBytes (toString i)

/-- Two's-complement image of an `int32_t` value. -/
def intToU32 (v : Int) : Nat := (v % 4294967296).toNat

/-- Signed 32-bit read of 4 little-endian bytes. -/
def decodeInt32 (b : List Nat) (off : Nat) : Int :=
  let v := getU32 b off
  if v < 2147483648 then (v : Int) else (v : Int) - 4294967296

/-- The field loop of `serialize_row`: for each (column, value) pair,
record the running offset and emit the field bytes.  `INT` fields go
through `std::stoi`, whose exception propagates. -/
def serializeRowFields : List (ColumnSchema × List Nat) → Nat →
    Except String (List Nat × List Nat)
  | [], _ => Except.ok ([], [])
  | (col, val) :: rest, off =>
    match col.type with
    | ColumnType.INT =>
      match stoi32 val with
      | none => Except.error "stoi"
      | some v =>
        match serializeRowFields rest (off + INT_SIZE) with
        | Except.error e => Except.error e
        | Except.ok (offs, bytes) => Except.ok (off :: offs, le32 (intToU32 v) ++ bytes)
    | ColumnType.TEXT =>
      match serializeRowFields rest (off + INT_SIZE + listLen val) with
      | Except.error e => Except.error e
      | Except.ok (offs, bytes) =>
        Except.ok (off :: offs, le32 (listLen val) ++ val ++ bytes)

/-- The `TupleHeader` bytes: `field_count` then the 16-entry `uint16_t`
offset array (zero beyond the used fields). -/
def encodeTupleHeader (count : Nat) (offs : List Nat) : List Nat :=
  le16 count ++ (List.range MAX_COLUMNS).flatMap (fun i => le16 (offs.getD i 0))

/-- `serialize_row` (static, storage_layer.cpp). -/
def serialize_row (schema : List ColumnSchema) (values : List (List Nat)) :
    Except String (List Nat) :=
  match serializeRowFields (schema.zip values) TUPLEHEADER_SIZE with
  | Except.error e => Except.error e
  | Except.ok (offs, bytes) =>
    Except.ok (encodeTupleHeader (listLen schema) offs ++ bytes)

/-- `deserialize_row` (static, storage_layer.cpp).  Returns `[]` for a
buffer shorter than the tuple header; otherwise decodes one value per
schema column at the header-recorded offset. -/
def deserialize_row (schema : List ColumnSchema) (data : List Nat) :
    List (List Nat) :=
  if listLen data < TUPLEHEADER_SIZE then []
  else
    (List.range (listLen schema)).map (fun i =>
      let col := schema.getD i default
      let field_offset := getU16 data (2 + 2 * i)
      match col.type with
      | ColumnType.INT => intToBytes (decodeInt32 data field_offset)
      | ColumnType.TEXT =>
        let len := getU32 data field_offset
        readBytes data (field_offset + INT_SIZE) len)

/-! ## Catalog -/

def CATALOGHEADER_SIZE : Nat := 20
def TABLEMETADATA_SIZE : Nat := 728

structure TableMetadata where
  name : List Nat
  first_data_page : Nat
  last_data_page : Nat
  record_count : Nat
  free_space_head : Nat
  column_count : Nat
  columns : List ColumnSchema
  next_id_block : Nat
  deriving DecidableEq, Repr, Inhabited

/-- `strncmp(a, b, n) == 0` on NUL-terminated strings; the end of a
list plays the terminator (an interior 0 byte also terminates). -/
def cstrncmpEq : List Nat → List Nat → Nat → Bool
  | _, _, 0 => true
  | xs, ys, n + 1 =>
    let x := xs.headD 0
    let y := ys.headD 0
    x == y && (x == 0 || cstrncmpEq xs.tail ys.tail n)

/-- `make_table_metadata` (static, storage_layer.cpp): the name is
truncated to `MAX_TABLE_NAME_LEN` (63) bytes. -/
def make_table_metadata (table_name : List Nat) (schema : List ColumnSchema) :
    TableMetadata :=
  { name := table_name.take MAX_TABLE_NAME_LEN
    first_data_page := INVALID_PAGE_ID
    last_data_page := INVALID_PAGE_ID
    record_count := 0
    free_space_head := INVALID_PAGE_ID
    column_count := listLen schema
    columns := schema.take MAX_COLUMNS
    next_id_block := 0 }

structure CatalogHeader where
  table_count : Nat
  free_page_id : Nat
  system_page_count : Nat
  flags : Nat
  lsn : Nat
  deriving DecidableEq, Repr, Inhabited

structure CatalogPage where
  header : CatalogHeader
  tables : List TableMetadata
  catalog_dirty : Bool
  deriving DecidableEq, Repr, Inhabited

/-- The `CatalogPage` default constructor. -/
def CatalogPage.new : CatalogPage :=
  { header :=
      { table_count := 0
        free_page_id := INVALID_PAGE_ID
        system_page_count := 1
        flags := CATALOG_CLEAN
        lsn := 0 }
    tables := []
    catalog_dirty := false }

/-- `CatalogPage::get_table`: linear scan with `strncmp` bounded by 63. -/
def CatalogPage.get_table (c : CatalogPage) (name : List Nat) : Option TableMetadata :=
  c.tables.find? (fun tm => cstrncmpEq tm.name name MAX_TABLE_NAME_LEN)

/-- `CatalogPage::add_table`. -/
def CatalogPage.add_table (c : CatalogPage) (table_name : List Nat) :
    Bool × CatalogPage :=
  if c.header.table_count ≥ MAX_TABLES then (false, c)
  else if (c.get_table table_name).isSome then (false, c)
  else
    let new_table := make_table_metadata table_name []
    (true,
     { c with
       tables := c.tables ++ [new_table]
       header := { c.header with
         table_count := c.header.table_count + 1
         flags := c.header.flags ||| CATALOG_DIRTY
         lsn := c.header.lsn + 1 }
       catalog_dirty := true })

/-- `CatalogPage::update_table`: find by truncated-name comparison and
overwrite. -/
def CatalogPage.update_table (c : CatalogPage) (metadata : TableMetadata) :
    Bool × CatalogPage :=
  match c.tables.findIdx? (fun tm => cstrncmpEq tm.name metadata.name MAX_TABLE_NAME_LEN) with
  | some i =>
    (true,
     { c with
       tables := c.tables.set i metadata
       header := { c.header with
         flags := c.header.flags ||| CATALOG_DIRTY
         lsn := c.header.lsn + 1 }
       catalog_dirty := true })
  | none => (false, c)

/-- On-disk image of page 0.  `CatalogPage::serialize`/`deserialize`
are a flat memcpy dump of the packed header and metadata structs, a
bijection on the field values; the image is modelled field-level.
`serialize` throws once the dump outgrows the 8192-byte page, which
happens from the 12th table on (20 + 12·728 > 8192); it also rewrites
the serialized `flags` to `CATALOG_CLEAN`. -/
structure CatalogDisk where
  header : CatalogHeader
  tables : List TableMetadata
  deriving DecidableEq, Repr, Inhabited

def CatalogPage.serializeDisk (c : CatalogPage) : Except String CatalogDisk :=
  if CATALOGHEADER_SIZE + listLen c.tables * TABLEMETADATA_SIZE > PAGE_SIZE then
    Except.error "Catalog serialize: table out of bounds"
  else
    Except.ok { header := { c.header with flags := CATALOG_CLEAN }, tables := c.tables }

def CatalogPage.deserializeDisk (d : CatalogDisk) : Except String CatalogPage :=
  if d.header.table_count > MAX_TABLES then
    Except.error "Corrupt catalog: too many tables"
  else
    Except.ok
      { header := d.header
        tables := d.tables.take d.header.table_count
        catalog_dirty := false }

/-! ## FileStorageLayer

The storage instance and its backing directory.  The page cache and the
table-metadata cache (`std::unordered_map`) are association lists; the
directory of `page_<id>.dat` files is the association list `disk_pages`
plus the structured image of page 0 in `disk_catalog`.  C++ references
into the caches are modelled by writing the mutated copy back at the
point the code's mutation becomes observable. -/

def alookup {β : Type} (l : List (Nat × β)) (k : Nat) : Option β :=
  (l.find? (fun kv => kv.1 == k)).map (fun kv => kv.2)

def aupsert {β : Type} (l : List (Nat × β)) (k : Nat) (v : β) : List (Nat × β) :=
  match l.findIdx? (fun kv => kv.1 == k) with
  | some i => l.set i (k, v)
  | none => l ++ [(k, v)]

def tlookup {β : Type} (l : List (List Nat × β)) (k : List Nat) : Option β :=
  (l.find? (fun kv => kv.1 == k)).map (fun kv => kv.2)

def tupsert {β : Type} (l : List (List Nat × β)) (k : List Nat) (v : β) :
    List (List Nat × β) :=
  match l.findIdx? (fun kv => kv.1 == k) with
  | some i => l.set i (k, v)
  | none => l ++ [(k, v)]

structure Store where
  is_open : Bool
  catalog : CatalogPage
  page_cache : List (Nat × Page)
  table_cache : List (List Nat × TableMetadata)
  disk_catalog : Option CatalogDisk
  disk_pages : List (Nat × List Nat)
  deriving DecidableEq, Inhabited

namespace FileStorageLayer

/-- The `FileStorageLayer` constructor: closed store, default catalog,
empty caches. -/
def new (disk_catalog : Option CatalogDisk) (disk_pages : List (Nat × List Nat)) :
    Store :=
  { is_open := false
    catalog := CatalogPage.new
    page_cache := []
    table_cache := []
    disk_catalog := disk_catalog
    disk_pages := disk_pages }

/-- `FileStorageLayer::open`: load page 0 into the catalog when the
file exists, else start a fresh catalog; directory creation is outside
the model.  A deserialize throw propagates before `is_open` is set. -/
def openStore (s : Store) : Except String Unit × Store :=
  match s.disk_catalog with
  | some d =>
    match CatalogPage.deserializeDisk d with
    | Except.error e => (Except.error e, s)
    | Except.ok c => (Except.ok (), { s with catalog := c, is_open := true })
  | none => (Except.ok (), { s with catalog := CatalogPage.new, is_open := true })

/-- `FileStorageLayer::allocate_new_page`. -/
def allocate_new_page (s : Store) : Nat × Store :=
  if s.catalog.header.free_page_id != INVALID_PAGE_ID then
    let allocated := s.catalog.header.free_page_id
    let h1 := { s.catalog.header with
      free_page_id := (s.catalog.header.free_page_id + 1) % 4294967296 }
    let h2 := if allocated ≥ h1.system_page_count then
        { h1 with system_page_count := (allocated + 1) % 4294967296 }
      else h1
    (allocated,
     { s with catalog := { s.catalog with
         header := { h2 with lsn := h2.lsn + 1 }
         catalog_dirty := true } })
  else
    let h1 := { s.catalog.header with
      system_page_count := (s.catalog.header.system_page_count + 1) % 4294967296 }
    (h1.system_page_count,
     { s with catalog := { s.catalog with
         header := { h1 with lsn := h1.lsn + 1 }
         catalog_dirty := true } })

/-- `FileStorageLayer::get_or_load_page`: cache hit, else read the
page file (short files read as zero-padded) and deserialize; a missing
file throws "Page not found". -/
def get_or_load_page (s : Store) (pid : Nat) : Except String (Page × Store) :=
  match alookup s.page_cache pid with
  | some p => Except.ok (p, s)
  | none =>
    match alookup s.disk_pages pid with
    | none => Except.error "Page not found"
    | some bytes =>
      let data := bytes.take PAGE_SIZE ++ List.replicate (PAGE_SIZE - listLen bytes) 0
      match Page.deserialize data with
      | Except.error e => Except.error e
      | Except.ok pg =>
        Except.ok (pg, { s with page_cache := s.page_cache ++ [(pid, pg)] })

/-- `FileStorageLayer::get_or_create_page`: any load failure is caught
and a fresh page is created in the cache. -/
def get_or_create_page (s : Store) (pid irs : Nat) : Page × Store :=
  match get_or_load_page s pid with
  | Except.ok (p, s') => (p, s')
  | Except.error _ =>
    let pg := Page.make pid irs
    (pg, { s with page_cache := s.page_cache ++ [(pid, pg)] })

/-- `FileStorageLayer::get_table_metadata`: table cache hit, else load
the catalog entry into the cache. -/
def get_table_metadata (s : Store) (t : List Nat) :
    Except String TableMetadata × Store :=
  match tlookup s.table_cache t with
  | some m => (Except.ok m, s)
  | none =>
    match s.catalog.get_table t with
    | none => (Except.error "Table does not exist", s)
    | some m => (Except.ok m, { s with table_cache := s.table_cache ++ [(t, m)] })

/-- `FileStorageLayer::create` — note: no `is_open` check. -/
def create (s : Store) (table : List Nat) (schema : List ColumnSchema) :
    Except String Unit × Store :=
  if (s.catalog.get_table table).isSome then (Except.error "Table already exists", s)
  else
    let new_table := make_table_metadata table schema
    let c1 := (s.catalog.add_table table).2
    let c2 := (c1.update_table new_table).2
    (Except.ok (),
     { s with
       catalog := { c2 with catalog_dirty := true }
       table_cache := tupsert s.table_cache table new_table })

/-- The free-id scan of `FileStorageLayer::insert` on one page: walk
bits `i = 0 .. 1023`, attempt `insert_record(id_range_start + i)` on
each clear bit (a `uint32_t` sum, hence the mod); set the bit on
success.  A failed attempt leaves the page compacted and moves on. -/
def insertIdScan (record : List Nat) (p : Page) (i : Nat) : Option Nat × Page :=
  if _h : i < IDS_PER_PAGE then
    if p.free_id_bitmap.getD i false then insertIdScan record p (i + 1)
    else
      let record_id := (p.header.id_range_start + i) % 4294967296
      match p.insert_record record_id record with
      | (some _, p') =>
        (some record_id, { p' with free_id_bitmap := p'.free_id_bitmap.set i true })
      | (none, p') => insertIdScan record p' (i + 1)
  else (none, p)
termination_by IDS_PER_PAGE - i

/-- The page-chain loop of `FileStorageLayer::insert`.  `fuel` bounds
the walk; callers pass more fuel than there are pages, so that fuel
exhaustion (the model's stand-in for the infinite loop a cyclic chain
would produce in C++) is unreachable from the states the theorems
range over. -/
def insertWalk (t : List Nat) (m : TableMetadata) (record : List Nat) :
    Store → Nat → Nat → Except String (Option Nat) × Store
  | s, _, 0 => (Except.error "model: page chain cycle", s)
  | s, current, fuel + 1 =>
    if current == INVALID_PAGE_ID then (Except.ok none, s)
    else
      match get_or_load_page s current with
      | Except.error e => (Except.error e, s)
      | Except.ok (pg, s1) =>
        match insertIdScan record pg 0 with
        | (some rid, pg') =>
          let m' := { m with record_count := (m.record_count + 1) % 4294967296 }
          (Except.ok (some rid),
           { s1 with
             page_cache := aupsert s1.page_cache current pg'
             table_cache := tupsert s1.table_cache t m'
             catalog := (s1.catalog.update_table m').2 })
        | (none, pg') =>
          insertWalk t m record
            { s1 with page_cache := aupsert s1.page_cache current pg' }
            pg'.header.next_page_id fuel

/-- `FileStorageLayer::insert`. -/
def insert (s : Store) (table : List Nat) (values : List (List Nat)) :
    Except String Nat × Store :=
  if !s.is_open then (Except.error "Storage not open", s)
  else
    match get_table_metadata s table with
    | (Except.error e, s1) => (Except.error e, s1)
    | (Except.ok m, s1) =>
      if listLen values != m.column_count then (Except.error "Column count mismatch", s1)
      else
        let schema := m.columns.take m.column_count
        match serialize_row schema values with
        | Except.error e => (Except.error e, s1)
        | Except.ok record =>
          match insertWalk table m record s1 m.first_data_page
              (listLen s1.page_cache + listLen s1.disk_pages + 1) with
          | (Except.error e, s2) => (Except.error e, s2)
          | (Except.ok (some rid), s2) => (Except.ok rid, s2)
          | (Except.ok none, s2) =>
            let alloc := allocate_new_page s2
            let new_page_id := alloc.1
            let s3 := alloc.2
            let id_range_start :=
              if m.next_id_block == 0 then 1
              else (m.next_id_block * IDS_PER_PAGE + 1) % 4294967296
            let created := get_or_create_page s3 new_page_id id_range_start
            let s4 := created.2
            let np1 := { created.1 with header := { created.1.header with
              id_range_start := id_range_start
              id_range_end := (id_range_start + IDS_PER_PAGE) % 4294967296 } }
            let np2 := { np1 with free_id_bitmap := List.replicate IDS_PER_PAGE false }
            let record_id := id_range_start
            match np2.insert_record record_id record with
            | (none, np3) =>
              (Except.error "Failed to insert record in new page",
               { s4 with page_cache := aupsert s4.page_cache new_page_id np3 })
            | (some _, np3) =>
              let np4 := { np3 with free_id_bitmap := np3.free_id_bitmap.set 0 true }
              let s5 := { s4 with page_cache := aupsert s4.page_cache new_page_id np4 }
              let linked : Except String Store :=
                if m.last_data_page == INVALID_PAGE_ID then Except.ok s5
                else
                  match get_or_load_page s5 m.last_data_page with
                  | Except.error e => Except.error e
                  | Except.ok (prev, s6) =>
                    let prev' := { prev with header :=
                      { prev.header with next_page_id := new_page_id } }
                    Except.ok { s6 with
                      page_cache := aupsert s6.page_cache m.last_data_page prev' }
              match linked with
              | Except.error e => (Except.error e, s5)
              | Except.ok s7 =>
                let m' := { m with
                  first_data_page :=
                    if m.last_data_page == INVALID_PAGE_ID then new_page_id
                    else m.first_data_page
                  last_data_page := new_page_id
                  record_count := (m.record_count + 1) % 4294967296
                  next_id_block := (m.next_id_block + 1) % 4294967296 }
                (Except.ok record_id,
                 { s7 with
                   table_cache := tupsert s7.table_cache table m'
                   catalog := (s7.catalog.update_table m').2 })

/-- The page-chain loop of `FileStorageLayer::get`. -/
def getWalk (schema : List ColumnSchema) (rid : Nat) :
    Store → Nat → Nat → Except String (List (List Nat)) × Store
  | s, _, 0 => (Except.error "model: page chain cycle", s)
  | s, current, fuel + 1 =>
    if current == INVALID_PAGE_ID then (Except.error "Record not found", s)
    else
      match get_or_load_page s current with
      | Except.error e => (Except.error e, s)
      | Except.ok (pg, s1) =>
        match pg.get_record rid with
        | some rec => (Except.ok (deserialize_row schema rec), s1)
        | none => getWalk schema rid s1 pg.header.next_page_id fuel

/-- `FileStorageLayer::get`. -/
def get (s : Store) (table : List Nat) (rid : Nat) :
    Except String (List (List Nat)) × Store :=
  if !s.is_open then (Except.error "Storage not open", s)
  else
    match get_table_metadata s table with
    | (Except.error e, s1) => (Except.error e, s1)
    | (Except.ok m, s1) =>
      let schema := m.columns.take m.column_count
      getWalk schema rid s1 m.first_data_page
        (listLen s1.page_cache + listLen s1.disk_pages + 1)

/-- The page-chain loop of `FileStorageLayer::update`.  The cached page
is written back after every `update_record` call: a failing call can
still have compacted the page. -/
def updateWalk (rid : Nat) (record : List Nat) :
    Store → Nat → Nat → Except String Unit × Store
  | s, _, 0 => (Except.error "model: page chain cycle", s)
  | s, current, fuel + 1 =>
    if current == INVALID_PAGE_ID then (Except.error "Record not found for update", s)
    else
      match get_or_load_page s current with
      | Except.error e => (Except.error e, s)
      | Except.ok (pg, s1) =>
        match pg.update_record rid record with
        | (true, pg') =>
          (Except.ok (), { s1 with page_cache := aupsert s1.page_cache current pg' })
        | (false, pg') =>
          updateWalk rid record
            { s1 with page_cache := aupsert s1.page_cache current pg' }
            pg'.header.next_page_id fuel

/-- `FileStorageLayer::update`. -/
def update (s : Store) (table : List Nat) (rid : Nat) (values : List (List Nat)) :
    Except String Unit × Store :=
  if !s.is_open then (Except.error "Storage not open", s)
  else
    match get_table_metadata s table with
    | (Except.error e, s1) => (Except.error e, s1)
    | (Except.ok m, s1) =>
      if listLen values != m.column_count then (Except.error "Column count mismatch", s1)
      else
        let schema := m.columns.take m.column_count
        match serialize_row schema values with
        | Except.error e => (Except.error e, s1)
        | Except.ok record =>
          updateWalk rid record s1 m.first_data_page
            (listLen s1.page_cache + listLen s1.disk_pages + 1)

/-- The page-chain loop of `FileStorageLayer::delete_record`. -/
def deleteWalk (t : List Nat) (m : TableMetadata) (rid : Nat) :
    Store → Nat → Nat → Except String Unit × Store
  | s, _, 0 => (Except.error "model: page chain cycle", s)
  | s, current, fuel + 1 =>
    if current == INVALID_PAGE_ID then (Except.error "Record not found for deletion", s)
    else
      match get_or_load_page s current with
      | Except.error e => (Except.error e, s)
      | Except.ok (pg, s1) =>
        if rid ≥ pg.header.id_range_start && rid < pg.header.id_range_end then
          let idx := rid - pg.header.id_range_start
          match pg.delete_record rid with
          | (true, pg') =>
            let pg2 :=
              if idx < IDS_PER_PAGE then
                { pg' with free_id_bitmap := pg'.free_id_bitmap.set idx false }
              else pg'
            let m' := { m with record_count :=
              if m.record_count > 0 then m.record_count - 1 else m.record_count }
            (Except.ok (),
             { s1 with
               page_cache := aupsert s1.page_cache current pg2
               table_cache := tupsert s1.table_cache t m'
               catalog := (s1.catalog.update_table m').2 })
          | (false, _) =>
            (Except.error "Delete failed: record not found or already deleted", s1)
        else deleteWalk t m rid s1 pg.header.next_page_id fuel

/-- `FileStorageLayer::delete_record`. -/
def delete_record (s : Store) (table : List Nat) (rid : Nat) :
    Except String Unit × Store :=
  if !s.is_open then (Except.error "Storage not open", s)
  else
    match get_table_metadata s table with
    | (Except.error e, s1) => (Except.error e, s1)
    | (Except.ok m, s1) =>
      deleteWalk table m rid s1 m.first_data_page
        (listLen s1.page_cache + listLen s1.disk_pages + 1)

/-- The per-page flush step of `FileStorageLayer::flush`
(`write_page_to_disk`): opening the `ofstream` truncates the file
before `serialize` runs, and `serialize` compacts the cached page. -/
def flushPages : List (Nat × Page) → List (Nat × List Nat) →
    Except String Unit × List (Nat × Page) × List (Nat × List Nat)
  | [], disk => (Except.ok (), [], disk)
  | (pid, pg) :: rest, disk =>
    if pg.is_dirty then
      let disk1 := aupsert disk pid []
      match pg.serialize with
      | (Except.ok bytes, pg') =>
        match flushPages rest (aupsert disk1 pid bytes) with
        | (r, rest', disk') => (r, (pid, pg') :: rest', disk')
      | (Except.error e, pg') => (Except.error e, (pid, pg') :: rest, disk1)
    else
      match flushPages rest disk with
      | (r, rest', disk') => (r, (pid, pg) :: rest', disk')

/-- The all-zero catalog image a truncated page-0 file reads back as. -/
def zeroCatalogDisk : CatalogDisk :=
  { header := { table_count := 0, free_page_id := 0, system_page_count := 0,
                flags := 0, lsn := 0 }
    tables := [] }

/-- `FileStorageLayer::flush` — note: a closed store returns silently.
The iteration order over the unordered page cache is unspecified in
C++; the model uses the association-list order. -/
def flush (s : Store) : Except String Unit × Store :=
  if !s.is_open then (Except.ok (), s)
  else
    match flushPages s.page_cache s.disk_pages with
    | (Except.error e, cache', disk') =>
      (Except.error e, { s with page_cache := cache', disk_pages := disk' })
    | (Except.ok _, cache', disk') =>
      let s1 := { s with page_cache := cache', disk_pages := disk' }
      if s1.catalog.catalog_dirty then
        match s1.catalog.serializeDisk with
        | Except.error e => (Except.error e, { s1 with disk_catalog := some zeroCatalogDisk })
        | Except.ok d => (Except.ok (), { s1 with disk_catalog := some d })
      else (Except.ok (), s1)

/-- `FileStorageLayer::close`: flush, then mark closed; idempotent when
already closed; a flush throw propagates with the store still open. -/
def close (s : Store) : Except String Unit × Store :=
  if !s.is_open then (Except.ok (), s)
  else
    match flush s with
    | (Except.error e, s') => (Except.error e, s')
    | (Except.ok _, s') => (Except.ok (), { s' with is_open := false })

end FileStorageLayer

/-! ### Scan pipeline (the six-argument `FileStorageLayer::scan`) -/

/-- `std::string::operator<`: lexicographic byte comparison. -/
def bytesLt : List Nat → List Nat → Bool
  | [], [] => false
  | [], _ :: _ => true
  | _ :: _, [] => false
  | x :: xs, y :: ys => x < y || (x == y && bytesLt xs ys)

/-- The order-by comparator of `scan`: per key, integer comparison when
both sides parse with `std::stoi`, else byte-string comparison; equal
keys fall through to the next key. -/
def rowLess (order : List (Int × Bool)) (a b : List (List Nat)) : Bool :=
  match order with
  | [] => false
  | (col, asc) :: rest =>
    if col < 0 || (listLen a : Int) ≤ col || (listLen b : Int) ≤ col then rowLess rest a b
    else
      let av := a.getD col.toNat []
      let bv := b.getD col.toNat []
      match stoi32 av, stoi32 bv with
      | some ai, some bi =>
        if ai != bi then (if asc then decide (ai < bi) else decide (bi < ai))
        else rowLess rest a b
      | _, _ =>
        if av != bv then (if asc then bytesLt av bv else bytesLt bv av)
        else rowLess rest a b

/-- `std::sort` with the comparator above.  The C++ sort is unstable
with unspecified tie order; the model fixes merge-sort order, which no
claim depends on. -/
def sortRows (order : List (Int × Bool)) (rows : List (List (List Nat))) :
    List (List (List Nat)) :=
  rows.mergeSort (fun a b => !(rowLess order b a))

/-- Per-row filter and projection step of the materialize loop. -/
def filterProjectRow (projection : Option (List Int))
    (filter_func : Option (List (List Nat) → Bool)) (row : List (List Nat)) :
    Option (List (List Nat)) :=
  match filter_func with
  | some f => if f row then
      (match projection with
       | some idxs => some (idxs.filterMap (fun idx =>
           if 0 ≤ idx && idx < (listLen row : Int) then some (row.getD idx.toNat []) else none))
       | none => some row)
    else none
  | none =>
    match projection with
    | some idxs => some (idxs.filterMap (fun idx =>
        if 0 ≤ idx && idx < (listLen row : Int) then some (row.getD idx.toNat []) else none))
    | none => some row

/-- Materialize one page: iterate the slot directory, decode each
occupied slot through `get_record` and the row codec, apply filter and
projection. -/
def scanPage (schema : List ColumnSchema) (projection : Option (List Int))
    (filter_func : Option (List (List Nat) → Bool)) (p : Page) :
    List (List (List Nat)) :=
  p.slots.filterMap (fun slot =>
    if slot.is_occupied then
      match p.get_record slot.record_id with
      | some rec => filterProjectRow projection filter_func (deserialize_row schema rec)
      | none => none
    else none)

namespace FileStorageLayer

/-- The materialize loop of `scan` over the page chain. -/
def scanWalk (schema : List ColumnSchema) (projection : Option (List Int))
    (filter_func : Option (List (List Nat) → Bool)) :
    Store → Nat → Nat → Except String (List (List (List Nat))) × Store
  | s, _, 0 => (Except.error "model: page chain cycle", s)
  | s, current, fuel + 1 =>
    if current == INVALID_PAGE_ID then (Except.ok [], s)
    else
      match get_or_load_page s current with
      | Except.error e => (Except.error e, s)
      | Except.ok (pg, s1) =>
        match scanWalk schema projection filter_func s1 pg.header.next_page_id fuel with
        | (Except.error e, s2) => (Except.error e, s2)
        | (Except.ok rest, s2) =>
          (Except.ok (scanPage schema projection filter_func pg ++ rest), s2)

/-- The aggregate stage of `scan`.  An empty result set (or a column
index that is negative or not below the first row's width) throws. -/
def scanAggregate (results : List (List (List Nat))) (op : List Nat) (col : Int) :
    Except String (List (List (List Nat))) :=
  if col < 0 || (results.isEmpty || (listLen (results.headD []) : Int) ≤ col) then
    Except.error "Invalid column index for aggregation"
  else if op == strBytes "SUM" then
    let sum := results.foldl (fun acc row =>
      match stoll64 (row.getD col.toNat []) with
      | some v => acc + v
      | none => acc) 0
    Except.ok [[intToBytes sum]]
  else if op == strBytes "ABS" then
    Except.ok (results.map (fun row =>
      match stoi32 (row.getD col.toNat []) with
      | some v => row.set col.toNat (intToBytes (Int.natAbs v : Int))
      | none => row))
  else Except.error "Unsupported aggregate operation"

/-- `FileStorageLayer::scan` (the six-argument overload defined in
storage_layer.cpp). -/
def scan (s : Store) (table : List Nat) (projection : Option (List Int))
    (filter_func : Option (List (List Nat) → Bool))
    (order_by : Option (List (Int × Bool))) (limit : Option Nat)
    (aggregate : Option (List Nat × Int)) :
    Except String (List (List (List Nat))) × Store :=
  if !s.is_open then (Except.error "Storage not open", s)
  else
    match get_table_metadata s table with
    | (Except.error e, s1) => (Except.error e, s1)
    | (Except.ok m, s1) =>
      let schema := m.columns.take m.column_count
      match scanWalk schema projection filter_func s1 m.first_data_page
          (listLen s1.page_cache + listLen s1.disk_pages + 1) with
      | (Except.error e, s2) => (Except.error e, s2)
      | (Except.ok results0, s2) =>
        let results1 :=
          match order_by with
          | some ord => if ord.isEmpty then results0 else sortRows ord results0
          | none => results0
        let results2 :=
          match limit with
          | some l => if listLen results1 > l then results1.take l else results1
          | none => results1
        match aggregate with
        | none => (Except.ok results2, s2)
        | some (op, col) => (scanAggregate results2 op col, s2)

end FileStorageLayer

/-! ## Byte-buffer lemmas -/

theorem foldl_count {α : Type} (l : List α) (n : Nat) :
    l.foldl (fun a _ => a + 1) n = n + l.length := by
  induction l generalizing n with
  | nil => simp
  | cons x xs ih => simp [List.foldl, ih]; omega

theorem listLen_eq {α : Type} (l : List α) : listLen l = l.length := by
  simpa using foldl_count l 0

theorem readBytes_length (b : List Nat) (off len : Nat) :
    (readBytes b off len).length = min len (b.length - off) := by
  simp [readBytes]

theorem readBytes_length_of_le (b : List Nat) (off len : Nat)
    (h : off + len ≤ b.length) : (readBytes b off len).length = len := by
  rw [readBytes_length]; omega

theorem writeBytes_length (b : List Nat) (off : Nat) (src : List Nat)
    (h : off + src.length ≤ b.length) :
    (writeBytes b off src).length = b.length := by
  simp [writeBytes, listLen_eq]
  omega

theorem readBytes_writeBytes_self (b : List Nat) (off : Nat) (src : List Nat)
    (h : off + src.length ≤ b.length) :
    readBytes (writeBytes b off src) off src.length = src := by
  have h1 : (b.take off).length = off := by
    rw [List.length_take]; omega
  simp only [readBytes, writeBytes, listLen_eq]
  rw [List.drop_append_of_le_length (by simp [List.length_append, h1]),
    List.drop_append_of_le_length (by simp [h1]),
    List.drop_eq_nil_of_le (by simp [h1])]
  simp only [List.nil_append]
  exact List.take_left src _

theorem readBytes_writeBytes_left (b : List Nat) (off : Nat) (src : List Nat)
    (pos len : Nat) (h : pos + len ≤ off) (hb : off ≤ b.length) :
    readBytes (writeBytes b off src) pos len = readBytes b pos len := by
  have h1 : (b.take off).length = off := by
    rw [List.length_take]; omega
  simp only [readBytes, writeBytes, listLen_eq]
  rw [List.drop_append_of_le_length (by simp [List.length_append, h1]; omega),
    List.take_append_of_le_length (by simp [List.length_drop, List.length_append, h1]; omega),
    List.drop_append_of_le_length (by simp [h1]; omega),
    List.take_append_of_le_length (by simp [List.length_drop, h1]; omega),
    List.drop_take, List.take_take]
  congr 1
  omega

theorem encodeHeader_length (h : PageHeader) :
    (encodeHeader h).length = PAGEHEADER_SIZE := rfl

theorem encodeSlot_length (s : Slot) : (encodeSlot s).length = SLOT_SIZE := rfl

theorem encodeSlots_length (ss : List Slot) :
    (encodeSlots ss).length = SLOT_SIZE * ss.length := by
  induction ss with
  | nil => rfl
  | cons s rest ih =>
    simp only [encodeSlots, List.flatMap_cons] at ih ⊢
    rw [List.length_append, encodeSlot_length, ih, List.length_cons]
    simp only [SLOT_SIZE]
    omega

theorem encodeBitmap_length (bits : List Bool) :
    (encodeBitmap bits).length = BITMAP_BYTES := by
  simp [encodeBitmap]

theorem getU16_le16_append (n : Nat) (rest : List Nat) :
    getU16 (le16 n ++ rest) 0 = n % 65536 := by
  simp [getU16, le16, List.getD]
  omega

theorem getU32_le32_append (n : Nat) (rest : List Nat) :
    getU32 (le32 n ++ rest) 0 = n % 4294967296 := by
  simp [getU32, le32, List.getD]
  omega

/-- Decoding an encoded header restores every field that is within its
C++ integer width. -/
theorem decodeHeader_encodeHeader (h : PageHeader)
    (h1 : h.page_id < 4294967296) (h2 : h.slot_count < 65536)
    (h3 : h.free_space < 65536) (h4 : h.free_space_offset < 65536)
    (h5 : h.next_page_id < 4294967296) (h6 : h.flags < 256)
    (h7 : h.lsn < 4294967296) (h8 : h.id_range_start < 4294967296)
    (h9 : h.id_range_end < 4294967296) :
    decodeHeader (encodeHeader h) = h := by
  cases h with
  | mk pid sc fs fso npid fl lsn irs ire =>
    simp only [decodeHeader, encodeHeader, le16, le32, getU16, getU32] at *
    simp only [List.cons_append, List.nil_append, List.getD_cons_zero,
      List.getD_cons_succ]
    simp only [PageHeader.mk.injEq]
    refine ⟨?_, ?_, ?_, ?_, ?_, ?_, ?_, ?_, ?_⟩ <;> omega

/-! ## Compaction lemmas -/

/-- Sum of the payload lengths of the occupied slots. -/
def occLenSum (ss : List Slot) : Nat :=
  (ss.map (fun s => if s.is_occupied then s.length else 0)).sum

theorem compactFold_off (dat : List Nat) (ss : List Slot) :
    ∀ acc : List Slot × List Nat × Nat,
    acc.2.2 + occLenSum ss < 65536 →
    (ss.foldl (compactStep dat) acc).2.2 = acc.2.2 + occLenSum ss := by
  induction ss with
  | nil => intro acc _; simp [occLenSum]
  | cons s rest ih =>
    rintro ⟨sa, nd, off⟩ hb
    simp only [occLenSum, List.map_cons, List.sum_cons] at hb ⊢
    cases ho : s.is_occupied with
    | true =>
      simp only [ho, if_true] at hb
      have hlt : off + s.length < 65536 := by omega
      have hstep : compactStep dat (sa, nd, off) s
          = (sa ++ [{ s with offset := off }],
             writeBytes nd off (readBytes dat s.offset s.length), off + s.length) := by
        simp [compactStep, ho, Nat.mod_eq_of_lt hlt]
      rw [List.foldl_cons, hstep]
      have hrec := ih (sa ++ [{ s with offset := off }],
        writeBytes nd off (readBytes dat s.offset s.length), off + s.length)
        (by simp only [occLenSum]; omega)
      simp only [occLenSum] at hrec
      rw [hrec]
      simp only [ho, if_true]
      omega
    | false =>
      simp only [ho] at hb
      simp only [Bool.false_eq_true, if_false] at hb
      have hstep : compactStep dat (sa, nd, off) s = (sa ++ [s], nd, off) := by
        simp [compactStep, ho]
      rw [List.foldl_cons, hstep]
      have hrec := ih (sa ++ [s], nd, off) (by simp only [occLenSum]; omega)
      simp only [occLenSum] at hrec
      rw [hrec]
      simp only [ho, Bool.false_eq_true, if_false]
      omega

theorem compactFold_slots_len (dat : List Nat) (ss : List Slot) :
    ∀ acc : List Slot × List Nat × Nat,
    (ss.foldl (compactStep dat) acc).1.length = acc.1.length + ss.length := by
  induction ss with
  | nil => intro acc; simp
  | cons s rest ih =>
    rintro ⟨sa, nd, off⟩
    by_cases ho : s.is_occupied <;>
      simp only [List.foldl_cons, compactStep, ho, if_true, if_false] <;>
      rw [ih] <;> simp <;> omega

theorem compact_page_fso (p : Page)
    (h : PAGEHEADER_SIZE + occLenSum p.slots < 65536) :
    (p.compact_page).header.free_space_offset = PAGEHEADER_SIZE + occLenSum p.slots := by
  simp only [Page.compact_page]
  exact compactFold_off p.data p.slots _ h

theorem compact_page_slots_len (p : Page) :
    (p.compact_page).slots.length = p.slots.length := by
  simp only [Page.compact_page]
  rw [compactFold_slots_len]
  simp

theorem compact_page_slot_count (p : Page) :
    (p.compact_page).header.slot_count = p.header.slot_count := rfl

theorem compact_page_flags (p : Page) :
    (p.compact_page).header.flags = p.header.flags ||| PAGE_DIRTY := rfl

/-! ## Serialize / deserialize lemmas (claims C1 and C2) -/

/-- When the directory fits in the page and the compacted payload
covers the directory bytes, `Page::serialize` succeeds, producing an
8192-byte buffer whose first 32 bytes are the encoded compacted
header. -/
theorem serialize_ok_spec (p : Page)
    (hn : PAGEHEADER_SIZE + SLOT_SIZE * p.slots.length ≤ PAGE_SIZE)
    (hge : SLOT_SIZE * p.slots.length ≤ occLenSum p.slots)
    (hocc : occLenSum p.slots ≤ PAGE_SIZE - PAGEHEADER_SIZE - PAGEHEADER_SIZE) :
    ∃ B, (p.serialize).1 = Except.ok B ∧ B.length = PAGE_SIZE ∧
      readBytes B 0 PAGEHEADER_SIZE = encodeHeader ((p.compact_page).header) := by
  have hocc16 : PAGEHEADER_SIZE + occLenSum p.slots < 65536 := by
    simp only [PAGE_SIZE, PAGEHEADER_SIZE] at hocc ⊢; omega
  have hfso := compact_page_fso p hocc16
  have hslen := compact_page_slots_len p
  simp only [Page.serialize, listLen_eq, hslen, hfso]
  have hc1 : ¬ (PAGEHEADER_SIZE + p.slots.length * SLOT_SIZE > PAGE_SIZE) := by
    simp only [PAGE_SIZE, PAGEHEADER_SIZE, SLOT_SIZE] at hn ⊢; omega
  rw [if_neg hc1]
  have hdl : (PAGEHEADER_SIZE + occLenSum p.slots + 18446744073709551616 -
      (PAGEHEADER_SIZE + p.slots.length * SLOT_SIZE)) % 18446744073709551616
      = occLenSum p.slots - p.slots.length * SLOT_SIZE := by
    have h12 : p.slots.length * SLOT_SIZE ≤ occLenSum p.slots := by
      simpa [Nat.mul_comm] using hge
    have : PAGEHEADER_SIZE + occLenSum p.slots + 18446744073709551616 -
        (PAGEHEADER_SIZE + p.slots.length * SLOT_SIZE)
        = (occLenSum p.slots - p.slots.length * SLOT_SIZE) + 18446744073709551616 := by
      omega
    rw [this, Nat.add_mod_right, Nat.mod_eq_of_lt (by omega)]
  rw [hdl]
  have hc2 : ¬ (PAGEHEADER_SIZE + p.slots.length * SLOT_SIZE +
      (occLenSum p.slots - p.slots.length * SLOT_SIZE) > PAGE_SIZE) := by
    have h12 : p.slots.length * SLOT_SIZE ≤ occLenSum p.slots := by
      simpa [Nat.mul_comm] using hge
    simp only [PAGE_SIZE, PAGEHEADER_SIZE] at hocc ⊢
    omega
  rw [if_neg hc2]
  have hc3 : ¬ (PAGE_SIZE - BITMAP_BYTES + BITMAP_BYTES > PAGE_SIZE) := by
    simp [PAGE_SIZE, BITMAP_BYTES]
  rw [if_neg hc3]
  have h12 : p.slots.length * SLOT_SIZE ≤ occLenSum p.slots := by
    simpa [Nat.mul_comm] using hge
  have hb0 : (List.replicate PAGE_SIZE (0 : Nat)).length = PAGE_SIZE :=
    List.length_replicate _ _
  have hw1len : (writeBytes (List.replicate PAGE_SIZE 0) 0
      (encodeHeader (p.compact_page).header)).length = PAGE_SIZE := by
    rw [writeBytes_length _ _ _
      (by rw [encodeHeader_length, hb0]; simp only [PAGE_SIZE, PAGEHEADER_SIZE]; omega)]
    exact hb0
  have hw2len : (writeBytes (writeBytes (List.replicate PAGE_SIZE 0) 0
      (encodeHeader (p.compact_page).header)) PAGEHEADER_SIZE
      (encodeSlots (p.compact_page).slots)).length = PAGE_SIZE := by
    rw [writeBytes_length _ _ _
      (by rw [encodeSlots_length, hslen, hw1len]
          simp only [PAGE_SIZE, PAGEHEADER_SIZE, SLOT_SIZE] at hn ⊢
          omega)]
    exact hw1len
  have hsrclen : (readBytes (p.compact_page).data 0
      (occLenSum p.slots - p.slots.length * SLOT_SIZE)).length
      ≤ occLenSum p.slots - p.slots.length * SLOT_SIZE := by
    rw [readBytes_length]; omega
  have hw3len : (writeBytes (writeBytes (writeBytes (List.replicate PAGE_SIZE 0) 0
      (encodeHeader (p.compact_page).header)) PAGEHEADER_SIZE
      (encodeSlots (p.compact_page).slots))
      (PAGEHEADER_SIZE + p.slots.length * SLOT_SIZE)
      (readBytes (p.compact_page).data 0
        (occLenSum p.slots - p.slots.length * SLOT_SIZE))).length = PAGE_SIZE := by
    rw [writeBytes_length _ _ _
      (by rw [hw2len]
          simp only [PAGE_SIZE, PAGEHEADER_SIZE] at hocc hsrclen ⊢
          omega)]
    exact hw2len
  refine ⟨_, rfl, ?_, ?_⟩
  · rw [writeBytes_length _ _ _
      (by rw [encodeBitmap_length, hw3len]; simp only [PAGE_SIZE, BITMAP_BYTES]; omega)]
    exact hw3len
  · rw [readBytes_writeBytes_left _ _ _ _ _
        (by simp only [PAGEHEADER_SIZE, PAGE_SIZE, BITMAP_BYTES]; omega)
        (by rw [hw3len]; simp only [PAGE_SIZE, BITMAP_BYTES]; omega),
      readBytes_writeBytes_left _ _ _ _ _
        (by simp only [PAGEHEADER_SIZE]; omega)
        (by rw [hw2len]; simp only [PAGE_SIZE, PAGEHEADER_SIZE] at hocc ⊢; omega),
      readBytes_writeBytes_left _ _ _ _ _
        (by simp only [PAGEHEADER_SIZE]; omega)
        (by rw [hw1len]
            simp only [PAGE_SIZE, PAGEHEADER_SIZE, SLOT_SIZE] at hn ⊢
            omega)]
    have hself := readBytes_writeBytes_self (List.replicate PAGE_SIZE 0) 0
      (encodeHeader (p.compact_page).header)
      (by rw [encodeHeader_length, hb0]; simp only [PAGE_SIZE, PAGEHEADER_SIZE]; omega)
    rw [encodeHeader_length] at hself
    simpa using hself

/-- `Page::deserialize` rejects any buffer whose header records a
`free_space_offset` beyond `sizeof(PageHeader)`: the bounds check
before the data copy demands `free_space_offset + (PAGE_SIZE -
sizeof(PageHeader)) ≤ PAGE_SIZE`. -/
theorem deserialize_fso_out_of_bounds (B : List Nat) (hdr : PageHeader)
    (hB : B.length = PAGE_SIZE)
    (hhdr : readBytes B 0 PAGEHEADER_SIZE = encodeHeader hdr)
    (b1 : hdr.page_id < 4294967296) (b2 : hdr.slot_count < 65536)
    (b3 : hdr.free_space < 65536) (b4 : hdr.free_space_offset < 65536)
    (b5 : hdr.next_page_id < 4294967296) (b6 : hdr.flags < 256)
    (b7 : hdr.lsn < 4294967296) (b8 : hdr.id_range_start < 4294967296)
    (b9 : hdr.id_range_end < 4294967296)
    (hsc : hdr.slot_count ≤ IDS_PER_PAGE)
    (hslots : PAGEHEADER_SIZE + hdr.slot_count * SLOT_SIZE ≤ PAGE_SIZE)
    (hfsole : hdr.free_space_offset ≤ PAGE_SIZE - PAGEHEADER_SIZE)
    (hfsogt : PAGEHEADER_SIZE < hdr.free_space_offset) :
    Page.deserialize B = Except.error "Corrupt page: data out of bounds" := by
  have hdec : decodeHeader (readBytes B 0 PAGEHEADER_SIZE) = hdr := by
    rw [hhdr]; exact decodeHeader_encodeHeader hdr b1 b2 b3 b4 b5 b6 b7 b8 b9
  simp only [Page.deserialize, listLen_eq, hB, hdec]
  rw [if_neg (by simp only [PAGE_SIZE, PAGEHEADER_SIZE]; omega),
    if_neg (by omega),
    if_neg (by simp only [PAGE_SIZE, PAGEHEADER_SIZE, SLOT_SIZE] at hslots ⊢; omega),
    if_neg (by omega),
    if_pos (by simp only [PAGE_SIZE, PAGEHEADER_SIZE] at hfsogt ⊢; omega)]

/-- Claim C1 core: serializing and then deserializing any well-formed
page whose occupied payload covers its directory bytes and is nonempty
always raises the data-bounds corruption error — the round trip never
restores a page. -/
theorem round_trip_rejects_page (p : Page)
    (hslot_eq : p.header.slot_count = p.slots.length)
    (hn : PAGEHEADER_SIZE + SLOT_SIZE * p.slots.length ≤ PAGE_SIZE)
    (hsc : p.slots.length ≤ IDS_PER_PAGE)
    (hge : SLOT_SIZE * p.slots.length ≤ occLenSum p.slots)
    (hocc : occLenSum p.slots ≤ PAGE_SIZE - PAGEHEADER_SIZE - PAGEHEADER_SIZE)
    (hpos : 0 < occLenSum p.slots)
    (hpid : p.header.page_id < 4294967296)
    (hnext : p.header.next_page_id < 4294967296)
    (hflags : p.header.flags < 256)
    (hlsn : p.header.lsn < 4294967296)
    (hirs : p.header.id_range_start < 4294967296)
    (hire : p.header.id_range_end < 4294967296) :
    ((p.serialize).1).bind Page.deserialize
      = Except.error "Corrupt page: data out of bounds" := by
  obtain ⟨B, hser, hlen, hread⟩ := serialize_ok_spec p hn hge hocc
  have hocc16 : PAGEHEADER_SIZE + occLenSum p.slots < 65536 := by
    simp only [PAGE_SIZE, PAGEHEADER_SIZE] at hocc ⊢; omega
  have hfso := compact_page_fso p hocc16
  rw [hser]
  show Page.deserialize B = _
  refine deserialize_fso_out_of_bounds B ((p.compact_page).header) hlen hread
    ?_ ?_ ?_ ?_ ?_ ?_ ?_ ?_ ?_ ?_ ?_ ?_ ?_
  · exact hpid
  · rw [compact_page_slot_count, hslot_eq]
    simp only [IDS_PER_PAGE] at hsc; omega
  · simp only [Page.compact_page]
    exact Nat.mod_lt _ (by omega)
  · rw [hfso]; omega
  · exact hnext
  · rw [compact_page_flags]
    have h8 : (256 : Nat) = 2 ^ 8 := by norm_num
    rw [h8] at hflags ⊢
    exact Nat.or_lt_two_pow hflags (by simp only [PAGE_DIRTY]; omega)
  · exact hlsn
  · exact hirs
  · exact hire
  · rw [compact_page_slot_count, hslot_eq]; exact hsc
  · rw [compact_page_slot_count, hslot_eq]
    simp only [PAGE_SIZE, PAGEHEADER_SIZE, SLOT_SIZE] at hn ⊢; omega
  · rw [hfso]
    simp only [PAGE_SIZE, PAGEHEADER_SIZE] at hocc ⊢; omega
  · rw [hfso]
    simp only [PAGEHEADER_SIZE]; omega

/-- The page obtained from one `insert_record` call on a fresh page:
record id 1, a 12-byte payload. -/
def roundTripPage : Page := ((Page.make 2 1).insert_record 1 (List.replicate 12 7)).2

/-- Witness for the C1 theorem at a concrete insert-built page. -/
theorem round_trip_rejects_page_witness :
    ((roundTripPage.serialize).1).bind Page.deserialize
      = Except.error "Corrupt page: data out of bounds" :=
  round_trip_rejects_page roundTripPage (by decide) (by decide) (by decide)
    (by decide) (by decide) (by decide) (by decide) (by decide) (by decide)
    (by decide) (by decide) (by decide)

/-! ## Slotted-space conservation (claim C3) -/

/-- The bytes occupied by the page header and the slot directory. -/
def headerAndDirectoryBytes (p : Page) : Nat :=
  PAGEHEADER_SIZE + SLOT_SIZE * p.header.slot_count

/-- Sum of all slot lengths, tombstones included (a tombstoned slot
keeps holding its payload bytes until a compaction). -/
def slotLenSum (ss : List Slot) : Nat := (ss.map (fun s => s.length)).sum

/-- In-page operations for the conservation invariant. -/
inductive PageOp where
  | ins (rid : Nat) (d : List Nat)
  | upd (rid : Nat) (d : List Nat)
  | del (rid : Nat)

def applyPageOp (p : Page) : PageOp → Page
  | PageOp.ins rid d => (p.insert_record rid d).2
  | PageOp.upd rid d => (p.update_record rid d).2
  | PageOp.del rid => (p.delete_record rid).2

def applyPageOps (p : Page) (ops : List PageOp) : Page := ops.foldl applyPageOp p

/-- Side condition under which an operation triggers no compaction: an
insert that fits as-is, an update that is in place (case (i)) or finds
no slot, and any delete. -/
def pageOpOk (p : Page) : PageOp → Bool
  | PageOp.ins _ d => p.has_space (SLOT_SIZE + listLen d)
  | PageOp.upd rid d =>
    match p.slots.findIdx? (fun s => s.record_id == rid && s.is_occupied) with
    | none => true
    | some i => listLen d ≤ (p.slots.getD i default).length
  | PageOp.del _ => true

def pageOpsOk : Page → List PageOp → Bool
  | _, [] => true
  | p, op :: rest => pageOpOk p op && pageOpsOk (applyPageOp p op) rest

/-- `free_space + header-and-directory bytes + Σ slot lengths =
PAGE_SIZE`, with the directory count consistent. -/
def conserved (p : Page) : Prop :=
  p.header.slot_count = p.slots.length ∧
  p.header.free_space + headerAndDirectoryBytes p + slotLenSum p.slots = PAGE_SIZE

theorem findIdx?_go_spec {α : Type} [Inhabited α] (pred : α → Bool) :
    ∀ (l : List α) (j i : Nat), l.findIdx? pred j = some i →
      j ≤ i ∧ i - j < l.length ∧ pred (l.getD (i - j) default) = true ∧
        ∀ k, k < i - j → pred (l.getD k default) = false := by
  intro l
  induction l with
  | nil => intro j i h; simp [List.findIdx?] at h
  | cons x xs ih =>
    intro j i h
    rw [List.findIdx?_cons] at h
    by_cases hx : pred x = true
    · rw [if_pos hx] at h
      obtain rfl : j = i := by injection h
      simp [hx]
    · rw [if_neg hx] at h
      obtain ⟨h1, h2, h3, h4⟩ := ih (j + 1) i h
      refine ⟨by omega, by simp [List.length_cons]; omega, ?_, ?_⟩
      · have : i - j = (i - (j + 1)) + 1 := by omega
        rw [this]
        simpa using h3
      · intro k hk
        cases k with
        | zero => simpa using (Bool.not_eq_true _).mp hx
        | succ n =>
          have : i - j = (i - (j + 1)) + 1 := by omega
          rw [this] at hk
          simpa using h4 n (by omega)

theorem findIdx?_some_spec {α : Type} [Inhabited α] (pred : α → Bool)
    (l : List α) (i : Nat) (h : l.findIdx? pred = some i) :
    i < l.length ∧ pred (l.getD i default) = true ∧
      ∀ k, k < i → pred (l.getD k default) = false := by
  have := findIdx?_go_spec pred l 0 i h
  simpa using this

theorem slotLenSum_set (ss : List Slot) (i : Nat) (v : Slot) (h : i < ss.length) :
    slotLenSum (ss.set i v) + (ss.getD i default).length
      = slotLenSum ss + v.length := by
  induction ss generalizing i with
  | nil => simp at h
  | cons s rest ih =>
    cases i with
    | zero => simp [slotLenSum]; omega
    | succ n =>
      have hrec := ih n (by simpa using Nat.lt_of_succ_lt_succ h)
      simp only [List.set_cons_succ, slotLenSum, List.map_cons, List.sum_cons,
        List.getD_cons_succ] at hrec ⊢
      omega

theorem slotLenSum_append_single (ss : List Slot) (v : Slot) :
    slotLenSum (ss ++ [v]) = slotLenSum ss + v.length := by
  simp [slotLenSum]

theorem getD_length_le_slotLenSum (ss : List Slot) (i : Nat) (h : i < ss.length) :
    (ss.getD i default).length ≤ slotLenSum ss := by
  induction ss generalizing i with
  | nil => simp at h
  | cons s rest ih =>
    cases i with
    | zero =>
      simp only [List.getD_cons_zero, slotLenSum, List.map_cons, List.sum_cons]
      omega
    | succ n =>
      have hrec := ih n (by simp only [List.length_cons] at h; omega)
      simp only [List.getD_cons_succ, slotLenSum, List.map_cons, List.sum_cons] at hrec ⊢
      omega

/-- One compaction-free operation preserves the conservation sum. -/
theorem conserved_step (p : Page) (op : PageOp)
    (hc : conserved p) (hok : pageOpOk p op = true) :
    conserved (applyPageOp p op) := by
  obtain ⟨hcnt, hsum⟩ := hc
  simp only [headerAndDirectoryBytes] at hsum
  cases op with
  | ins rid d =>
    simp only [pageOpOk] at hok
    have hfs : SLOT_SIZE + listLen d ≤ p.header.free_space := by
      simpa [Page.has_space] using hok
    have hLbound : listLen d < 65536 := by
      simp only [PAGE_SIZE, PAGEHEADER_SIZE, SLOT_SIZE] at hsum hfs
      omega
    have hscbound : p.header.slot_count + 1 < 65536 := by
      simp only [PAGE_SIZE, PAGEHEADER_SIZE, SLOT_SIZE] at hsum
      omega
    simp only [applyPageOp, Page.insert_record]
    rw [if_pos hok, if_pos hok]
    refine ⟨?_, ?_⟩
    · simp only [Nat.mod_eq_of_lt hscbound, hcnt, List.length_append,
        List.length_cons, List.length_nil]
      omega
    · simp only [headerAndDirectoryBytes, slotLenSum_append_single,
        Nat.mod_eq_of_lt hscbound, Nat.mod_eq_of_lt hLbound]
      simp only [PAGE_SIZE, PAGEHEADER_SIZE, SLOT_SIZE] at hsum hfs ⊢
      omega
  | upd rid d =>
    simp only [applyPageOp, Page.update_record]
    cases hfind : p.slots.findIdx? (fun s => s.record_id == rid && s.is_occupied) with
    | none => exact ⟨hcnt, by simp only [headerAndDirectoryBytes]; exact hsum⟩
    | some i =>
      simp only [pageOpOk, hfind, decide_eq_true_eq] at hok
      obtain ⟨hilt, -, -⟩ := findIdx?_some_spec _ _ _ hfind
      have hold := getD_length_le_slotLenSum p.slots i hilt
      dsimp only
      rw [if_pos hok]
      by_cases hlt : listLen d < (p.slots.getD i default).length
      · rw [if_pos hlt]
        have hset := slotLenSum_set p.slots i
          { p.slots.getD i default with length := listLen d % 65536 } hilt
        have hmodL : listLen d % 65536 = listLen d := by
          apply Nat.mod_eq_of_lt
          simp only [PAGE_SIZE, PAGEHEADER_SIZE, SLOT_SIZE] at hsum
          omega
        have hmodfs : (p.header.free_space +
            ((p.slots.getD i default).length - listLen d)) % 65536
            = p.header.free_space + ((p.slots.getD i default).length - listLen d) := by
          apply Nat.mod_eq_of_lt
          simp only [PAGE_SIZE, PAGEHEADER_SIZE, SLOT_SIZE] at hsum
          omega
        refine ⟨?_, ?_⟩
        · rw [List.length_set]; exact hcnt
        · simp only [headerAndDirectoryBytes, hmodfs, hmodL]
          simp only [hmodL] at hset
          simp only [PAGE_SIZE, PAGEHEADER_SIZE, SLOT_SIZE] at hsum hset ⊢
          omega
      · rw [if_neg hlt]
        exact ⟨hcnt, by simp only [headerAndDirectoryBytes]; exact hsum⟩
  | del rid =>
    simp only [applyPageOp, Page.delete_record]
    cases hfind : p.slots.findIdx? (fun s => s.record_id == rid && s.is_occupied) with
    | none => exact ⟨hcnt, by simp only [headerAndDirectoryBytes]; exact hsum⟩
    | some i =>
      obtain ⟨hilt, -, -⟩ := findIdx?_some_spec _ _ _ hfind
      have hset := slotLenSum_set p.slots i
        { p.slots.getD i default with flags := SLOT_DELETED } hilt
      dsimp only
      refine ⟨?_, ?_⟩
      · rw [List.length_set]; exact hcnt
      · simp only [headerAndDirectoryBytes]
        simp only [PAGE_SIZE, PAGEHEADER_SIZE, SLOT_SIZE] at hsum hset ⊢
        omega

/-- C3 counterexample: on the page reached by a single successful
`insert_record` (a reachable state), `free_space` + header-and-directory
bytes + Σ occupied slot lengths equals `PAGE_SIZE` (8192), not
`PAGE_SIZE - BITMAP_BYTES` (8064): the in-memory free-space accounting
never charges the free-id bitmap, which lives in a separate member. -/
theorem slotted_conservation_counterexample :
    ¬ (roundTripPage.header.free_space + headerAndDirectoryBytes roundTripPage
        + occLenSum roundTripPage.slots = PAGE_SIZE - BITMAP_BYTES) := by decide

/-- C3 (amended): for every page state reached from a fresh page by
inserts that fit without compaction, in-place (case (i)) updates and
deletes, `free_space` + header-and-directory bytes + the sum of all
slot lengths (tombstones included) equals `PAGE_SIZE`.  The free-id
bitmap is never charged, a tombstoned slot still holds its payload
bytes, and a compaction breaks the equality by recomputing
`free_space` without charging the slot directory. -/
theorem slotted_conservation (pid irs : Nat) (ops : List PageOp)
    (h : pageOpsOk (Page.make pid irs) ops = true) :
    (applyPageOps (Page.make pid irs) ops).header.free_space
      + headerAndDirectoryBytes (applyPageOps (Page.make pid irs) ops)
      + slotLenSum (applyPageOps (Page.make pid irs) ops).slots = PAGE_SIZE := by
  have base : conserved (Page.make pid irs) := ⟨rfl, rfl⟩
  have main : ∀ (l : List PageOp) (p : Page), conserved p →
      pageOpsOk p l = true → conserved (applyPageOps p l) := by
    intro l
    induction l with
    | nil => intro p hc _; exact hc
    | cons op rest ih =>
      intro p hc hok
      simp only [pageOpsOk, Bool.and_eq_true] at hok
      have := ih (applyPageOp p op) (conserved_step p op hc hok.1) hok.2
      simpa [applyPageOps, List.foldl_cons] using this
  exact (main ops (Page.make pid irs) base h).2

def conservationOps : List PageOp :=
  [PageOp.ins 1 (List.replicate 20 7), PageOp.upd 1 (List.replicate 3 1),
   PageOp.del 1]

/-- Witness for the amended C3 theorem on a concrete
insert/update/delete history. -/
theorem slotted_conservation_witness :
    (applyPageOps (Page.make 2 1) conservationOps).header.free_space
      + headerAndDirectoryBytes (applyPageOps (Page.make 2 1) conservationOps)
      + slotLenSum (applyPageOps (Page.make 2 1) conservationOps).slots = PAGE_SIZE :=
  slotted_conservation 2 1 conservationOps (by decide)

/-! ## Closed-store behavior (claim C5) -/

/-- C5 counterexample: on a closed store, `flush` returns silently with
no "Storage not open" error, and `create` executes and succeeds, so not
every operation raises on a closed store. -/
theorem not_open_claim_counterexample :
    (FileStorageLayer.flush (FileStorageLayer.new none [])).1 = Except.ok ()
    ∧ (FileStorageLayer.create (FileStorageLayer.new none [])
        (strBytes "t") []).1 = Except.ok () :=
  ⟨rfl, rfl⟩

/-- C5 (amended): on a store that is not open, `insert`, `get`,
`update`, `delete_record` and `scan` raise "Storage not open" and leave
the store unchanged; `flush` returns silently leaving the store
unchanged; `create` performs no open-state check and succeeds whenever
the table does not already exist. -/
theorem not_open_ops_behavior (s : Store) (t : List Nat)
    (vals : List (List Nat)) (rid : Nat) (schema : List ColumnSchema)
    (proj : Option (List Int)) (filt : Option (List (List Nat) → Bool))
    (ord : Option (List (Int × Bool))) (lim : Option Nat)
    (agg : Option (List Nat × Int))
    (h : s.is_open = false) :
    FileStorageLayer.insert s t vals = (Except.error "Storage not open", s)
    ∧ FileStorageLayer.get s t rid = (Except.error "Storage not open", s)
    ∧ FileStorageLayer.update s t rid vals = (Except.error "Storage not open", s)
    ∧ FileStorageLayer.delete_record s t rid = (Except.error "Storage not open", s)
    ∧ FileStorageLayer.scan s t proj filt ord lim agg
        = (Except.error "Storage not open", s)
    ∧ FileStorageLayer.flush s = (Except.ok (), s)
    ∧ ((s.catalog.get_table t).isSome = false →
        (FileStorageLayer.create s t schema).1 = Except.ok ()) := by
  refine ⟨?_, ?_, ?_, ?_, ?_, ?_, ?_⟩
  · simp [FileStorageLayer.insert, h]
  · simp [FileStorageLayer.get, h]
  · simp [FileStorageLayer.update, h]
  · simp [FileStorageLayer.delete_record, h]
  · simp [FileStorageLayer.scan, h]
  · simp [FileStorageLayer.flush, h]
  · intro hg
    simp [FileStorageLayer.create, hg]

/-- Witness for the C5 theorem at a concrete closed store. -/
theorem not_open_ops_behavior_witness :
    FileStorageLayer.insert (FileStorageLayer.new none []) (strBytes "t") []
        = (Except.error "Storage not open", FileStorageLayer.new none [])
    ∧ FileStorageLayer.get (FileStorageLayer.new none []) (strBytes "t") 1
        = (Except.error "Storage not open", FileStorageLayer.new none [])
    ∧ FileStorageLayer.update (FileStorageLayer.new none []) (strBytes "t") 1 []
        = (Except.error "Storage not open", FileStorageLayer.new none [])
    ∧ FileStorageLayer.delete_record (FileStorageLayer.new none []) (strBytes "t") 1
        = (Except.error "Storage not open", FileStorageLayer.new none [])
    ∧ FileStorageLayer.scan (FileStorageLayer.new none []) (strBytes "t")
        none none none none none
        = (Except.error "Storage not open", FileStorageLayer.new none [])
    ∧ FileStorageLayer.flush (FileStorageLayer.new none [])
        = (Except.ok (), FileStorageLayer.new none [])
    ∧ (((FileStorageLayer.new none []).catalog.get_table (strBytes "t")).isSome = false →
        (FileStorageLayer.create (FileStorageLayer.new none []) (strBytes "t") []).1
          = Except.ok ()) :=
  not_open_ops_behavior (FileStorageLayer.new none []) (strBytes "t") [] 1 []
    none none none none none rfl

/-! ## Aggregates over an empty result set (claim C4) -/

def colInt (nm : String) : ColumnSchema :=
  { name := strBytes nm, type := ColumnType.INT, size := INT_SIZE }

def colText (nm : String) : ColumnSchema :=
  { name := strBytes nm, type := ColumnType.TEXT, size := 0 }

/-- A freshly opened store holding one empty two-column table. -/
def emptyAggStore : Store :=
  (FileStorageLayer.create
    ((FileStorageLayer.openStore (FileStorageLayer.new none [])).2)
    (strBytes "emp") [colInt "id", colInt "val"]).2

/-- C4 counterexample: a `SUM` aggregate over the empty table raises
"Invalid column index for aggregation" instead of returning the single
row `[["0"]]`. -/
theorem scan_sum_empty_counterexample :
    (FileStorageLayer.scan emptyAggStore (strBytes "emp") none none none none
      (some (strBytes "SUM", 1))).1
      = Except.error "Invalid column index for aggregation" := by decide

/-- C4 (amended): whenever the result set before aggregation is empty
(the same scan without the aggregate returns an empty list), a scan
with any aggregate — `SUM` or `ABS`, any column index — raises
"Invalid column index for aggregation" rather than returning a value. -/
theorem scan_aggregate_empty_raises (s : Store) (t : List Nat)
    (proj : Option (List Int)) (filt : Option (List (List Nat) → Bool))
    (ord : Option (List (Int × Bool))) (lim : Option Nat)
    (op : List Nat) (col : Int)
    (h : (FileStorageLayer.scan s t proj filt ord lim none).1 = Except.ok []) :
    (FileStorageLayer.scan s t proj filt ord lim (some (op, col))).1
      = Except.error "Invalid column index for aggregation" := by
  simp only [FileStorageLayer.scan, Bool.not_eq_true'] at h ⊢
  cases hop : s.is_open with
  | false => rw [if_pos hop] at h; simp at h
  | true =>
    have hcond : ¬ (s.is_open = false) := by simp [hop]
    rw [if_neg hcond] at h
    rw [if_neg (show ¬ (true = false) by simp)]
    cases hmeta : FileStorageLayer.get_table_metadata s t with
    | mk r1 s1 =>
      rw [hmeta] at h
      cases r1 with
      | error e => simp at h
      | ok m =>
        dsimp only at h ⊢
        cases hwalk : FileStorageLayer.scanWalk (m.columns.take m.column_count)
            proj filt s1 m.first_data_page
            (listLen s1.page_cache + listLen s1.disk_pages + 1) with
        | mk r2 s2 =>
          rw [hwalk] at h
          cases r2 with
          | error e => simp at h
          | ok results0 =>
            dsimp only at h ⊢
            simp only [Except.ok.injEq] at h
            rw [h]
            simp [FileStorageLayer.scanAggregate]

/-- Witness for the C4 theorem: an `ABS` aggregate over the empty
table also raises. -/
theorem scan_aggregate_empty_raises_witness :
    (FileStorageLayer.scan emptyAggStore (strBytes "emp") none none none none
      (some (strBytes "ABS", 0))).1
      = Except.error "Invalid column index for aggregation" :=
  scan_aggregate_empty_raises emptyAggStore (strBytes "emp") none none none none
    (strBytes "ABS") 0 (by decide)

/-! ## In-place update (claim C6) -/

theorem or_dirty_and_dirty (x : Nat) : (x ||| PAGE_DIRTY) &&& PAGE_DIRTY = 1 := by
  have h : (x ||| 1).testBit 0 = true := by simp [Nat.testBit_or]
  simp only [PAGE_DIRTY]
  simp [Nat.and_one_is_mod]

theorem find?_go_of_findIdx? {α : Type} [Inhabited α] (pred : α → Bool) :
    ∀ (l : List α) (j i : Nat), l.findIdx? pred j = some i →
      l.find? pred = some (l.getD (i - j) default) := by
  intro l
  induction l with
  | nil => intro j i h; simp [List.findIdx?] at h
  | cons x xs ih =>
    intro j i h
    rw [List.findIdx?_cons] at h
    by_cases hx : pred x = true
    · rw [if_pos hx] at h
      obtain rfl : j = i := by injection h
      simp [List.find?_cons, hx]
    · rw [if_neg hx] at h
      have hge := (findIdx?_go_spec pred xs (j + 1) i h).1
      have hrec := ih (j + 1) i h
      rw [List.find?_cons_of_neg _ (by simp [hx]), hrec]
      have : i - j = (i - (j + 1)) + 1 := by omega
      rw [this, List.getD_cons_succ]

theorem find?_of_findIdx? {α : Type} [Inhabited α] (pred : α → Bool)
    (l : List α) (i : Nat) (h : l.findIdx? pred = some i) :
    l.find? pred = some (l.getD i default) := by
  simpa using find?_go_of_findIdx? pred l 0 i h

theorem find?_set_go_of_findIdx? {α : Type} [Inhabited α] (pred : α → Bool)
    (v : α) (hv : pred v = true) :
    ∀ (l : List α) (j i : Nat), l.findIdx? pred j = some i →
      (l.set (i - j) v).find? pred = some v := by
  intro l
  induction l with
  | nil => intro j i h; simp [List.findIdx?] at h
  | cons x xs ih =>
    intro j i h
    rw [List.findIdx?_cons] at h
    by_cases hx : pred x = true
    · rw [if_pos hx] at h
      obtain rfl : j = i := by injection h
      simp only [Nat.sub_self, List.set_cons_zero]
      simp [List.find?_cons, hv]
    · rw [if_neg hx] at h
      have hge := (findIdx?_go_spec pred xs (j + 1) i h).1
      have hrec := ih (j + 1) i h
      have hij : i - j = (i - (j + 1)) + 1 := by omega
      rw [hij, List.set_cons_succ, List.find?_cons_of_neg _ (by simp [hx]), hrec]

theorem find?_set_of_findIdx? {α : Type} [Inhabited α] (pred : α → Bool)
    (v : α) (hv : pred v = true) (l : List α) (i : Nat)
    (h : l.findIdx? pred = some i) :
    (l.set i v).find? pred = some v := by
  simpa using find?_set_go_of_findIdx? pred v hv l 0 i h

theorem getD_set_self {α : Type} [Inhabited α] (l : List α) (i : Nat) (v : α)
    (h : i < l.length) : (l.set i v).getD i default = v := by
  rw [List.getD_eq_getElem?_getD, List.getElem?_set_self h]
  rfl

/-- C6: an in-place update with `new_data` no longer than the occupied
slot succeeds, reclaims exactly the length difference into
`free_space`, leaves the slot length at `new_data`'s length, marks the
page dirty, and makes `get_record` return `new_data`. -/
theorem update_record_shrink (p : Page) (r : Nat) (nd : List Nat) (i : Nat)
    (hfind : p.slots.findIdx? (fun s => s.record_id == r && s.is_occupied) = some i)
    (hle : nd.length ≤ (p.slots.getD i default).length)
    (hbound : (p.slots.getD i default).offset + (p.slots.getD i default).length
        ≤ p.data.length)
    (hfs16 : p.header.free_space + (p.slots.getD i default).length < 65536) :
    (p.update_record r nd).1 = true
    ∧ (p.update_record r nd).2.header.free_space
        = p.header.free_space + ((p.slots.getD i default).length - nd.length)
    ∧ ((p.update_record r nd).2.slots.getD i default).length = nd.length
    ∧ (p.update_record r nd).2.is_dirty = true
    ∧ (p.update_record r nd).2.get_record r = some nd := by
  obtain ⟨hilt, hpred, -⟩ := findIdx?_some_spec _ _ _ hfind
  have hlen16 : (p.slots.getD i default).length < 65536 := by omega
  have hnd16 : nd.length < 65536 := by omega
  simp only [Page.update_record, hfind, listLen_eq]
  rw [if_pos hle]
  by_cases hlt : nd.length < (p.slots.getD i default).length
  · rw [if_pos hlt]
    refine ⟨rfl, ?_, ?_, ?_, ?_⟩
    · exact Nat.mod_eq_of_lt (by omega)
    · rw [getD_set_self _ _ _ hilt]
      exact Nat.mod_eq_of_lt hnd16
    · simp [Page.is_dirty, or_dirty_and_dirty]
    · simp only [Page.get_record]
      rw [find?_set_of_findIdx? (fun s => s.record_id == r && s.is_occupied)
        { p.slots.getD i default with length := nd.length % 65536 } hpred
        p.slots i hfind]
      dsimp only
      simp only [Nat.mod_eq_of_lt hnd16]
      have hself := readBytes_writeBytes_self p.data
        (p.slots.getD i default).offset nd (by omega)
      rw [hself]
  · have heq : nd.length = (p.slots.getD i default).length := by omega
    rw [if_neg hlt]
    dsimp only
    refine ⟨rfl, by omega, by omega, ?_, ?_⟩
    · simp [Page.is_dirty, or_dirty_and_dirty]
    · simp only [Page.get_record]
      rw [find?_of_findIdx? (fun s => s.record_id == r && s.is_occupied)
        p.slots i hfind]
      have hself := readBytes_writeBytes_self p.data
        (p.slots.getD i default).offset nd (by omega)
      dsimp only
      rw [heq] at hself
      rw [hself]

def shrinkSlot : Slot :=
  { offset := 0, length := 10, flags := SLOT_OCCUPIED, record_id := 5 }

/-- A small concrete page: one occupied 10-byte record with id 5. -/
def shrinkPage : Page :=
  { header :=
      { page_id := 2
        slot_count := 1
        free_space := 100
        free_space_offset := 42
        next_page_id := INVALID_PAGE_ID
        flags := 0
        lsn := 0
        id_range_start := 1
        id_range_end := 1025 }
    slots := [shrinkSlot]
    data := strBytes "helloworld"
    free_id_bitmap := List.replicate IDS_PER_PAGE false }

/-- Witness for the C6 theorem on `shrinkPage`. -/
theorem update_record_shrink_witness :
    (shrinkPage.update_record 5 (strBytes "hey")).1 = true
    ∧ (shrinkPage.update_record 5 (strBytes "hey")).2.header.free_space
        = shrinkPage.header.free_space
          + ((shrinkPage.slots.getD 0 default).length - (strBytes "hey").length)
    ∧ ((shrinkPage.update_record 5 (strBytes "hey")).2.slots.getD 0 default).length
        = (strBytes "hey").length
    ∧ (shrinkPage.update_record 5 (strBytes "hey")).2.is_dirty = true
    ∧ (shrinkPage.update_record 5 (strBytes "hey")).2.get_record 5
        = some (strBytes "hey") :=
  update_record_shrink shrinkPage 5 (strBytes "hey") 0 (by decide) (by decide)
    (by decide) (by decide)

/-! ## Failed updates preserve the record (claim C8) -/

theorem compactFold_data_len (dat : List Nat) :
    ∀ (ss : List Slot) (acc : List Slot × List Nat × Nat),
    acc.2.2 + occLenSum ss ≤ acc.2.1.length →
    acc.2.2 + occLenSum ss < 65536 →
    (ss.foldl (compactStep dat) acc).2.1.length = acc.2.1.length := by
  intro ss
  induction ss with
  | nil => intro acc _ _; rfl
  | cons s rest ih =>
    rintro ⟨sa, nd, off⟩ hb h16
    simp only [occLenSum, List.map_cons, List.sum_cons] at hb h16
    cases ho : s.is_occupied with
    | true =>
      simp only [ho, if_true] at hb h16
      have hsrc : (readBytes dat s.offset s.length).length ≤ s.length := by
        rw [readBytes_length]; omega
      have hw : (writeBytes nd off (readBytes dat s.offset s.length)).length
          = nd.length := writeBytes_length _ _ _ (by omega)
      have hstep : compactStep dat (sa, nd, off) s
          = (sa ++ [{ s with offset := off }],
             writeBytes nd off (readBytes dat s.offset s.length), off + s.length) := by
        simp [compactStep, ho, Nat.mod_eq_of_lt (show off + s.length < 65536 by omega)]
      rw [List.foldl_cons, hstep,
        ih _ (by simp only [occLenSum]; omega) (by simp only [occLenSum]; omega)]
      exact hw
    | false =>
      simp only [ho, Bool.false_eq_true, if_false] at hb h16
      have hstep : compactStep dat (sa, nd, off) s = (sa ++ [s], nd, off) := by
        simp [compactStep, ho]
      rw [List.foldl_cons, hstep]
      exact ih _ (by simp only [occLenSum]; omega) (by simp only [occLenSum]; omega)

theorem compactFold_stable (dat : List Nat) :
    ∀ (ss : List Slot) (acc : List Slot × List Nat × Nat) (pos len : Nat),
    pos + len ≤ acc.2.2 →
    acc.2.2 + occLenSum ss ≤ acc.2.1.length →
    acc.2.2 + occLenSum ss < 65536 →
    readBytes (ss.foldl (compactStep dat) acc).2.1 pos len
      = readBytes acc.2.1 pos len := by
  intro ss
  induction ss with
  | nil => intro acc pos len _ _ _; rfl
  | cons s rest ih =>
    rintro ⟨sa, nd, off⟩ pos len hpl0 hb h16
    have hpl : pos + len ≤ off := hpl0
    simp only [occLenSum, List.map_cons, List.sum_cons] at hb h16
    cases ho : s.is_occupied with
    | true =>
      simp only [ho, if_true] at hb h16
      have hsrc : (readBytes dat s.offset s.length).length ≤ s.length := by
        rw [readBytes_length]; omega
      have hstep : compactStep dat (sa, nd, off) s
          = (sa ++ [{ s with offset := off }],
             writeBytes nd off (readBytes dat s.offset s.length), off + s.length) := by
        simp [compactStep, ho, Nat.mod_eq_of_lt (show off + s.length < 65536 by omega)]
      rw [List.foldl_cons, hstep]
      have hw : (writeBytes nd off (readBytes dat s.offset s.length)).length
          = nd.length := writeBytes_length _ _ _ (by omega)
      rw [ih _ pos len (show pos + len ≤ off + s.length by omega)
        (by show off + s.length + occLenSum rest
              ≤ (writeBytes nd off (readBytes dat s.offset s.length)).length
            rw [hw]; simp only [occLenSum]; omega)
        (by show off + s.length + occLenSum rest < 65536
            simp only [occLenSum]; omega)]
      exact readBytes_writeBytes_left nd off _ pos len (by omega) (by omega)
    | false =>
      simp only [ho, Bool.false_eq_true, if_false] at hb h16
      have hstep : compactStep dat (sa, nd, off) s = (sa ++ [s], nd, off) := by
        simp [compactStep, ho]
      rw [List.foldl_cons, hstep]
      exact ih _ pos len (show pos + len ≤ off by omega)
        (by show off + occLenSum rest ≤ nd.length; simp only [occLenSum]; omega)
        (by show off + occLenSum rest < 65536; simp only [occLenSum]; omega)

/-- The compaction fold rewrites the slots of the processed suffix in
place: ids, flags and lengths are preserved, and each occupied slot's
payload bytes are readable at its new offset in the rebuilt data
area. -/
theorem compactFold_preserve (dat : List Nat) :
    ∀ (ss : List Slot) (acc : List Slot × List Nat × Nat),
    acc.2.2 + occLenSum ss ≤ acc.2.1.length →
    acc.2.2 + occLenSum ss < 65536 →
    (∀ s ∈ ss, s.is_occupied = true → s.offset + s.length ≤ dat.length) →
    ∃ ss' : List Slot,
      (ss.foldl (compactStep dat) acc).1 = acc.1 ++ ss'
      ∧ ss'.length = ss.length
      ∧ ∀ j, j < ss.length →
          (ss'.getD j default).record_id = (ss.getD j default).record_id
          ∧ (ss'.getD j default).flags = (ss.getD j default).flags
          ∧ (ss'.getD j default).length = (ss.getD j default).length
          ∧ ((ss.getD j default).is_occupied = true →
              readBytes (ss.foldl (compactStep dat) acc).2.1
                  (ss'.getD j default).offset (ss.getD j default).length
                = readBytes dat (ss.getD j default).offset (ss.getD j default).length) := by
  intro ss
  induction ss with
  | nil =>
    intro acc _ _ _
    exact ⟨[], by simp, rfl, by intro j hj; simp at hj⟩
  | cons s rest ih =>
    rintro ⟨sa, nd, off⟩ hb h16 hin
    simp only [occLenSum, List.map_cons, List.sum_cons] at hb h16
    cases ho : s.is_occupied with
    | true =>
      simp only [ho, if_true] at hb h16
      have hoff_len : s.offset + s.length ≤ dat.length :=
        hin s (List.mem_cons_self s rest) ho
      have hsrc : (readBytes dat s.offset s.length).length = s.length :=
        readBytes_length_of_le _ _ _ hoff_len
      have hstep : compactStep dat (sa, nd, off) s
          = (sa ++ [{ s with offset := off }],
             writeBytes nd off (readBytes dat s.offset s.length), off + s.length) := by
        simp [compactStep, ho, Nat.mod_eq_of_lt (show off + s.length < 65536 by omega)]
      have hw : (writeBytes nd off (readBytes dat s.offset s.length)).length
          = nd.length := writeBytes_length _ _ _ (by omega)
      obtain ⟨ss'', h1, h2, h3⟩ := ih
        (sa ++ [{ s with offset := off }],
         writeBytes nd off (readBytes dat s.offset s.length), off + s.length)
        (by simp only [occLenSum]; rw [hw]; omega)
        (by simp only [occLenSum]; omega)
        (fun t ht hto => hin t (List.mem_cons_of_mem s ht) hto)
      refine ⟨{ s with offset := off } :: ss'', ?_, ?_, ?_⟩
      · rw [List.foldl_cons, hstep]
        rw [h1]
        simp
      · simp [h2]
      · intro j hj
        cases j with
        | zero =>
          refine ⟨rfl, rfl, rfl, ?_⟩
          intro _
          simp only [List.getD_cons_zero]
          rw [List.foldl_cons, hstep]
          have hstab := compactFold_stable dat rest
            (sa ++ [{ s with offset := off }],
             writeBytes nd off (readBytes dat s.offset s.length), off + s.length)
            off s.length (by dsimp only; omega)
            (by simp only [occLenSum]; rw [hw]; omega)
            (by simp only [occLenSum]; omega)
          rw [hstab]
          have hself := readBytes_writeBytes_self nd off
            (readBytes dat s.offset s.length) (by omega)
          rw [hsrc] at hself
          exact hself
        | succ k =>
          have hk : k < rest.length := by
            simp only [List.length_cons] at hj; omega
          obtain ⟨g1, g2, g3, g4⟩ := h3 k hk
          refine ⟨by simpa using g1, by simpa using g2, by simpa using g3, ?_⟩
          intro hocck
          simp only [List.getD_cons_succ] at hocck ⊢
          rw [List.foldl_cons, hstep]
          exact g4 hocck
    | false =>
      simp only [ho, Bool.false_eq_true, if_false] at hb h16
      have hstep : compactStep dat (sa, nd, off) s = (sa ++ [s], nd, off) := by
        simp [compactStep, ho]
      obtain ⟨ss'', h1, h2, h3⟩ := ih (sa ++ [s], nd, off)
        (by simp only [occLenSum]; omega)
        (by simp only [occLenSum]; omega)
        (fun t ht hto => hin t (List.mem_cons_of_mem s ht) hto)
      refine ⟨s :: ss'', ?_, ?_, ?_⟩
      · rw [List.foldl_cons, hstep, h1]
        simp
      · simp [h2]
      · intro j hj
        cases j with
        | zero =>
          refine ⟨rfl, rfl, rfl, ?_⟩
          intro habs
          simp only [List.getD_cons_zero] at habs
          rw [ho] at habs
          cases habs
        | succ k =>
          have hk : k < rest.length := by
            simp only [List.length_cons] at hj; omega
          obtain ⟨g1, g2, g3, g4⟩ := h3 k hk
          refine ⟨by simpa using g1, by simpa using g2, by simpa using g3, ?_⟩
          intro hocck
          simp only [List.getD_cons_succ] at hocck ⊢
          rw [List.foldl_cons, hstep]
          exact g4 hocck

/-- `get_record`-style lookups agree on two slot directories that match
pointwise on ids, flags and lengths, when the occupied payloads read
equal bytes out of the respective data areas. -/
theorem get_like_congr (r : Nat) :
    ∀ (ss ss' : List Slot) (d d' : List Nat),
    ss'.length = ss.length →
    (∀ j, j < ss.length →
        (ss'.getD j default).record_id = (ss.getD j default).record_id
        ∧ (ss'.getD j default).flags = (ss.getD j default).flags
        ∧ (ss'.getD j default).length = (ss.getD j default).length
        ∧ ((ss.getD j default).is_occupied = true →
            readBytes d' (ss'.getD j default).offset (ss.getD j default).length
              = readBytes d (ss.getD j default).offset (ss.getD j default).length)) →
    (match ss'.find? (fun s => s.record_id == r && s.is_occupied) with
     | some s => some (readBytes d' s.offset s.length)
     | none => none)
    = (match ss.find? (fun s => s.record_id == r && s.is_occupied) with
       | some s => some (readBytes d s.offset s.length)
       | none => none) := by
  intro ss
  induction ss with
  | nil =>
    intro ss' d d' hlen _
    rw [List.length_nil, List.length_eq_zero] at hlen
    subst hlen
    rfl
  | cons x xs ih =>
    intro ss' d d' hlen hpt
    cases ss' with
    | nil => simp at hlen
    | cons x' xs' =>
      simp only [List.length_cons, Nat.succ.injEq] at hlen
      obtain ⟨e1, e2, e3, e4⟩ := hpt 0 (by simp)
      simp only [List.getD_cons_zero] at e1 e2 e3 e4
      have hoccEq : x'.is_occupied = x.is_occupied := by
        simp only [Slot.is_occupied, e2]
      have hpredEq : (x'.record_id == r && x'.is_occupied)
          = (x.record_id == r && x.is_occupied) := by
        rw [e1, hoccEq]
      by_cases hp : (x.record_id == r && x.is_occupied) = true
      · have hfx : List.find? (fun s => s.record_id == r && s.is_occupied) (x :: xs)
            = some x := by
          exact List.find?_cons_of_pos _ hp
        have hfx' : List.find? (fun s => s.record_id == r && s.is_occupied) (x' :: xs')
            = some x' := by
          exact List.find?_cons_of_pos _ (by rw [hpredEq]; exact hp)
        rw [hfx, hfx']
        have hxocc : x.is_occupied = true := by
          revert hp; cases x.is_occupied <;> simp
        dsimp only
        rw [e3, e4 hxocc]
      · have hfx : List.find? (fun s => s.record_id == r && s.is_occupied) (x :: xs)
            = List.find? (fun s => s.record_id == r && s.is_occupied) xs := by
          exact List.find?_cons_of_neg _ hp
        have hfx' : List.find? (fun s => s.record_id == r && s.is_occupied) (x' :: xs')
            = List.find? (fun s => s.record_id == r && s.is_occupied) xs' := by
          exact List.find?_cons_of_neg _ (by rw [hpredEq]; exact hp)
        rw [hfx, hfx']
        exact ih xs' d d' hlen (by
          intro j hj
          have := hpt (j + 1) (by simp only [List.length_cons]; omega)
          simpa only [List.getD_cons_succ] using this)

/-- Compaction does not change the answer of `get_record`, given that
every occupied slot lies inside the data area and the occupied bytes
fit under the header. -/
theorem compact_page_get (p : Page) (r : Nat)
    (hocc : PAGEHEADER_SIZE + occLenSum p.slots ≤ PAGE_SIZE - PAGEHEADER_SIZE)
    (hin : ∀ s ∈ p.slots, s.is_occupied = true → s.offset + s.length ≤ p.data.length) :
    (p.compact_page).get_record r = p.get_record r := by
  obtain ⟨ss', h1, h2, h3⟩ := compactFold_preserve p.data p.slots
    ([], List.replicate (PAGE_SIZE - PAGEHEADER_SIZE) 0, PAGEHEADER_SIZE)
    (by show PAGEHEADER_SIZE + occLenSum p.slots
          ≤ (List.replicate (PAGE_SIZE - PAGEHEADER_SIZE) 0).length
        rw [List.length_replicate]; exact hocc)
    (by show PAGEHEADER_SIZE + occLenSum p.slots < 65536
        simp only [PAGE_SIZE, PAGEHEADER_SIZE] at hocc ⊢; omega)
    hin
  have hslots : (p.compact_page).slots = ss' := by
    simp only [Page.compact_page]
    rw [h1]
    simp
  have hdata : (p.compact_page).data
      = (p.slots.foldl (compactStep p.data)
          ([], List.replicate (PAGE_SIZE - PAGEHEADER_SIZE) 0, PAGEHEADER_SIZE)).2.1 := by
    simp only [Page.compact_page]
  simp only [Page.get_record, hslots, hdata]
  exact get_like_congr r p.slots ss' p.data _ h2 h3

def c8slotA : Slot :=
  { offset := 0
    length := 8103
    flags := SLOT_OCCUPIED
    record_id := 1 }

def c8slotB : Slot :=
  { offset := 8103
    length := 5
    flags := SLOT_OCCUPIED
    record_id := 2 }

def c8Page : Page :=
  { header := { PageHeader.init 2 with
      slot_count := 2
      free_space := 16
      free_space_offset := 8140 }
    slots := [c8slotA, c8slotB]
    data := List.replicate 8108 0
    free_id_bitmap := List.replicate IDS_PER_PAGE false }

/-- C8: if `update_record(r, new_data)` returns `false` because the new
payload does not fit, `get_record(r)` afterwards returns the same
payload as before the call — including on the branch where the failed
attempt compacted the page first. -/
theorem update_record_fail_preserves_record (p : Page) (r : Nat) (nd : List Nat)
    (hocc : PAGEHEADER_SIZE + occLenSum p.slots ≤ PAGE_SIZE - PAGEHEADER_SIZE)
    (hin : ∀ s ∈ p.slots, s.is_occupied = true → s.offset + s.length ≤ p.data.length)
    (hfail : (p.update_record r nd).1 = false) :
    ((p.update_record r nd).2).get_record r = p.get_record r := by
  cases hfind : p.slots.findIdx? (fun s => s.record_id == r && s.is_occupied) with
  | none =>
    simp only [Page.update_record, hfind]
  | some i =>
    simp only [Page.update_record, hfind] at hfail ⊢
    by_cases h1 : listLen nd ≤ (p.slots.getD i default).length
    · rw [if_pos h1] at hfail
      simp at hfail
    · rw [if_neg h1] at hfail ⊢
      by_cases h2 : listLen nd ≤ p.header.free_space + (p.slots.getD i default).length
      · rw [if_pos h2] at hfail ⊢
        by_cases h3 : listLen nd ≤ (p.compact_page).header.free_space
        · rw [if_pos h3] at hfail
          simp at hfail
        · rw [if_neg h3] at hfail ⊢
          exact compact_page_get p r hocc hin
      · rw [if_neg h2]

theorem update_record_fail_preserves_record_witness :
    ((c8Page.update_record 2 (List.replicate 21 3)).1 = false)
    ∧ ((c8Page.update_record 2 (List.replicate 21 3)).2).get_record 2
        = c8Page.get_record 2 :=
  ⟨by decide,
   update_record_fail_preserves_record c8Page 2 (List.replicate 21 3)
     (by decide)
     (by
       intro s hs _
       simp only [c8Page, List.mem_cons, List.not_mem_nil, or_false] at hs
       rcases hs with rfl | rfl
       · simp only [c8Page, List.length_replicate, c8slotA]
         omega
       · simp only [c8Page, List.length_replicate, c8slotB]
         omega)
     (by decide)⟩

/-! ## Table-name truncation (claim C10) -/

theorem cstrncmpEq_take : ∀ (n : Nat) (a b : List Nat),
    cstrncmpEq (a.take n) (b.take n) n = cstrncmpEq a b n := by
  intro n
  induction n with
  | zero => intro a b; rfl
  | succ m ih =>
    intro a b
    have ha1 : (a.take (m + 1)).headD 0 = a.headD 0 := by
      cases a <;> rfl
    have hb1 : (b.take (m + 1)).headD 0 = b.headD 0 := by
      cases b <;> rfl
    have ha2 : (a.take (m + 1)).tail = a.tail.take m := by
      cases a <;> simp
    have hb2 : (b.take (m + 1)).tail = b.tail.take m := by
      cases b <;> simp
    simp only [cstrncmpEq, ha1, hb1, ha2, hb2, ih]

theorem cstrncmpEq_self : ∀ (n : Nat) (a : List Nat), cstrncmpEq a a n = true := by
  intro n
  induction n with
  | zero => intro a; rfl
  | succ m ih =>
    intro a
    simp [cstrncmpEq, ih]

theorem cstrncmpEq_of_take_eq (n : Nat) (a b : List Nat) (h : a.take n = b.take n) :
    cstrncmpEq a b n = true := by
  rw [← cstrncmpEq_take, h, cstrncmpEq_take]
  exact cstrncmpEq_self n b

theorem cstrncmpEq_congr_right (n : Nat) (a b b' : List Nat) (h : b.take n = b'.take n) :
    cstrncmpEq a b n = cstrncmpEq a b' n := by
  rw [← cstrncmpEq_take n a b, ← cstrncmpEq_take n a b', h]

theorem find?_pred_congr {α : Type} (p q : α → Bool) :
    ∀ l : List α, (∀ x ∈ l, p x = q x) → l.find? p = l.find? q := by
  intro l
  induction l with
  | nil => intro _; rfl
  | cons x xs ih =>
    intro h
    rw [List.find?_cons, List.find?_cons, h x (List.mem_cons_self x xs),
      ih (fun y hy => h y (List.mem_cons_of_mem x hy))]

theorem find?_append_singleton {α : Type} (p : α → Bool) :
    ∀ (l : List α) (a : α), (∀ x ∈ l, p x = false) → p a = true →
      (l ++ [a]).find? p = some a := by
  intro l
  induction l with
  | nil =>
    intro a _ hp
    rw [List.nil_append]
    exact List.find?_cons_of_pos _ hp
  | cons x xs ih =>
    intro a hall hp
    rw [List.cons_append,
      List.find?_cons_of_neg _ (by rw [hall x (List.mem_cons_self x xs)]; simp)]
    exact ih a (fun y hy => hall y (List.mem_cons_of_mem x hy)) hp

theorem findIdx?_append_singleton {α : Type} (p : α → Bool) :
    ∀ (l : List α) (a : α) (j : Nat), (∀ x ∈ l, p x = false) → p a = true →
      (l ++ [a]).findIdx? p j = some (j + l.length) := by
  intro l
  induction l with
  | nil =>
    intro a j _ hp
    rw [List.nil_append, List.findIdx?_cons, if_pos hp]
    rfl
  | cons x xs ih =>
    intro a j hall hp
    rw [List.cons_append, List.findIdx?_cons,
      if_neg (by rw [hall x (List.mem_cons_self x xs)]; simp)]
    rw [ih a (j + 1) (fun y hy => hall y (List.mem_cons_of_mem x hy)) hp]
    congr 1
    simp only [List.length_cons]
    omega

theorem set_append_last {α : Type} :
    ∀ (l : List α) (a b : α), (l ++ [a]).set l.length b = l ++ [b] := by
  intro l
  induction l with
  | nil => intro a b; rfl
  | cons x xs ih =>
    intro a b
    simp only [List.cons_append, List.length_cons, List.set_cons_succ, ih]

/-- All existing catalog rows reject a fresh name under the truncated
comparison when `get_table` missed it. -/
theorem get_table_none_all_false (c : CatalogPage) (nm : List Nat)
    (h : c.get_table nm = none) :
    ∀ x ∈ c.tables, cstrncmpEq x.name nm MAX_TABLE_NAME_LEN = false := by
  intro x hx
  have := List.find?_eq_none.mp h x hx
  revert this
  cases cstrncmpEq x.name nm MAX_TABLE_NAME_LEN <;> simp

/-- The tables list after a successful `create`. -/
theorem create_tables_shape (s : Store) (n1 : List Nat) (schema1 : List ColumnSchema)
    (hfree : s.catalog.get_table n1 = none)
    (hcount : s.catalog.header.table_count < MAX_TABLES) :
    ((FileStorageLayer.create s n1 schema1).2).catalog.tables
      = s.catalog.tables ++ [make_table_metadata n1 schema1] := by
  have hall0 : ∀ x ∈ s.catalog.tables,
      cstrncmpEq x.name n1 MAX_TABLE_NAME_LEN = false :=
    get_table_none_all_false s.catalog n1 hfree
  have htk : (n1.take MAX_TABLE_NAME_LEN).take MAX_TABLE_NAME_LEN
      = n1.take MAX_TABLE_NAME_LEN := by
    simp [List.take_take]
  have hall : ∀ x ∈ s.catalog.tables,
      cstrncmpEq x.name (n1.take MAX_TABLE_NAME_LEN) MAX_TABLE_NAME_LEN = false := by
    intro x hx
    rw [cstrncmpEq_congr_right MAX_TABLE_NAME_LEN x.name
      (n1.take MAX_TABLE_NAME_LEN) n1 htk]
    exact hall0 x hx
  have hadd : s.catalog.add_table n1
      = (true,
         { s.catalog with
           tables := s.catalog.tables ++ [make_table_metadata n1 []]
           header := { s.catalog.header with
             table_count := s.catalog.header.table_count + 1
             flags := s.catalog.header.flags ||| CATALOG_DIRTY
             lsn := s.catalog.header.lsn + 1 }
           catalog_dirty := true }) := by
    simp only [CatalogPage.add_table]
    rw [if_neg (by omega), if_neg (by rw [hfree]; simp)]
  have hfidx : ∀ (mt : TableMetadata), mt.name = n1.take MAX_TABLE_NAME_LEN →
      ∀ (tl : List ColumnSchema),
      (s.catalog.tables ++ [mt]).findIdx?
          (fun tm => cstrncmpEq tm.name
            (make_table_metadata n1 tl).name MAX_TABLE_NAME_LEN) 0
        = some s.catalog.tables.length := by
    intro mt hmt tl
    have hname : (make_table_metadata n1 tl).name = n1.take MAX_TABLE_NAME_LEN := rfl
    have := findIdx?_append_singleton
      (fun tm => cstrncmpEq tm.name
        (make_table_metadata n1 tl).name MAX_TABLE_NAME_LEN)
      s.catalog.tables mt 0
      (by intro y hy; rw [hname]; exact hall y hy)
      (by rw [hname]
          show cstrncmpEq mt.name (n1.take MAX_TABLE_NAME_LEN) MAX_TABLE_NAME_LEN = true
          rw [hmt]
          exact cstrncmpEq_self MAX_TABLE_NAME_LEN _)
    simpa using this
  simp only [FileStorageLayer.create]
  rw [if_neg (by rw [hfree]; simp)]
  rw [hadd]
  simp only [CatalogPage.update_table]
  rw [hfidx (make_table_metadata n1 []) rfl schema1]
  simp only
  rw [set_append_last]

/-- C10: table names are stored truncated to 63 bytes and compared on
their first 63 bytes: after creating `n1`, creating any `n2` whose
63-byte prefix (in the sense of `List.take`) equals `n1`'s raises
"Table already exists", `get_table` resolves `n1` and `n2` to the same
entry, and that entry's stored name is `n1.take 63`. -/
theorem table_name_truncation (s : Store) (n1 n2 : List Nat)
    (schema1 schema2 : List ColumnSchema)
    (h63 : n1.take MAX_TABLE_NAME_LEN = n2.take MAX_TABLE_NAME_LEN)
    (hfree : s.catalog.get_table n1 = none)
    (hcount : s.catalog.header.table_count < MAX_TABLES) :
    (FileStorageLayer.create ((FileStorageLayer.create s n1 schema1).2) n2 schema2).1
        = Except.error "Table already exists"
    ∧ ((FileStorageLayer.create s n1 schema1).2).catalog.get_table n2
        = ((FileStorageLayer.create s n1 schema1).2).catalog.get_table n1
    ∧ ∃ m, ((FileStorageLayer.create s n1 schema1).2).catalog.get_table n1 = some m
        ∧ m.name = n1.take MAX_TABLE_NAME_LEN := by
  have htab := create_tables_shape s n1 schema1 hfree hcount
  have hname : (make_table_metadata n1 schema1).name = n1.take MAX_TABLE_NAME_LEN := rfl
  have hg1 : ((FileStorageLayer.create s n1 schema1).2).catalog.get_table n1
      = some (make_table_metadata n1 schema1) := by
    simp only [CatalogPage.get_table, htab]
    exact find?_append_singleton _ s.catalog.tables _
      (get_table_none_all_false s.catalog n1 hfree)
      (by rw [hname]
          exact cstrncmpEq_of_take_eq MAX_TABLE_NAME_LEN _ _ (by simp [List.take_take]))
  have hg2 : ((FileStorageLayer.create s n1 schema1).2).catalog.get_table n2
      = ((FileStorageLayer.create s n1 schema1).2).catalog.get_table n1 := by
    simp only [CatalogPage.get_table]
    exact find?_pred_congr _ _ _
      (fun x _ => cstrncmpEq_congr_right MAX_TABLE_NAME_LEN x.name n2 n1 h63.symm)
  refine ⟨?_, hg2, ⟨make_table_metadata n1 schema1, hg1, hname⟩⟩
  have hcond : ((((FileStorageLayer.create s n1 schema1).2).catalog.get_table n2).isSome)
      = true := by
    rw [hg2, hg1]; rfl
  revert hcond
  generalize (FileStorageLayer.create s n1 schema1).2 = s1
  intro hcond
  simp only [FileStorageLayer.create]
  rw [if_pos hcond]

def c10n1 : List Nat := List.replicate 64 97

def c10n2 : List Nat := List.replicate 63 97 ++ [98]

theorem table_name_truncation_witness :
    (FileStorageLayer.create
        ((FileStorageLayer.create (FileStorageLayer.new none []) c10n1 []).2) c10n2 []).1
        = Except.error "Table already exists"
    ∧ ((FileStorageLayer.create (FileStorageLayer.new none []) c10n1 []).2).catalog.get_table
          c10n2
        = ((FileStorageLayer.create (FileStorageLayer.new none []) c10n1 []).2).catalog.get_table
          c10n1
    ∧ ∃ m,
        ((FileStorageLayer.create (FileStorageLayer.new none []) c10n1 []).2).catalog.get_table
          c10n1 = some m
        ∧ m.name = c10n1.take MAX_TABLE_NAME_LEN :=
  table_name_truncation (FileStorageLayer.new none []) c10n1 c10n2 [] []
    (by decide) (by decide) (by decide)

/-! ## Double delete (claim C9) -/

/-- Decidable mirror of the `delete_record` page-chain walk on a fully
cached chain: the walk stays in the cache and the first page whose id
range contains `rid` has no occupied slot carrying `rid`. -/
def deleteProbe (rid : Nat) : Store → Nat → Nat → Bool
  | _, _, 0 => false
  | s, cur, fuel + 1 =>
    if cur == INVALID_PAGE_ID then false
    else
      match alookup s.page_cache cur with
      | none => false
      | some pg =>
        if rid ≥ pg.header.id_range_start && rid < pg.header.id_range_end then
          (pg.slots.findIdx? (fun sl => sl.record_id == rid && sl.is_occupied)).isNone
        else deleteProbe rid s pg.header.next_page_id fuel

theorem deleteWalk_probe (t : List Nat) (m : TableMetadata) (rid : Nat) :
    ∀ (fuel : Nat) (s : Store) (cur : Nat),
    deleteProbe rid s cur fuel = true →
    FileStorageLayer.deleteWalk t m rid s cur fuel
      = (Except.error "Delete failed: record not found or already deleted", s) := by
  intro fuel
  induction fuel with
  | zero =>
    intro s cur h
    simp [deleteProbe] at h
  | succ f ih =>
    intro s cur h
    rw [deleteProbe] at h
    by_cases hcur : (cur == INVALID_PAGE_ID) = true
    · rw [if_pos hcur] at h
      cases h
    · rw [if_neg hcur] at h
      cases hal : alookup s.page_cache cur with
      | none => rw [hal] at h; cases h
      | some pg =>
        rw [hal] at h
        dsimp only at h
        have hload : FileStorageLayer.get_or_load_page s cur = Except.ok (pg, s) := by
          simp [FileStorageLayer.get_or_load_page, hal]
        rw [FileStorageLayer.deleteWalk, if_neg hcur, hload]
        dsimp only
        by_cases hr : (rid ≥ pg.header.id_range_start
            && rid < pg.header.id_range_end) = true
        · rw [if_pos hr] at h
          have hnone : pg.slots.findIdx?
              (fun sl => sl.record_id == rid && sl.is_occupied) = none := by
            cases hfi : pg.slots.findIdx?
                (fun sl => sl.record_id == rid && sl.is_occupied) with
            | none => rfl
            | some i => rw [hfi] at h; cases h
          have hdel : pg.delete_record rid = (false, pg) := by
            simp [Page.delete_record, hnone]
          rw [if_pos hr, hdel]
        · rw [if_neg hr] at h
          rw [if_neg hr]
          exact ih s pg.header.next_page_id h

/-- C9: a `delete_record(table, r)` hitting the page whose id range
contains `r` when that page holds no occupied slot for `r` (in
particular after `r` was already deleted, its slot tombstoned) raises
"Delete failed: record not found or already deleted" and returns the
store unchanged — slot flags, free-id bitmap and record_count
included. -/
theorem double_delete_raises (s : Store) (t : List Nat) (m : TableMetadata) (rid : Nat)
    (hopen : s.is_open = true)
    (hm : tlookup s.table_cache t = some m)
    (hprobe : deleteProbe rid s m.first_data_page
        (listLen s.page_cache + listLen s.disk_pages + 1) = true) :
    FileStorageLayer.delete_record s t rid
      = (Except.error "Delete failed: record not found or already deleted", s) := by
  rw [FileStorageLayer.delete_record]
  rw [if_neg (by rw [hopen]; simp)]
  have hmeta : FileStorageLayer.get_table_metadata s t = (Except.ok m, s) := by
    rw [FileStorageLayer.get_table_metadata, hm]
  rw [hmeta]
  exact deleteWalk_probe t m rid _ s m.first_data_page hprobe

def c9Table : List Nat := strBytes "t"

def c9Meta : TableMetadata :=
  { name := c9Table
    first_data_page := 2
    last_data_page := 2
    record_count := 1
    free_space_head := INVALID_PAGE_ID
    column_count := 0
    columns := []
    next_id_block := 1 }

def c9Page : Page :=
  { header := { PageHeader.init 2 with
      slot_count := 1
      id_range_start := 1
      id_range_end := 1 + IDS_PER_PAGE }
    slots := [{ offset := 0, length := 3, flags := SLOT_OCCUPIED, record_id := 1 }]
    data := [7, 8, 9]
    free_id_bitmap := List.replicate IDS_PER_PAGE false }

def c9Store : Store :=
  { is_open := true
    catalog := CatalogPage.new
    page_cache := [(2, c9Page)]
    table_cache := [(c9Table, c9Meta)]
    disk_catalog := none
    disk_pages := [] }

theorem double_delete_raises_witness :
    FileStorageLayer.delete_record
        (FileStorageLayer.delete_record c9Store c9Table 1).2 c9Table 1
      = (Except.error "Delete failed: record not found or already deleted",
         (FileStorageLayer.delete_record c9Store c9Table 1).2) :=
  double_delete_raises (FileStorageLayer.delete_record c9Store c9Table 1).2 c9Table
    { c9Meta with record_count := 0 } 1
    (by decide) (by decide) (by decide)

/-! ## Persistence across close/re-open (claim C2) -/

def persistT : List Nat := strBytes "persist"

def persistSchema : List ColumnSchema := [colInt "id", colText "name"]

def persistStore0 : Store :=
  (FileStorageLayer.openStore (FileStorageLayer.new none [])).2

def persistStore1 : Store :=
  (FileStorageLayer.create persistStore0 persistT persistSchema).2

def persistStore2 : Store :=
  (FileStorageLayer.insert persistStore1 persistT [strBytes "99", strBytes "Zed"]).2

def persistPage : Page := (alookup persistStore2.page_cache 2).getD default

def persistClosed : Store := (FileStorageLayer.close persistStore2).2

/-- A second `FileStorageLayer` opened on the files the first one
closed: the model of re-opening the same path. -/
def persistReopened : Store :=
  (FileStorageLayer.openStore
    (FileStorageLayer.new persistClosed.disk_catalog persistClosed.disk_pages)).2

def persistCatalogDisk : CatalogDisk :=
  match persistStore2.catalog.serializeDisk with
  | Except.ok d => d
  | Except.error _ => FileStorageLayer.zeroCatalogDisk

def persistCat : CatalogPage :=
  match CatalogPage.deserializeDisk persistCatalogDisk with
  | Except.ok c => c
  | Except.error _ => CatalogPage.new

def persistMeta : TableMetadata := (persistCat.get_table persistT).getD default

theorem length_one_eq {α : Type} [Inhabited α] (l : List α) (h : l.length = 1) :
    l = [l.getD 0 default] := by
  cases l with
  | nil => simp at h
  | cons x xs =>
    cases xs with
    | nil => rfl
    | cons y ys => simp at h

theorem persist_cache_shape : persistStore2.page_cache = [(2, persistPage)] := by
  have h1 : persistStore2.page_cache.length = 1 := by decide
  have h3 : (persistStore2.page_cache.getD 0 default).1 = 2 := by decide
  cases hc : persistStore2.page_cache with
  | nil => rw [hc] at h1; simp at h1
  | cons e rest =>
    cases rest with
    | cons f rest2 => rw [hc] at h1; simp at h1
    | nil =>
      rw [hc] at h3
      simp only [List.getD_cons_zero] at h3
      have hp : persistPage = e.2 := by
        show (alookup persistStore2.page_cache 2).getD default = e.2
        rw [hc]
        have hf : ([e].find? (fun kv => kv.1 == 2)) = some e := by
          exact List.find?_cons_of_pos _ (by show (e.1 == 2) = true; rw [h3]; rfl)
        simp only [alookup, hf, Option.map_some]
        rfl
      rw [hp]
      obtain ⟨k, v⟩ := e
      simp only at h3
      rw [h3]

/-- The flush performed by `close` writes the single dirty data page's
serialized image to the page-2 file and the catalog image to page 0,
then marks the store closed. -/
theorem persist_close_spec :
    ∃ B pgf, (persistPage.serialize).1 = Except.ok B ∧ B.length = PAGE_SIZE ∧
      readBytes B 0 PAGEHEADER_SIZE = encodeHeader ((persistPage.compact_page).header) ∧
      FileStorageLayer.close persistStore2
        = (Except.ok (),
           { persistStore2 with
             page_cache := [(2, pgf)]
             disk_pages := [(2, B)]
             disk_catalog := some persistCatalogDisk
             is_open := false }) := by
  obtain ⟨B, hser, hlen, hread⟩ :=
    serialize_ok_spec persistPage (by decide) (by decide) (by decide)
  have hcatser : persistStore2.catalog.serializeDisk = Except.ok persistCatalogDisk := by
    decide
  have hdp0 : persistStore2.disk_pages = [] := by decide
  cases hsp : persistPage.serialize with
  | mk r pgf =>
    have hr : r = Except.ok B := by
      have h := hser
      rw [hsp] at h
      exact h
    subst hr
    have hflush : FileStorageLayer.flush persistStore2
        = (Except.ok (),
           { persistStore2 with
             page_cache := [(2, pgf)]
             disk_pages := [(2, B)]
             disk_catalog := some persistCatalogDisk }) := by
      rw [FileStorageLayer.flush, if_neg (by decide), persist_cache_shape, hdp0,
        FileStorageLayer.flushPages, if_pos (by decide), hsp]
      dsimp only
      rw [show aupsert (aupsert ([] : List (Nat × List Nat)) 2 []) 2 B = [(2, B)] from rfl]
      rw [FileStorageLayer.flushPages]
      dsimp only
      rw [if_pos (by decide), hcatser]
    refine ⟨B, pgf, rfl, hlen, hread, ?_⟩
    rw [FileStorageLayer.close, if_neg (by decide), hflush]

/-- The getWalk step on a page that is absent from the cache and whose
on-disk image fails to deserialize: the walk surfaces the corruption
error. -/
theorem getWalk_disk_error (schema : List ColumnSchema) (rid : Nat) (s : Store)
    (cur fuel : Nat) (B : List Nat) (e : String)
    (hcur : (cur == INVALID_PAGE_ID) = false)
    (hmiss : alookup s.page_cache cur = none)
    (hdisk : alookup s.disk_pages cur = some B)
    (hlen : B.length = PAGE_SIZE)
    (hde : Page.deserialize B = Except.error e) :
    FileStorageLayer.getWalk schema rid s cur (fuel + 1) = (Except.error e, s) := by
  rw [FileStorageLayer.getWalk, if_neg (by simp [hcur])]
  have hdata : B.take PAGE_SIZE ++ List.replicate (PAGE_SIZE - listLen B) 0 = B := by
    rw [listLen_eq, hlen, Nat.sub_self, ← hlen, List.take_length]
    simp
  have hload : FileStorageLayer.get_or_load_page s cur = Except.error e := by
    rw [FileStorageLayer.get_or_load_page, hmiss]
    dsimp only
    rw [hdisk]
    dsimp only
    rw [hdata, hde]
  rw [hload]

/-- C2 fails in this code: a create/insert run, a clean close, and a
re-open of the same files leave `get` unable to return the
pre-close values — the reloaded page is rejected by `deserialize`.
The pre-close `get` returns the row ("99", "Zed"), `close` succeeds,
and the same `get` on the re-opened store raises the data-bounds
corruption error. -/
theorem persistence_lost_across_reopen :
    (FileStorageLayer.get persistStore2 persistT 1).1
        = Except.ok [[57, 57], [90, 101, 100]]
    ∧ (FileStorageLayer.close persistStore2).1 = Except.ok ()
    ∧ (FileStorageLayer.get persistReopened persistT 1).1
        = Except.error "Corrupt page: data out of bounds" := by
  obtain ⟨B, pgf, hser, hlen, hread, hclose⟩ := persist_close_spec
  have hdd : CatalogPage.deserializeDisk persistCatalogDisk = Except.ok persistCat := by
    decide
  have hdeser : Page.deserialize B = Except.error "Corrupt page: data out of bounds" :=
    deserialize_fso_out_of_bounds B ((persistPage.compact_page).header) hlen hread
      (by decide) (by decide) (by decide) (by decide) (by decide) (by decide)
      (by decide) (by decide) (by decide) (by decide) (by decide) (by decide)
      (by decide)
  refine ⟨by decide, by rw [hclose], ?_⟩
  have hre : persistReopened
      = { is_open := true
          catalog := persistCat
          page_cache := []
          table_cache := []
          disk_catalog := some persistCatalogDisk
          disk_pages := [(2, B)] } := by
    show (FileStorageLayer.openStore
      (FileStorageLayer.new persistClosed.disk_catalog persistClosed.disk_pages)).2 = _
    have h1 : persistClosed.disk_catalog = some persistCatalogDisk := by
      show (FileStorageLayer.close persistStore2).2.disk_catalog = _
      rw [hclose]
    have h2 : persistClosed.disk_pages = [(2, B)] := by
      show (FileStorageLayer.close persistStore2).2.disk_pages = _
      rw [hclose]
    rw [h1, h2]
    simp only [FileStorageLayer.new, FileStorageLayer.openStore]
    rw [hdd]
  rw [hre]
  have hgt : persistCat.get_table persistT = some persistMeta := by decide
  rw [FileStorageLayer.get, if_neg (by simp)]
  have hgtm : FileStorageLayer.get_table_metadata
      { is_open := true
        catalog := persistCat
        page_cache := []
        table_cache := []
        disk_catalog := some persistCatalogDisk
        disk_pages := ([(2, B)] : List (Nat × List Nat)) } persistT
      = (Except.ok persistMeta,
         { is_open := true
           catalog := persistCat
           page_cache := []
           table_cache := [(persistT, persistMeta)]
           disk_catalog := some persistCatalogDisk
           disk_pages := ([(2, B)] : List (Nat × List Nat)) }) := by
    rw [FileStorageLayer.get_table_metadata]
    dsimp only
    rw [show tlookup ([] : List (List Nat × TableMetadata)) persistT = none from rfl]
    dsimp only
    rw [hgt]
    rfl
  rw [hgtm]
  dsimp only
  have hfdp : persistMeta.first_data_page = 2 := by decide
  rw [hfdp]
  have hwalk := getWalk_disk_error (persistMeta.columns.take persistMeta.column_count) 1
    { is_open := true
      catalog := persistCat
      page_cache := []
      table_cache := [(persistT, persistMeta)]
      disk_catalog := some persistCatalogDisk
      disk_pages := ([(2, B)] : List (Nat × List Nat)) }
    2 1 B "Corrupt page: data out of bounds"
    (by decide) rfl rfl hlen hdeser
  rw [show (listLen ([] : List (Nat × Page))
      + listLen ([(2, B)] : List (Nat × List Nat)) + 1) = 1 + 1 from rfl]
  rw [hwalk]

/-! ## Insert id uniqueness (claim C7) -/

theorem getD_set_ne {α : Type} [Inhabited α] (l : List α) (i j : Nat) (v : α)
    (h : i ≠ j) : (l.set i v).getD j default = l.getD j default := by
  rw [List.getD_eq_getElem?_getD, List.getElem?_set_ne h, ← List.getD_eq_getElem?_getD]

theorem getD_append_left {α : Type} [Inhabited α] (l r : List α) (j : Nat)
    (h : j < l.length) : ((l ++ r).getD j default) = l.getD j default := by
  rw [List.getD_eq_getElem?_getD, List.getElem?_append_left h,
    ← List.getD_eq_getElem?_getD]

theorem getD_append_right_len {α : Type} [Inhabited α] (l : List α) (x : α) :
    ((l ++ [x]).getD l.length default) = x := by
  rw [List.getD_eq_getElem?_getD, List.getElem?_append_right (Nat.le_refl _)]
  simp

theorem getD_append_right_eq {α : Type} [Inhabited α] (l : List α) (x : α)
    (i : Nat) (h : i = l.length) : ((l ++ [x]).getD i default) = x := by
  subst h
  exact getD_append_right_len l x

/-- `findIdx?` on an association list whose key at index `k` is `k + c`
finds the key `j + c` at index `j`. -/
theorem findIdx?_keyed {β : Type} [Inhabited β] :
    ∀ (ps : List (Nat × β)) (c j st : Nat),
    (∀ k, k < ps.length → (ps.getD k default).1 = k + c) → j < ps.length →
    ps.findIdx? (fun kv => kv.1 == j + c) st = some (st + j) := by
  intro ps
  induction ps with
  | nil => intro c j st _ hj; simp at hj
  | cons x xs ih =>
    intro c j st hk hj
    have hx : x.1 = c := by
      have := hk 0 (by simp)
      simpa using this
    rw [List.findIdx?_cons]
    cases j with
    | zero =>
      rw [if_pos (by show (x.1 == 0 + c) = true; rw [hx]; simp)]
      rfl
    | succ j' =>
      rw [if_neg (by
        show ¬ (x.1 == j' + 1 + c) = true
        rw [hx]
        simp only [beq_iff_eq]
        omega)]
      have := ih (c + 1) j' (st + 1)
        (by intro k hkk
            have := hk (k + 1) (by simp only [List.length_cons]; omega)
            simp only [List.getD_cons_succ] at this
            rw [this]; omega)
        (by simp only [List.length_cons] at hj; omega)
      rw [show (j' + 1 + c) = (j' + (c + 1)) by omega, this]
      congr 1
      omega

theorem find?_keyed {β : Type} [Inhabited β] :
    ∀ (ps : List (Nat × β)) (c j : Nat),
    (∀ k, k < ps.length → (ps.getD k default).1 = k + c) → j < ps.length →
    ps.find? (fun kv => kv.1 == j + c) = some (ps.getD j default) := by
  intro ps
  induction ps with
  | nil => intro c j _ hj; simp at hj
  | cons x xs ih =>
    intro c j hk hj
    have hx : x.1 = c := by
      have := hk 0 (by simp)
      simpa using this
    cases j with
    | zero =>
      rw [List.find?_cons_of_pos _ (by show (x.1 == 0 + c) = true; rw [hx]; simp)]
      rfl
    | succ j' =>
      rw [List.find?_cons_of_neg _ (by
        show ¬ (x.1 == j' + 1 + c) = true
        rw [hx]
        simp only [beq_iff_eq]
        omega)]
      have := ih (c + 1) j'
        (by intro k hkk
            have := hk (k + 1) (by simp only [List.length_cons]; omega)
            simp only [List.getD_cons_succ] at this
            rw [this]; omega)
        (by simp only [List.length_cons] at hj; omega)
      rw [show (j' + 1 + c) = (j' + (c + 1)) by omega, this]
      simp

theorem find?_keyed_none {β : Type} [Inhabited β] :
    ∀ (ps : List (Nat × β)) (c key : Nat),
    (∀ k, k < ps.length → (ps.getD k default).1 = k + c) →
    (∀ k, k < ps.length → k + c ≠ key) →
    ps.find? (fun kv => kv.1 == key) = none := by
  intro ps
  induction ps with
  | nil => intro c key _ _; rfl
  | cons x xs ih =>
    intro c key hk hne
    have hx : x.1 = c := by
      have := hk 0 (by simp)
      simpa using this
    rw [List.find?_cons_of_neg _ (by
      show ¬ (x.1 == key) = true
      rw [hx]
      simp only [beq_iff_eq]
      have := hne 0 (by simp)
      omega)]
    exact ih (c + 1) key
      (by intro k hkk
          have := hk (k + 1) (by simp only [List.length_cons]; omega)
          simp only [List.getD_cons_succ] at this
          rw [this]; omega)
      (by intro k hkk
          have := hne (k + 1) (by simp only [List.length_cons]; omega)
          omega)

theorem alookup_keyed {β : Type} [Inhabited β] (ps : List (Nat × β)) (c j : Nat)
    (hk : ∀ k, k < ps.length → (ps.getD k default).1 = k + c) (hj : j < ps.length) :
    alookup ps (j + c) = some (ps.getD j default).2 := by
  rw [alookup, find?_keyed ps c j hk hj]
  rfl

theorem alookup_keyed_none {β : Type} [Inhabited β] (ps : List (Nat × β)) (c key : Nat)
    (hk : ∀ k, k < ps.length → (ps.getD k default).1 = k + c)
    (hne : ∀ k, k < ps.length → k + c ≠ key) :
    alookup ps key = none := by
  rw [alookup, find?_keyed_none ps c key hk hne]
  rfl

theorem aupsert_keyed {β : Type} [Inhabited β] (ps : List (Nat × β)) (c j : Nat)
    (v : β) (hk : ∀ k, k < ps.length → (ps.getD k default).1 = k + c)
    (hj : j < ps.length) :
    aupsert ps (j + c) v = ps.set j (j + c, v) := by
  rw [aupsert, findIdx?_keyed ps c j 0 hk hj]
  simp

/-- `tlookup` after `tupsert` at the same key gives the new value. -/
theorem tlookup_tupsert {β : Type} [Inhabited β] (l : List (List Nat × β))
    (k : List Nat) (v : β) : tlookup (tupsert l k v) k = some v := by
  rw [tupsert]
  cases hfi : l.findIdx? (fun kv => kv.1 == k) with
  | none =>
    have hnone : l.find? (fun kv => kv.1 == k) = none := by
      cases hfn : l.find? (fun kv => kv.1 == k) with
      | none => rfl
      | some e =>
        exfalso
        have hmem := List.find?_some hfn
        have hin := List.mem_of_find?_eq_some hfn
        obtain ⟨i, hi, hgd⟩ := List.getElem_of_mem hin
        have : l.findIdx? (fun kv => kv.1 == k) ≠ none := by
          intro habs
          rw [List.findIdx?_eq_none_iff] at habs
          have := habs e hin
          rw [hmem] at this
          cases this
        rw [hfi] at this
        exact this rfl
    rw [tlookup]
    rw [List.find?_append, hnone]
    simp [List.find?_cons]
  | some i =>
    obtain ⟨hlt, hpred, hbefore⟩ := findIdx?_some_spec _ l i hfi
    rw [tlookup]
    have hfind : (l.set i (k, v)).find? (fun kv => kv.1 == k) = some (k, v) := by
      exact find?_set_of_findIdx? (fun kv => kv.1 == k) (k, v) (by simp) l i hfi
    rw [hfind]
    rfl

/-- Fields of the page untouched by `insert_record` (also through the
compaction it may trigger): the free-id bitmap and the id-range and
chain-link header fields. -/
theorem insert_record_pres (p : Page) (rid : Nat) (d : List Nat) :
    ((p.insert_record rid d).2).free_id_bitmap = p.free_id_bitmap
    ∧ ((p.insert_record rid d).2).header.id_range_start = p.header.id_range_start
    ∧ ((p.insert_record rid d).2).header.id_range_end = p.header.id_range_end
    ∧ ((p.insert_record rid d).2).header.next_page_id = p.header.next_page_id := by
  simp only [Page.insert_record]
  by_cases h1 : (p.has_space (SLOT_SIZE + listLen d)) = true
  · rw [if_pos h1]
    by_cases h2 : (p.has_space (SLOT_SIZE + listLen d)) = true
    · rw [if_pos h2]
      exact ⟨rfl, rfl, rfl, rfl⟩
    · rw [if_neg h2]
      exact ⟨rfl, rfl, rfl, rfl⟩
  · rw [if_neg h1]
    by_cases h2 : ((p.compact_page).has_space (SLOT_SIZE + listLen d)) = true
    · rw [if_pos h2]
      exact ⟨rfl, rfl, rfl, rfl⟩
    · rw [if_neg h2]
      exact ⟨rfl, rfl, rfl, rfl⟩

theorem insert_record_bitmap_len (p : Page) (rid : Nat) (d : List Nat) :
    ((p.insert_record rid d).2).free_id_bitmap.length = p.free_id_bitmap.length := by
  rw [(insert_record_pres p rid d).1]

/-- The free-id scan of `insert`: on success it hands out
`id_range_start + b` for some previously clear bit `b ≥ i`, sets
exactly that bit, and preserves the id-range and link fields; on
failure it leaves the bitmap and those fields unchanged. -/
theorem insertIdScan_inv (record : List Nat) :
    ∀ (k i : Nat) (p : Page), IDS_PER_PAGE ≤ i + k →
    (match FileStorageLayer.insertIdScan record p i with
     | (some rid, p') =>
        ∃ b, i ≤ b ∧ b < IDS_PER_PAGE
          ∧ rid = (p.header.id_range_start + b) % 4294967296
          ∧ p.free_id_bitmap.getD b false = false
          ∧ p'.free_id_bitmap = p.free_id_bitmap.set b true
          ∧ p'.header.id_range_start = p.header.id_range_start
          ∧ p'.header.id_range_end = p.header.id_range_end
          ∧ p'.header.next_page_id = p.header.next_page_id
     | (none, p') =>
        p'.free_id_bitmap = p.free_id_bitmap
          ∧ p'.header.id_range_start = p.header.id_range_start
          ∧ p'.header.id_range_end = p.header.id_range_end
          ∧ p'.header.next_page_id = p.header.next_page_id) := by
  intro k
  induction k with
  | zero =>
    intro i p hk
    rw [FileStorageLayer.insertIdScan]
    rw [dif_neg (by omega)]
    exact ⟨rfl, rfl, rfl, rfl⟩
  | succ k' ih =>
    intro i p hk
    rw [FileStorageLayer.insertIdScan]
    by_cases hi : i < IDS_PER_PAGE
    · rw [dif_pos hi]
      by_cases hbit : p.free_id_bitmap.getD i false = true
      · rw [if_pos hbit]
        have hrec := ih (i + 1) p (by omega)
        cases hscan : FileStorageLayer.insertIdScan record p (i + 1) with
        | mk res2 p2 =>
          rw [hscan] at hrec
          cases res2 with
          | some rid2 =>
            obtain ⟨b, hb1, hb2, hb3, hb4, hb5, hb6, hb7, hb8⟩ := hrec
            exact ⟨b, by omega, hb2, hb3, hb4, hb5, hb6, hb7, hb8⟩
          | none => exact hrec
      · rw [if_neg hbit]
        dsimp only
        cases hins : p.insert_record ((p.header.id_range_start + i) % 4294967296)
            record with
        | mk res p1 =>
          obtain ⟨hbm, hirs, hire, hnext⟩ := insert_record_pres p
            ((p.header.id_range_start + i) % 4294967296) record
          rw [hins] at hbm hirs hire hnext
          dsimp only at hbm hirs hire hnext
          cases res with
          | some rid0 =>
            dsimp only
            refine ⟨i, Nat.le_refl i, hi, rfl,
              (by revert hbit; cases p.free_id_bitmap.getD i false <;> simp),
              ?_, hirs, hire, hnext⟩
            rw [hbm]
          | none =>
            dsimp only
            have hrec := ih (i + 1) p1 (by omega)
            cases hscan : FileStorageLayer.insertIdScan record p1 (i + 1) with
            | mk res2 p2 =>
              rw [hscan] at hrec
              cases res2 with
              | some rid2 =>
                obtain ⟨b, hb1, hb2, hb3, hb4, hb5, hb6, hb7, hb8⟩ := hrec
                refine ⟨b, by omega, hb2, ?_, ?_, ?_, ?_, ?_, ?_⟩
                · rw [hb3, hirs]
                · rw [← hbm]; exact hb4
                · rw [hb5, hbm]
                · rw [hb6, hirs]
                · rw [hb7, hire]
                · rw [hb8, hnext]
              | none =>
                obtain ⟨g1, g2, g3, g4⟩ := hrec
                exact ⟨by rw [g1, hbm], by rw [g2, hirs], by rw [g3, hire],
                  by rw [g4, hnext]⟩
    · rw [dif_neg hi]
      exact ⟨rfl, rfl, rfl, rfl⟩

theorem set_append_lt {α : Type} :
    ∀ (l r : List α) (i : Nat) (v : α), i < l.length →
    (l ++ r).set i v = l.set i v ++ r := by
  intro l
  induction l with
  | nil => intro r i v h; simp at h
  | cons x xs ih =>
    intro r i v h
    cases i with
    | zero => rfl
    | succ i' =>
      simp only [List.cons_append, List.set_cons_succ]
      rw [ih r i' v (by simp only [List.length_cons] at h; omega)]

theorem getD_replicate_false (n i : Nat) :
    (List.replicate n false).getD i false = false := by
  induction n generalizing i with
  | zero => simp
  | succ n' ih =>
    cases i with
    | zero => rfl
    | succ i' =>
      rw [List.replicate_succ, List.getD_cons_succ]
      exact ih i'

theorem update_table_header_pres (c : CatalogPage) (md : TableMetadata) :
    ((c.update_table md).2).header.free_page_id = c.header.free_page_id
    ∧ ((c.update_table md).2).header.system_page_count
        = c.header.system_page_count := by
  simp only [CatalogPage.update_table]
  cases hfi : c.tables.findIdx?
      (fun tm => cstrncmpEq tm.name md.name MAX_TABLE_NAME_LEN) with
  | some i => exact ⟨rfl, rfl⟩
  | none => exact ⟨rfl, rfl⟩

/-- The page fields the insert machinery must not disturb: the free-id
bitmap and the id-range/link header fields. -/
def samePageIds (a b : Page) : Prop :=
  a.free_id_bitmap = b.free_id_bitmap
  ∧ a.header.id_range_start = b.header.id_range_start
  ∧ a.header.id_range_end = b.header.id_range_end
  ∧ a.header.next_page_id = b.header.next_page_id

theorem samePageIds_refl (a : Page) : samePageIds a a := ⟨rfl, rfl, rfl, rfl⟩

theorem samePageIds_trans (a b c : Page) (h1 : samePageIds a b) (h2 : samePageIds b c) :
    samePageIds a c := by
  obtain ⟨x1, x2, x3, x4⟩ := h1
  obtain ⟨y1, y2, y3, y4⟩ := h2
  exact ⟨x1.trans y1, x2.trans y2, x3.trans y3, x4.trans y4⟩
theorem getD_set_self' {α : Type} (l : List α) (i : Nat) (v d : α)
    (h : i < l.length) : (l.set i v).getD i d = v := by
  rw [List.getD_eq_getElem?_getD, List.getElem?_set_self h]
  rfl

theorem getD_set_ne' {α : Type} (l : List α) (i j : Nat) (v d : α)
    (h : i ≠ j) : (l.set i v).getD j d = l.getD j d := by
  rw [List.getD_eq_getElem?_getD, List.getElem?_set_ne h,
    ← List.getD_eq_getElem?_getD]

/-- An in-bounds `getD` is a member of the list. -/
theorem getD_mem_of_lt {α : Type} (l : List α) (n : Nat) (d : α)
    (h : n < l.length) : l.getD n d ∈ l := by
  rw [List.getD_eq_getElem?_getD, List.getElem?_eq_getElem h]
  show l[n] ∈ l
  exact List.getElem_mem h

/-- Distinct positions of a duplicate-free list hold distinct values. -/
theorem nodup_getD_ne : ∀ (c : List Nat), c.Nodup →
    ∀ (q r : Nat), q < c.length → r < c.length → q ≠ r →
    c.getD q 0 ≠ c.getD r 0 := by
  intro c
  induction c with
  | nil => intro _ q r hq _ _; simp at hq
  | cons x xs ih =>
    intro hnd q r hq hr hqr
    rw [List.nodup_cons] at hnd
    simp only [List.length_cons] at hq hr
    cases q with
    | zero =>
      cases r with
      | zero => exact absurd rfl hqr
      | succ r' =>
        simp only [List.getD_cons_zero, List.getD_cons_succ]
        intro he
        apply hnd.1
        rw [he]
        exact getD_mem_of_lt xs r' 0 (by omega)
    | succ q' =>
      cases r with
      | zero =>
        simp only [List.getD_cons_zero, List.getD_cons_succ]
        intro he
        apply hnd.1
        rw [← he]
        exact getD_mem_of_lt xs q' 0 (by omega)
      | succ r' =>
        simp only [List.getD_cons_succ]
        exact ih hnd.2 q' r' (by omega) (by omega) (by omega)

/-- Appending a value absent from a duplicate-free list keeps it
duplicate-free. -/
theorem nodup_append_singleton (c : List Nat) (x : Nat)
    (hnd : c.Nodup) (hx : ∀ y ∈ c, y ≠ x) : (c ++ [x]).Nodup := by
  induction c with
  | nil => simp
  | cons a as ih =>
    rw [List.nodup_cons] at hnd
    rw [List.cons_append, List.nodup_cons]
    refine ⟨?_, ih hnd.2 (fun y hy => hx y (List.mem_cons_of_mem a hy))⟩
    intro hmem
    rw [List.mem_append] at hmem
    cases hmem with
    | inl h => exact hnd.1 h
    | inr h =>
      rw [List.mem_singleton] at h
      exact hx a (List.mem_cons_self a as) h

/-- Shape of the chain page holding the `j`-th 1024-id block: the
range fields cover the block, the link field holds the given successor
page id, and a bitmap bit is set exactly when its id was issued. -/
def pageShapeG (ids : List Nat) (j nxt : Nat) (pg : Page) : Prop :=
  pg.header.id_range_start = IDS_PER_PAGE * j + 1
  ∧ pg.header.id_range_end = IDS_PER_PAGE * j + 1 + IDS_PER_PAGE
  ∧ pg.header.next_page_id = nxt
  ∧ pg.free_id_bitmap.length = IDS_PER_PAGE
  ∧ ∀ i, i < IDS_PER_PAGE →
      (pg.free_id_bitmap.getD i false = true ↔ (IDS_PER_PAGE * j + 1 + i) ∈ ids)

theorem pageShapeG_of_same (ids : List Nat) (j nxt : Nat) (a b : Page)
    (h : samePageIds a b) (hb : pageShapeG ids j nxt b) :
    pageShapeG ids j nxt a := by
  obtain ⟨h1, h2, h3, h4⟩ := h
  obtain ⟨g1, g2, g3, g4, g5⟩ := hb
  exact ⟨by rw [h2, g1], by rw [h3, g2], by rw [h4, g3], by rw [h1, g4],
    by intro i hi; rw [h1]; exact g5 i hi⟩

/-- A `pageShapeG` is stable under issuing an id outside the page's
block. -/
theorem pageShapeG_cons_out (ids : List Nat) (j nxt rid : Nat) (pg : Page)
    (h : pageShapeG ids j nxt pg)
    (hout : ∀ i, i < IDS_PER_PAGE → IDS_PER_PAGE * j + 1 + i ≠ rid) :
    pageShapeG (rid :: ids) j nxt pg := by
  obtain ⟨h1, h2, h3, h4, h5⟩ := h
  refine ⟨h1, h2, h3, h4, ?_⟩
  intro i hi
  rw [h5 i hi, List.mem_cons]
  constructor
  · exact fun hm => Or.inr hm
  · rintro (hm | hm)
    · exact absurd hm (hout i hi)
    · exact hm

/-- Re-pointing the link field of a page that keeps its bitmap and
range fields yields the shape with the new successor. -/
theorem pageShapeG_relink (ids : List Nat) (j n2 : Nat) (a b : Page) (n1 : Nat)
    (hb : pageShapeG ids j n1 b)
    (hbm : a.free_id_bitmap = b.free_id_bitmap)
    (hirs : a.header.id_range_start = b.header.id_range_start)
    (hire : a.header.id_range_end = b.header.id_range_end)
    (hnext : a.header.next_page_id = n2) :
    pageShapeG ids j n2 a := by
  obtain ⟨g1, g2, g3, g4, g5⟩ := hb
  exact ⟨hirs.trans g1, hire.trans g2, hnext, by rw [hbm]; exact g4,
    by intro i hi; rw [hbm]; exact g5 i hi⟩

/-- Successor page id of chain position `q` in the chain `c` of cache
positions (cache position `p` holds page id `p + 2`). -/
def chainNext (c : List Nat) (q : Nat) : Nat :=
  if q + 1 = c.length then INVALID_PAGE_ID else c.getD (q + 1) 0 + 2

/-- The store invariant maintained by `insert` on table `t`.  The
cache is `ps`, entry `k` cached under page id `k + 2` (pages receive
consecutive ids whether or not the insert that created them
succeeded); the table's page chain visits the cache positions listed
in `c`, in chain order; the metadata's block counter equals the chain
length; chain page `q` carries the `pageShapeG` structure for the
`q`-th id block over the issued id list `ids`.  Cache entries outside
`c` are orphaned pages left by failed new-page inserts and carry no
constraint. -/
def chainInv (t ids : List Nat) (s : Store) (ps : List (Nat × Page))
    (c : List Nat) (m : TableMetadata) : Prop :=
  s.is_open = true
  ∧ tlookup s.table_cache t = some m
  ∧ s.disk_pages = []
  ∧ s.catalog.header.free_page_id = INVALID_PAGE_ID
  ∧ s.catalog.header.system_page_count = ps.length + 1
  ∧ s.page_cache = ps
  ∧ (∀ k, k < ps.length → (ps.getD k default).1 = k + 2)
  ∧ m.next_id_block = c.length
  ∧ c.Nodup
  ∧ c.length ≤ ps.length
  ∧ (∀ p ∈ c, p < ps.length)
  ∧ m.first_data_page = (if c.length = 0 then INVALID_PAGE_ID else c.getD 0 0 + 2)
  ∧ m.last_data_page
      = (if c.length = 0 then INVALID_PAGE_ID else c.getD (c.length - 1) 0 + 2)
  ∧ (∀ q, q < c.length →
      pageShapeG ids q (chainNext c q) ((ps.getD (c.getD q 0) default).2))
  ∧ (∀ id ∈ ids, 1 ≤ id ∧ id ≤ IDS_PER_PAGE * c.length)

/-- The page-chain loop of `insert` on a fully cached chain `c`,
entered at chain position `q` with enough fuel: it either issues
`1024·jj + 1 + b` for some chain page `jj ≥ q` whose bitmap bit `b`
was clear — setting exactly that bit and bumping only `record_count`
in the metadata — or reports `none`, leaving every page's bitmap and
id-range fields untouched (failed fit attempts may still have
compacted pages). -/
theorem insertWalk_chain (t : List Nat) (m : TableMetadata) (r0 ids : List Nat)
    (c : List Nat) (N : Nat) (hN : c.length = N) (hnd : c.Nodup)
    (hwrap : IDS_PER_PAGE * N + 1 ≤ 4294967296) :
    ∀ (d q f : Nat) (s : Store) (ps : List (Nat × Page)),
    q + d = N → d < f →
    s.page_cache = ps →
    ps.length + 2 < INVALID_PAGE_ID →
    (∀ k, k < ps.length → (ps.getD k default).1 = k + 2) →
    (∀ q', q' < N → c.getD q' 0 < ps.length) →
    (∀ q', q' < N →
        pageShapeG ids q' (chainNext c q') ((ps.getD (c.getD q' 0) default).2)) →
    (∃ ps2 jj b,
        FileStorageLayer.insertWalk t m r0 s
            (if q = N then INVALID_PAGE_ID else c.getD q 0 + 2) f
          = (Except.ok (some (IDS_PER_PAGE * jj + 1 + b)),
             { s with
               page_cache := ps2
               table_cache := tupsert s.table_cache t
                 { m with record_count := (m.record_count + 1) % 4294967296 }
               catalog := (s.catalog.update_table
                 { m with record_count := (m.record_count + 1) % 4294967296 }).2 })
        ∧ jj < N ∧ q ≤ jj ∧ b < IDS_PER_PAGE
        ∧ (ps.getD (c.getD jj 0) default).2.free_id_bitmap.getD b false = false
        ∧ ps2.length = ps.length
        ∧ (∀ k, k < ps.length → (ps2.getD k default).1 = k + 2)
        ∧ (∀ k, k < ps.length → k ≠ c.getD jj 0 →
            samePageIds (ps2.getD k default).2 (ps.getD k default).2)
        ∧ (ps2.getD (c.getD jj 0) default).2.free_id_bitmap
            = (ps.getD (c.getD jj 0) default).2.free_id_bitmap.set b true
        ∧ (ps2.getD (c.getD jj 0) default).2.header.id_range_start
            = (ps.getD (c.getD jj 0) default).2.header.id_range_start
        ∧ (ps2.getD (c.getD jj 0) default).2.header.id_range_end
            = (ps.getD (c.getD jj 0) default).2.header.id_range_end
        ∧ (ps2.getD (c.getD jj 0) default).2.header.next_page_id
            = (ps.getD (c.getD jj 0) default).2.header.next_page_id)
    ∨ (∃ ps2,
        FileStorageLayer.insertWalk t m r0 s
            (if q = N then INVALID_PAGE_ID else c.getD q 0 + 2) f
          = (Except.ok none, { s with page_cache := ps2 })
        ∧ ps2.length = ps.length
        ∧ (∀ k, k < ps.length → (ps2.getD k default).1 = k + 2)
        ∧ (∀ k, k < ps.length →
            samePageIds (ps2.getD k default).2 (ps.getD k default).2)) := by
  intro d
  induction d with
  | zero =>
    intro q f s ps hqd hf hpc hbig hkeys hcb hshape
    have hq : q = N := by omega
    cases f with
    | zero => omega
    | succ f0 =>
      right
      refine ⟨ps, ?_, rfl, hkeys, fun k _ => samePageIds_refl _⟩
      rw [if_pos hq, FileStorageLayer.insertWalk, if_pos (by simp), ← hpc]
  | succ d' ih =>
    intro q f s ps hqd hf hpc hbig hkeys hcb hshape
    have hqN : q < N := by omega
    cases f with
    | zero => omega
    | succ f0 =>
      rw [if_neg (by omega)]
      rw [FileStorageLayer.insertWalk,
        if_neg (by
          show ¬ ((c.getD q 0 + 2 == INVALID_PAGE_ID) = true)
          simp only [beq_iff_eq, INVALID_PAGE_ID]
          have := hcb q hqN
          simp only [INVALID_PAGE_ID] at hbig
          omega)]
      have hpj : c.getD q 0 < ps.length := hcb q hqN
      have hload : FileStorageLayer.get_or_load_page s (c.getD q 0 + 2)
          = Except.ok ((ps.getD (c.getD q 0) default).2, s) := by
        rw [FileStorageLayer.get_or_load_page, hpc,
          alookup_keyed ps 2 (c.getD q 0) hkeys hpj]
      rw [hload]
      dsimp only
      have hscan := insertIdScan_inv r0 IDS_PER_PAGE 0
        ((ps.getD (c.getD q 0) default).2) (by omega)
      cases hsc : FileStorageLayer.insertIdScan r0
          ((ps.getD (c.getD q 0) default).2) 0 with
      | mk res pg' =>
        rw [hsc] at hscan
        cases res with
        | some rid =>
          obtain ⟨b, _, hb2, hb3, hb4, hb5, hb6, hb7, hb8⟩ := hscan
          left
          obtain ⟨g1, g2, g3, g4, g5⟩ := hshape q hqN
          refine ⟨ps.set (c.getD q 0) (c.getD q 0 + 2, pg'), q, b, ?_, hqN,
            Nat.le_refl q, hb2, hb4, ?_, ?_, ?_, ?_, ?_, ?_, ?_⟩
          · have hrid : rid = IDS_PER_PAGE * q + 1 + b := by
              rw [hb3, g1]
              apply Nat.mod_eq_of_lt
              simp only [IDS_PER_PAGE] at hb2 hwrap ⊢
              omega
            have haup : aupsert s.page_cache (c.getD q 0 + 2) pg'
                = ps.set (c.getD q 0) (c.getD q 0 + 2, pg') := by
              rw [hpc]
              exact aupsert_keyed ps 2 (c.getD q 0) pg' hkeys hpj
            dsimp only
            rw [hrid, haup]
          · simp
          · intro k hk
            by_cases hkj : k = c.getD q 0
            · subst hkj
              rw [getD_set_self ps (c.getD q 0) (c.getD q 0 + 2, pg') (by omega)]
            · rw [getD_set_ne ps (c.getD q 0) k _ (fun h => hkj h.symm)]
              exact hkeys k hk
          · intro k hk hkjj
            rw [getD_set_ne ps (c.getD q 0) k _ (fun h => hkjj h.symm)]
            exact samePageIds_refl _
          · rw [getD_set_self ps (c.getD q 0) _ (by omega)]
            exact hb5
          · rw [getD_set_self ps (c.getD q 0) _ (by omega)]
            exact hb6
          · rw [getD_set_self ps (c.getD q 0) _ (by omega)]
            exact hb7
          · rw [getD_set_self ps (c.getD q 0) _ (by omega)]
            exact hb8
        | none =>
          obtain ⟨n1, n2, n3, n4⟩ := hscan
          obtain ⟨g1, g2, g3, g4, g5⟩ := hshape q hqN
          have haup : aupsert s.page_cache (c.getD q 0 + 2) pg'
              = ps.set (c.getD q 0) (c.getD q 0 + 2, pg') := by
            rw [hpc]
            exact aupsert_keyed ps 2 (c.getD q 0) pg' hkeys hpj
          dsimp only
          rw [haup]
          have hnext : pg'.header.next_page_id = chainNext c q := by
            rw [n4, g3]
          have hkeys' : ∀ k, k < (ps.set (c.getD q 0) (c.getD q 0 + 2, pg')).length →
              ((ps.set (c.getD q 0) (c.getD q 0 + 2, pg')).getD k default).1
                = k + 2 := by
            intro k hk
            simp only [List.length_set] at hk
            by_cases hkj : k = c.getD q 0
            · subst hkj
              rw [getD_set_self ps (c.getD q 0) (c.getD q 0 + 2, pg') (by omega)]
            · rw [getD_set_ne ps (c.getD q 0) k _ (fun h => hkj h.symm)]
              exact hkeys k hk
          have hsame' : ∀ k, k < ps.length →
              samePageIds ((ps.set (c.getD q 0) (c.getD q 0 + 2, pg')).getD
                k default).2 (ps.getD k default).2 := by
            intro k hk
            by_cases hkj : k = c.getD q 0
            · subst hkj
              rw [getD_set_self ps (c.getD q 0) (c.getD q 0 + 2, pg') (by omega)]
              exact ⟨n1, n2, n3, n4⟩
            · rw [getD_set_ne ps (c.getD q 0) k _ (fun h => hkj h.symm)]
              exact samePageIds_refl _
          have hshape' : ∀ q', q' < N →
              pageShapeG ids q' (chainNext c q')
                (((ps.set (c.getD q 0) (c.getD q 0 + 2, pg')).getD
                  (c.getD q' 0) default).2) := by
            intro q' hq'
            exact pageShapeG_of_same ids q' _ _ _
              (hsame' (c.getD q' 0) (hcb q' hq')) (hshape q' hq')
          have hrec := ih (q + 1) f0
            { s with page_cache := ps.set (c.getD q 0) (c.getD q 0 + 2, pg') }
            (ps.set (c.getD q 0) (c.getD q 0 + 2, pg'))
            (by omega) (by omega) rfl
            (by simp only [List.length_set]; exact hbig)
            hkeys'
            (by intro q' hq'
                simp only [List.length_set]
                exact hcb q' hq')
            hshape'
          rw [hnext]
          rw [show chainNext c q
              = (if q + 1 = N then INVALID_PAGE_ID else c.getD (q + 1) 0 + 2) from by
            rw [chainNext, hN]]
          cases hrec with
          | inl hl =>
            obtain ⟨ps2, jj, b, hw, hjj, hjle, hb2, hb4, hl1, hl2, hl3, hl4, hl5,
              hl6, hl7⟩ := hl
            simp only [List.length_set] at hl1 hl2 hl3
            have hqjj : q ≠ jj := by omega
            have hpne : c.getD q 0 ≠ c.getD jj 0 :=
              nodup_getD_ne c hnd q jj (by omega) (by omega) hqjj
            have hset : (ps.set (c.getD q 0) (c.getD q 0 + 2, pg')).getD
                (c.getD jj 0) default = ps.getD (c.getD jj 0) default :=
              getD_set_ne ps (c.getD q 0) (c.getD jj 0) _ hpne
            left
            refine ⟨ps2, jj, b, hw, hjj, by omega, hb2, ?_, hl1, hl2, ?_, ?_, ?_,
              ?_, ?_⟩
            · rw [hset] at hb4
              exact hb4
            · intro k hk hkjj
              by_cases hkq : k = c.getD q 0
              · subst hkq
                exact samePageIds_trans _ _ _ (hl3 _ hk hkjj)
                  (by
                    rw [getD_set_self ps (c.getD q 0) (c.getD q 0 + 2, pg')
                      (by omega)]
                    exact ⟨n1, n2, n3, n4⟩)
              · have hx := hl3 k hk hkjj
                rw [getD_set_ne ps (c.getD q 0) k _ (fun h => hkq h.symm)] at hx
                exact hx
            · rw [hset] at hl4
              exact hl4
            · rw [hset] at hl5
              exact hl5
            · rw [hset] at hl6
              exact hl6
            · rw [hset] at hl7
              exact hl7
          | inr hr =>
            obtain ⟨ps2, hw, hr1, hr2, hr3⟩ := hr
            simp only [List.length_set] at hr1 hr2 hr3
            right
            refine ⟨ps2, hw, hr1, hr2, ?_⟩
            intro k hk
            exact samePageIds_trans _ _ _ (hr3 k hk) (hsame' k hk)

theorem getD_append_left' {α : Type} (l r : List α) (j : Nat) (d : α)
    (h : j < l.length) : ((l ++ r).getD j d) = l.getD j d := by
  rw [List.getD_eq_getElem?_getD, List.getElem?_append_left h,
    ← List.getD_eq_getElem?_getD]

theorem getD_append_right_eq' {α : Type} (l : List α) (x : α) (i : Nat) (d : α)
    (h : i = l.length) : ((l ++ [x]).getD i d) = x := by
  subst h
  rw [List.getD_eq_getElem?_getD, List.getElem?_append_right (Nat.le_refl _)]
  simp

/-- Any page with the fresh free-space budget accepts a record that
fits it. -/
theorem page_insert_fresh (np2 : Page) (r : List Nat)
    (hfs : np2.header.free_space = PAGE_SIZE - PAGEHEADER_SIZE)
    (hfit : SLOT_SIZE + listLen r ≤ PAGE_SIZE - PAGEHEADER_SIZE) (rid : Nat) :
    ∃ np3, np2.insert_record rid r = (some rid, np3)
      ∧ np3.free_id_bitmap = np2.free_id_bitmap
      ∧ np3.header.id_range_start = np2.header.id_range_start
      ∧ np3.header.id_range_end = np2.header.id_range_end
      ∧ np3.header.next_page_id = np2.header.next_page_id := by
  have hhs : np2.has_space (SLOT_SIZE + listLen r) = true := by
    simp only [Page.has_space, hfs]
    exact decide_eq_true hfit
  simp only [Page.insert_record]
  rw [if_pos hhs, if_pos hhs]
  exact ⟨_, rfl, rfl, rfl, rfl, rfl⟩

/-- A record that does not fit the fresh budget is rejected by a fresh
page, compaction notwithstanding. -/
theorem page_insert_fresh_fail (np2 : Page) (r : List Nat) (rid : Nat)
    (hfs : np2.header.free_space = PAGE_SIZE - PAGEHEADER_SIZE)
    (hsl : np2.slots = [])
    (hnofit : ¬ SLOT_SIZE + listLen r ≤ PAGE_SIZE - PAGEHEADER_SIZE) :
    ∃ np3, np2.insert_record rid r = (none, np3) := by
  have h1 : np2.has_space (SLOT_SIZE + listLen r) = false := by
    simp only [Page.has_space, hfs]
    exact decide_eq_false hnofit
  have hcp : (np2.compact_page).header.free_space
      = (PAGE_SIZE - PAGEHEADER_SIZE + 4294967296 - PAGEHEADER_SIZE)
          % 4294967296 % 65536 := by
    rw [Page.compact_page, hsl]
    rfl
  have h2 : (np2.compact_page).has_space (SLOT_SIZE + listLen r) = false := by
    simp only [Page.has_space, hcp]
    apply decide_eq_false
    simp only [SLOT_SIZE, PAGE_SIZE, PAGEHEADER_SIZE] at hnofit ⊢
    omega
  have h1' : ¬ (np2.has_space (SLOT_SIZE + listLen r) = true) := by
    rw [h1]
    exact Bool.false_ne_true
  have h2' : ¬ ((np2.compact_page).has_space (SLOT_SIZE + listLen r) = true) := by
    rw [h2]
    exact Bool.false_ne_true
  simp only [Page.insert_record]
  rw [if_neg h1', if_neg h2']
  exact ⟨_, rfl⟩

set_option maxHeartbeats 3200000 in
/-- One `insert` under the chain invariant, for arbitrary row values:
either it succeeds, hands out an id never issued before, and
re-establishes the invariant with the new id recorded (the chain grown
by at most one page), or it fails leaving the invariant over the same
ids and chain (a failed new-page insert may orphan one fresh cache
entry). -/
theorem insert_step (t ids : List Nat) (s : Store) (ps : List (Nat × Page))
    (c : List Nat) (m : TableMetadata) (vs : List (List Nat))
    (hinv : chainInv t ids s ps c m)
    (hbig : ps.length + 2 < INVALID_PAGE_ID)
    (hwrap : IDS_PER_PAGE * (c.length + 1) + 1 < 4294967296) :
    (∃ rid s2 ps2 c2 m2,
        FileStorageLayer.insert s t vs = (Except.ok rid, s2)
        ∧ rid ∉ ids
        ∧ chainInv t (rid :: ids) s2 ps2 c2 m2
        ∧ ps2.length ≤ ps.length + 1
        ∧ c2.length ≤ c.length + 1)
    ∨ (∃ e s2 ps2,
        FileStorageLayer.insert s t vs = (Except.error e, s2)
        ∧ chainInv t ids s2 ps2 c m
        ∧ ps2.length ≤ ps.length + 1) := by
  obtain ⟨hopen, htl, hdp, hfpid, hspc, hpc, hkeys, hnib, hnd, hclen, hcbm,
    hfirst, hlast, hshape, hbound⟩ := hinv
  have hcb : ∀ q', q' < c.length → c.getD q' 0 < ps.length :=
    fun q' hq' => hcbm _ (getD_mem_of_lt c q' 0 hq')
  rw [FileStorageLayer.insert, if_neg (by rw [hopen]; simp),
    FileStorageLayer.get_table_metadata, htl]
  dsimp only
  by_cases hcc : (listLen vs != m.column_count) = true
  · rw [if_pos hcc]
    right
    exact ⟨"Column count mismatch", s, ps, rfl,
      ⟨hopen, htl, hdp, hfpid, hspc, hpc, hkeys, hnib, hnd, hclen, hcbm,
        hfirst, hlast, hshape, hbound⟩, by omega⟩
  · rw [if_neg hcc]
    cases hser : serialize_row (m.columns.take m.column_count) vs with
    | error e =>
      dsimp only
      right
      exact ⟨e, s, ps, rfl,
        ⟨hopen, htl, hdp, hfpid, hspc, hpc, hkeys, hnib, hnd, hclen, hcbm,
          hfirst, hlast, hshape, hbound⟩, by omega⟩
    | ok record =>
      dsimp only
      have hfuel : listLen s.page_cache + listLen s.disk_pages + 1
          = ps.length + 1 := by
        rw [hpc, hdp, listLen_eq, listLen_eq]
        simp
      rw [hfuel, hfirst]
      rw [show (if c.length = 0 then INVALID_PAGE_ID else c.getD 0 0 + 2)
          = (if (0 : Nat) = c.length then INVALID_PAGE_ID else c.getD 0 0 + 2)
          from by
        by_cases h : c.length = 0
        · rw [if_pos h, if_pos h.symm]
        · rw [if_neg h, if_neg (fun hh => h hh.symm)]]
      have hwrap' : IDS_PER_PAGE * c.length + 1 ≤ 4294967296 := by
        simp only [IDS_PER_PAGE] at hwrap ⊢
        omega
      have hwalk := insertWalk_chain t m record ids c c.length rfl hnd hwrap'
        c.length 0 (ps.length + 1) s ps (by omega) (by omega) hpc hbig hkeys
        hcb hshape
      cases hwalk with
      | inl hl =>
        obtain ⟨ps2, jj, b, hw, hjj, _, hb, hbclear, hlen2, hkeys2, hsame2, hbm,
          hirs2, hire2, hnext2⟩ := hl
        rw [hw]
        dsimp only
        obtain ⟨g1, g2, g3, g4, g5⟩ := hshape jj hjj
        have hfresh : (IDS_PER_PAGE * jj + 1 + b) ∉ ids := by
          intro hmem
          have := (g5 b hb).mpr hmem
          rw [hbclear] at this
          cases this
        left
        refine ⟨IDS_PER_PAGE * jj + 1 + b, _, ps2, c,
          { m with record_count := (m.record_count + 1) % 4294967296 },
          rfl, hfresh, ?_, by omega, by omega⟩
        refine ⟨hopen, tlookup_tupsert _ _ _, hdp, ?_, ?_, rfl, ?_,
          (show m.next_id_block = c.length from hnib), hnd, ?_, ?_,
          (show m.first_data_page = _ from hfirst),
          (show m.last_data_page = _ from hlast), ?_, ?_⟩
        · exact (update_table_header_pres s.catalog _).1.trans hfpid
        · rw [(update_table_header_pres s.catalog _).2, hspc, hlen2]
        · intro k hk
          rw [hlen2] at hk
          exact hkeys2 k hk
        · rw [hlen2]
          exact hclen
        · intro p hp
          rw [hlen2]
          exact hcbm p hp
        · intro k hk
          by_cases hkjj : k = jj
          · subst hkjj
            refine ⟨hirs2.trans g1, hire2.trans g2, hnext2.trans g3, ?_, ?_⟩
            · rw [hbm, List.length_set, g4]
            · intro i hi
              rw [hbm]
              by_cases hib : i = b
              · subst hib
                rw [getD_set_self' _ _ _ _ (by rw [g4]; exact hb)]
                simp
              · rw [getD_set_ne' _ _ _ _ _ (fun h => hib h.symm)]
                rw [g5 i hi, List.mem_cons]
                constructor
                · exact fun hm => Or.inr hm
                · rintro (hm | hm)
                  · exfalso
                    simp only [IDS_PER_PAGE] at hm
                    omega
                  · exact hm
          · refine pageShapeG_cons_out ids k _ _ _
              (pageShapeG_of_same ids k _ _ _
                (hsame2 (c.getD k 0) (hcb k hk)
                  (nodup_getD_ne c hnd k jj hk hjj hkjj))
                (hshape k hk)) ?_
            intro i hi hiS
            simp only [IDS_PER_PAGE] at hiS hi hb
            omega
        · intro id hid
          rw [List.mem_cons] at hid
          cases hid with
          | inl h =>
            subst h
            simp only [IDS_PER_PAGE] at hb ⊢
            constructor
            · omega
            · have : jj + 1 ≤ c.length := hjj
              nlinarith
          | inr h => exact hbound id h
      | inr hr =>
        obtain ⟨ps2, hw, hlen2, hkeys2, hsame2⟩ := hr
        rw [hw]
        dsimp only
        have hmod2 : (s.catalog.header.system_page_count + 1) % 4294967296
            = ps.length + 2 := by
          rw [hspc]
          apply Nat.mod_eq_of_lt
          simp only [INVALID_PAGE_ID] at hbig
          omega
        have halloc : FileStorageLayer.allocate_new_page
            { is_open := s.is_open, catalog := s.catalog, page_cache := ps2,
              table_cache := s.table_cache, disk_catalog := s.disk_catalog,
              disk_pages := s.disk_pages }
            = (ps.length + 2,
               { is_open := s.is_open
                 catalog := { s.catalog with
                   header := { s.catalog.header with
                     system_page_count := ps.length + 2
                     lsn := s.catalog.header.lsn + 1 }
                   catalog_dirty := true }
                 page_cache := ps2
                 table_cache := s.table_cache
                 disk_catalog := s.disk_catalog
                 disk_pages := s.disk_pages }) := by
          rw [FileStorageLayer.allocate_new_page]
          dsimp only
          rw [if_neg (by rw [hfpid]; simp), hmod2]
        rw [halloc]
        dsimp only
        have hirsv : (if (m.next_id_block == 0) = true then 1
            else (m.next_id_block * IDS_PER_PAGE + 1) % 4294967296)
            = IDS_PER_PAGE * c.length + 1 := by
          rw [hnib]
          by_cases h : c.length = 0
          · rw [h]
            simp
          · rw [if_neg (by simp [h])]
            rw [Nat.mul_comm]
            apply Nat.mod_eq_of_lt
            simp only [IDS_PER_PAGE] at hwrap ⊢
            omega
        rw [hirsv]
        have hgcp : FileStorageLayer.get_or_create_page
            { is_open := s.is_open,
              catalog :=
                { header :=
                    { table_count := s.catalog.header.table_count,
                      free_page_id := s.catalog.header.free_page_id,
                      system_page_count := ps.length + 2,
                      flags := s.catalog.header.flags,
                      lsn := s.catalog.header.lsn + 1 },
                  tables := s.catalog.tables, catalog_dirty := true },
              page_cache := ps2, table_cache := s.table_cache,
              disk_catalog := s.disk_catalog, disk_pages := s.disk_pages }
            (ps.length + 2) (IDS_PER_PAGE * c.length + 1)
            = (Page.make (ps.length + 2) (IDS_PER_PAGE * c.length + 1),
               { is_open := s.is_open,
                 catalog :=
                   { header :=
                       { table_count := s.catalog.header.table_count,
                         free_page_id := s.catalog.header.free_page_id,
                         system_page_count := ps.length + 2,
                         flags := s.catalog.header.flags,
                         lsn := s.catalog.header.lsn + 1 },
                     tables := s.catalog.tables, catalog_dirty := true },
                 page_cache := ps2
                   ++ [(ps.length + 2,
                        Page.make (ps.length + 2) (IDS_PER_PAGE * c.length + 1))],
                 table_cache := s.table_cache,
                 disk_catalog := s.disk_catalog, disk_pages := s.disk_pages }) := by
          rw [FileStorageLayer.get_or_create_page, FileStorageLayer.get_or_load_page]
          dsimp only
          have hmiss : alookup ps2 (ps.length + 2) = none :=
            alookup_keyed_none ps2 2 (ps.length + 2)
              (fun k hk => hkeys2 k (by omega)) (fun k hk => by omega)
          rw [hmiss]
          dsimp only
          rw [hdp]
          rw [show alookup ([] : List (Nat × List Nat)) (ps.length + 2) = none
            from rfl]
        rw [hgcp]
        dsimp only
        have hmod3 : (IDS_PER_PAGE * c.length + 1 + IDS_PER_PAGE) % 4294967296
            = IDS_PER_PAGE * c.length + 1 + IDS_PER_PAGE := by
          apply Nat.mod_eq_of_lt
          simp only [IDS_PER_PAGE] at hwrap ⊢
          omega
        rw [hmod3]
        have hkeysAppG : ∀ (pgX : Page) (k : Nat),
            k < (ps2 ++ [(ps.length + 2, pgX)]).length →
            ((ps2 ++ [(ps.length + 2, pgX)]).getD k default).1 = k + 2 := by
          intro pgX k hk
          simp only [List.length_append, List.length_cons, List.length_nil] at hk
          by_cases hkps : k < ps.length
          · rw [getD_append_left _ _ k (by omega)]
            exact hkeys2 k hkps
          · have hkeq : k = ps2.length := by omega
            subst hkeq
            rw [getD_append_right_len]
            dsimp only
            omega
        by_cases hfit : SLOT_SIZE + listLen record ≤ PAGE_SIZE - PAGEHEADER_SIZE
        · obtain ⟨np3, hins, hf1, hf2, hf3, hf4⟩ := page_insert_fresh
            { header :=
                { page_id := (Page.make (ps.length + 2)
                    (IDS_PER_PAGE * c.length + 1)).header.page_id,
                  slot_count := (Page.make (ps.length + 2)
                    (IDS_PER_PAGE * c.length + 1)).header.slot_count,
                  free_space := (Page.make (ps.length + 2)
                    (IDS_PER_PAGE * c.length + 1)).header.free_space,
                  free_space_offset := (Page.make (ps.length + 2)
                    (IDS_PER_PAGE * c.length + 1)).header.free_space_offset,
                  next_page_id := (Page.make (ps.length + 2)
                    (IDS_PER_PAGE * c.length + 1)).header.next_page_id,
                  flags := (Page.make (ps.length + 2)
                    (IDS_PER_PAGE * c.length + 1)).header.flags,
                  lsn := (Page.make (ps.length + 2)
                    (IDS_PER_PAGE * c.length + 1)).header.lsn,
                  id_range_start := IDS_PER_PAGE * c.length + 1,
                  id_range_end := IDS_PER_PAGE * c.length + 1 + IDS_PER_PAGE },
              slots := (Page.make (ps.length + 2)
                (IDS_PER_PAGE * c.length + 1)).slots,
              data := (Page.make (ps.length + 2)
                (IDS_PER_PAGE * c.length + 1)).data,
              free_id_bitmap := List.replicate IDS_PER_PAGE false }
            record rfl hfit (IDS_PER_PAGE * c.length + 1)
          have hbm3 : np3.free_id_bitmap = List.replicate IDS_PER_PAGE false := hf1
          have hirs3 : np3.header.id_range_start = IDS_PER_PAGE * c.length + 1 :=
            hf2
          have hire3 : np3.header.id_range_end
              = IDS_PER_PAGE * c.length + 1 + IDS_PER_PAGE := hf3
          have hnext3 : np3.header.next_page_id = INVALID_PAGE_ID := hf4
          rw [hins]
          dsimp only
          have haup1 : aupsert (ps2 ++ [(ps.length + 2,
                Page.make (ps.length + 2) (IDS_PER_PAGE * c.length + 1))])
              (ps.length + 2)
              { header := np3.header, slots := np3.slots, data := np3.data,
                free_id_bitmap := np3.free_id_bitmap.set 0 true }
              = ps2 ++ [(ps.length + 2,
                  { header := np3.header, slots := np3.slots, data := np3.data,
                    free_id_bitmap := np3.free_id_bitmap.set 0 true })] := by
            have h1 := aupsert_keyed (ps2 ++ [(ps.length + 2,
                Page.make (ps.length + 2) (IDS_PER_PAGE * c.length + 1))]) 2
              ps.length
              { header := np3.header, slots := np3.slots, data := np3.data,
                free_id_bitmap := np3.free_id_bitmap.set 0 true }
              (hkeysAppG _) (by simp only [List.length_append, List.length_cons,
                List.length_nil]; omega)
            rw [h1, ← hlen2, set_append_last]
          rw [haup1]
          have hfreshNew : (IDS_PER_PAGE * c.length + 1) ∉ ids := by
            intro hmem
            have := hbound _ hmem
            simp only [IDS_PER_PAGE] at this
            omega
          have hshape_new : ∀ jB, jB = c.length →
              pageShapeG ((IDS_PER_PAGE * c.length + 1) :: ids) jB
                INVALID_PAGE_ID
                { header := np3.header, slots := np3.slots, data := np3.data,
                  free_id_bitmap := np3.free_id_bitmap.set 0 true } := by
            intro jB hjB
            subst hjB
            refine ⟨hirs3, hire3, hnext3, ?_, ?_⟩
            · show (np3.free_id_bitmap.set 0 true).length = IDS_PER_PAGE
              rw [List.length_set, hbm3, List.length_replicate]
            · intro i hi
              show (np3.free_id_bitmap.set 0 true).getD i false = true ↔ _
              by_cases hi0 : i = 0
              · subst hi0
                rw [getD_set_self' _ _ _ _ (by
                  rw [hbm3, List.length_replicate]
                  simp only [IDS_PER_PAGE]
                  omega)]
                simp
              · rw [getD_set_ne' _ _ _ _ _ (fun h => hi0 h.symm), hbm3,
                  getD_replicate_false]
                constructor
                · intro h
                  cases h
                · intro hmem
                  rw [List.mem_cons] at hmem
                  cases hmem with
                  | inl h =>
                    exfalso
                    omega
                  | inr h =>
                    have := hbound _ h
                    exfalso
                    simp only [IDS_PER_PAGE] at this hi
                    omega
          have hmod4 : (m.next_id_block + 1) % 4294967296 = c.length + 1 := by
            rw [hnib]
            apply Nat.mod_eq_of_lt
            simp only [IDS_PER_PAGE] at hwrap
            omega
          by_cases hL0 : c.length = 0
          · have hlastINV : m.last_data_page = INVALID_PAGE_ID := by
              rw [hlast, if_pos hL0]
            have hc : (m.last_data_page == INVALID_PAGE_ID) = true := by
              rw [hlastINV]
              simp
            rw [if_pos hc, if_pos hc]
            dsimp only
            rw [hmod4]
            left
            refine ⟨IDS_PER_PAGE * c.length + 1, _,
              ps2 ++ [(ps.length + 2,
                { header := np3.header
                  slots := np3.slots
                  data := np3.data
                  free_id_bitmap := np3.free_id_bitmap.set 0 true })],
              c ++ [ps.length],
              { name := m.name
                first_data_page := ps.length + 2
                last_data_page := ps.length + 2
                record_count := (m.record_count + 1) % 4294967296
                free_space_head := m.free_space_head
                column_count := m.column_count
                columns := m.columns
                next_id_block := c.length + 1 },
              rfl, hfreshNew, ?_, ?_, ?_⟩
            · refine ⟨hopen, tlookup_tupsert _ _ _, hdp, ?_, ?_, rfl,
                hkeysAppG _, ?_, ?_, ?_, ?_, ?_, ?_, ?_, ?_⟩
              · exact (update_table_header_pres _ _).1.trans hfpid
              · refine (update_table_header_pres _ _).2.trans ?_
                show ps.length + 2 = _
                simp only [List.length_append, List.length_cons, List.length_nil]
                omega
              · show c.length + 1 = _
                simp only [List.length_append, List.length_cons, List.length_nil]
              · exact nodup_append_singleton c ps.length hnd
                  (fun y hy => Nat.ne_of_lt (hcbm y hy))
              · simp only [List.length_append, List.length_cons, List.length_nil]
                omega
              · intro p hp
                rw [List.mem_append] at hp
                simp only [List.length_append, List.length_cons, List.length_nil]
                cases hp with
                | inl h =>
                  have := hcbm p h
                  omega
                | inr h =>
                  rw [List.mem_singleton] at h
                  omega
              · show ps.length + 2 = _
                rw [if_neg (by
                  simp only [List.length_append, List.length_cons, List.length_nil]
                  omega)]
                rw [getD_append_right_eq' c ps.length 0 0 hL0.symm]
              · show ps.length + 2 = _
                rw [if_neg (by
                  simp only [List.length_append, List.length_cons, List.length_nil]
                  omega)]
                rw [getD_append_right_eq' c ps.length _ 0 (by
                  simp only [List.length_append, List.length_cons, List.length_nil]
                  omega)]
              · intro q hq
                simp only [List.length_append, List.length_cons,
                  List.length_nil] at hq
                have hq0 : q = 0 := by omega
                subst hq0
                rw [getD_append_right_eq' c ps.length 0 0 hL0.symm]
                rw [getD_append_right_eq _ _ _ (by omega)]
                rw [show chainNext (c ++ [ps.length]) 0 = INVALID_PAGE_ID from by
                  rw [chainNext]
                  rw [if_pos (by
                    simp only [List.length_append, List.length_cons,
                      List.length_nil]
                    omega)]]
                exact hshape_new 0 hL0.symm
              · intro id hmem
                rw [List.mem_cons] at hmem
                simp only [List.length_append, List.length_cons, List.length_nil,
                  IDS_PER_PAGE] at hmem ⊢
                cases hmem with
                | inl h =>
                  subst h
                  omega
                | inr h =>
                  have := hbound _ h
                  simp only [IDS_PER_PAGE] at this
                  omega
            · simp only [List.length_append, List.length_cons, List.length_nil]
              omega
            · simp only [List.length_append, List.length_cons, List.length_nil]
              omega
          · have hlast2 : m.last_data_page = c.getD (c.length - 1) 0 + 2 := by
              rw [hlast, if_neg hL0]
            have hpl : c.getD (c.length - 1) 0 < ps.length :=
              hcb (c.length - 1) (by omega)
            have hcneg : ¬ ((m.last_data_page == INVALID_PAGE_ID) = true) := by
              rw [hlast2]
              simp only [beq_iff_eq, INVALID_PAGE_ID]
              simp only [INVALID_PAGE_ID] at hbig
              omega
            rw [if_neg hcneg, if_neg hcneg]
            rw [hlast2]
            have hlk : alookup (ps2 ++ [(ps.length + 2,
                  { header := np3.header
                    slots := np3.slots
                    data := np3.data
                    free_id_bitmap := np3.free_id_bitmap.set 0 true })])
                (c.getD (c.length - 1) 0 + 2)
                = some (ps2.getD (c.getD (c.length - 1) 0) default).2 := by
              have h1 := alookup_keyed (ps2 ++ [(ps.length + 2,
                  { header := np3.header
                    slots := np3.slots
                    data := np3.data
                    free_id_bitmap := np3.free_id_bitmap.set 0 true })]) 2
                (c.getD (c.length - 1) 0)
                (hkeysAppG _)
                (by simp only [List.length_append, List.length_cons,
                      List.length_nil]
                    omega)
              rw [getD_append_left _ _ _ (by omega)] at h1
              exact h1
            have hload2 : ∀ (S : Store), S.page_cache = ps2 ++ [(ps.length + 2,
                  { header := np3.header
                    slots := np3.slots
                    data := np3.data
                    free_id_bitmap := np3.free_id_bitmap.set 0 true })] →
                FileStorageLayer.get_or_load_page S (c.getD (c.length - 1) 0 + 2)
                  = Except.ok ((ps2.getD (c.getD (c.length - 1) 0) default).2,
                      S) := by
              intro S hS
              rw [FileStorageLayer.get_or_load_page, hS, hlk]
            rw [hload2 _ rfl]
            dsimp only
            have haup2 : aupsert (ps2 ++ [(ps.length + 2,
                  { header := np3.header
                    slots := np3.slots
                    data := np3.data
                    free_id_bitmap := np3.free_id_bitmap.set 0 true })])
                (c.getD (c.length - 1) 0 + 2)
                { header :=
                    { page_id := (ps2.getD (c.getD (c.length - 1) 0)
                        default).2.header.page_id
                      slot_count := (ps2.getD (c.getD (c.length - 1) 0)
                        default).2.header.slot_count
                      free_space := (ps2.getD (c.getD (c.length - 1) 0)
                        default).2.header.free_space
                      free_space_offset := (ps2.getD (c.getD (c.length - 1) 0)
                        default).2.header.free_space_offset
                      next_page_id := ps.length + 2
                      flags := (ps2.getD (c.getD (c.length - 1) 0)
                        default).2.header.flags
                      lsn := (ps2.getD (c.getD (c.length - 1) 0)
                        default).2.header.lsn
                      id_range_start := (ps2.getD (c.getD (c.length - 1) 0)
                        default).2.header.id_range_start
                      id_range_end := (ps2.getD (c.getD (c.length - 1) 0)
                        default).2.header.id_range_end }
                  slots := (ps2.getD (c.getD (c.length - 1) 0) default).2.slots
                  data := (ps2.getD (c.getD (c.length - 1) 0) default).2.data
                  free_id_bitmap := (ps2.getD (c.getD (c.length - 1) 0)
                    default).2.free_id_bitmap }
                = ps2.set (c.getD (c.length - 1) 0) (c.getD (c.length - 1) 0 + 2,
                    { header :=
                        { page_id := (ps2.getD (c.getD (c.length - 1) 0)
                            default).2.header.page_id
                          slot_count := (ps2.getD (c.getD (c.length - 1) 0)
                            default).2.header.slot_count
                          free_space := (ps2.getD (c.getD (c.length - 1) 0)
                            default).2.header.free_space
                          free_space_offset := (ps2.getD (c.getD (c.length - 1) 0)
                            default).2.header.free_space_offset
                          next_page_id := ps.length + 2
                          flags := (ps2.getD (c.getD (c.length - 1) 0)
                            default).2.header.flags
                          lsn := (ps2.getD (c.getD (c.length - 1) 0)
                            default).2.header.lsn
                          id_range_start := (ps2.getD (c.getD (c.length - 1) 0)
                            default).2.header.id_range_start
                          id_range_end := (ps2.getD (c.getD (c.length - 1) 0)
                            default).2.header.id_range_end }
                      slots := (ps2.getD (c.getD (c.length - 1) 0) default).2.slots
                      data := (ps2.getD (c.getD (c.length - 1) 0) default).2.data
                      free_id_bitmap := (ps2.getD (c.getD (c.length - 1) 0)
                        default).2.free_id_bitmap })
                  ++ [(ps.length + 2,
                      { header := np3.header
                        slots := np3.slots
                        data := np3.data
                        free_id_bitmap := np3.free_id_bitmap.set 0 true })] := by
              have h1 := aupsert_keyed (ps2 ++ [(ps.length + 2,
                  { header := np3.header
                    slots := np3.slots
                    data := np3.data
                    free_id_bitmap := np3.free_id_bitmap.set 0 true })]) 2
                (c.getD (c.length - 1) 0)
                { header :=
                    { page_id := (ps2.getD (c.getD (c.length - 1) 0)
                        default).2.header.page_id
                      slot_count := (ps2.getD (c.getD (c.length - 1) 0)
                        default).2.header.slot_count
                      free_space := (ps2.getD (c.getD (c.length - 1) 0)
                        default).2.header.free_space
                      free_space_offset := (ps2.getD (c.getD (c.length - 1) 0)
                        default).2.header.free_space_offset
                      next_page_id := ps.length + 2
                      flags := (ps2.getD (c.getD (c.length - 1) 0)
                        default).2.header.flags
                      lsn := (ps2.getD (c.getD (c.length - 1) 0)
                        default).2.header.lsn
                      id_range_start := (ps2.getD (c.getD (c.length - 1) 0)
                        default).2.header.id_range_start
                      id_range_end := (ps2.getD (c.getD (c.length - 1) 0)
                        default).2.header.id_range_end }
                  slots := (ps2.getD (c.getD (c.length - 1) 0) default).2.slots
                  data := (ps2.getD (c.getD (c.length - 1) 0) default).2.data
                  free_id_bitmap := (ps2.getD (c.getD (c.length - 1) 0)
                    default).2.free_id_bitmap }
                (hkeysAppG _)
                (by simp only [List.length_append, List.length_cons,
                      List.length_nil]
                    omega)
              rw [set_append_lt _ _ _ _ (by omega)] at h1
              exact h1
            rw [haup2]
            rw [hmod4]
            left
            refine ⟨IDS_PER_PAGE * c.length + 1, _,
              ps2.set (c.getD (c.length - 1) 0) (c.getD (c.length - 1) 0 + 2,
                { header :=
                    { page_id := (ps2.getD (c.getD (c.length - 1) 0)
                        default).2.header.page_id
                      slot_count := (ps2.getD (c.getD (c.length - 1) 0)
                        default).2.header.slot_count
                      free_space := (ps2.getD (c.getD (c.length - 1) 0)
                        default).2.header.free_space
                      free_space_offset := (ps2.getD (c.getD (c.length - 1) 0)
                        default).2.header.free_space_offset
                      next_page_id := ps.length + 2
                      flags := (ps2.getD (c.getD (c.length - 1) 0)
                        default).2.header.flags
                      lsn := (ps2.getD (c.getD (c.length - 1) 0)
                        default).2.header.lsn
                      id_range_start := (ps2.getD (c.getD (c.length - 1) 0)
                        default).2.header.id_range_start
                      id_range_end := (ps2.getD (c.getD (c.length - 1) 0)
                        default).2.header.id_range_end }
                  slots := (ps2.getD (c.getD (c.length - 1) 0) default).2.slots
                  data := (ps2.getD (c.getD (c.length - 1) 0) default).2.data
                  free_id_bitmap := (ps2.getD (c.getD (c.length - 1) 0)
                    default).2.free_id_bitmap })
                ++ [(ps.length + 2,
                    { header := np3.header
                      slots := np3.slots
                      data := np3.data
                      free_id_bitmap := np3.free_id_bitmap.set 0 true })],
              c ++ [ps.length],
              { name := m.name
                first_data_page :=
                  if (0 : Nat) = c.length then INVALID_PAGE_ID else c.getD 0 0 + 2
                last_data_page := ps.length + 2
                record_count := (m.record_count + 1) % 4294967296
                free_space_head := m.free_space_head
                column_count := m.column_count
                columns := m.columns
                next_id_block := c.length + 1 },
              rfl, hfreshNew, ?_, ?_, ?_⟩
            · refine ⟨hopen, tlookup_tupsert _ _ _, hdp, ?_, ?_, rfl, ?_,
                ?_, ?_, ?_, ?_, ?_, ?_, ?_, ?_⟩
              · exact (update_table_header_pres _ _).1.trans hfpid
              · refine (update_table_header_pres _ _).2.trans ?_
                show ps.length + 2 = _
                simp only [List.length_append, List.length_set, List.length_cons,
                  List.length_nil]
                omega
              · intro k hk
                simp only [List.length_append, List.length_set, List.length_cons,
                  List.length_nil] at hk
                by_cases hklt : k < ps.length
                · rw [getD_append_left _ _ k (by
                    simp only [List.length_set]
                    omega)]
                  by_cases hk1 : k = c.getD (c.length - 1) 0
                  · subst hk1
                    rw [getD_set_self ps2 _ _ (by omega)]
                  · rw [getD_set_ne ps2 _ _ _ (fun h => hk1 h.symm)]
                    exact hkeys2 k hklt
                · have hkeq : k = ps.length := by omega
                  subst hkeq
                  rw [getD_append_right_eq _ _ _ (by
                    simp only [List.length_set]
                    omega)]
              · show c.length + 1 = _
                simp only [List.length_append, List.length_cons, List.length_nil]
              · exact nodup_append_singleton c ps.length hnd
                  (fun y hy => Nat.ne_of_lt (hcbm y hy))
              · simp only [List.length_append, List.length_set, List.length_cons,
                  List.length_nil]
                omega
              · intro p hp
                rw [List.mem_append] at hp
                simp only [List.length_append, List.length_set, List.length_cons,
                  List.length_nil]
                cases hp with
                | inl h =>
                  have := hcbm p h
                  omega
                | inr h =>
                  rw [List.mem_singleton] at h
                  omega
              · show (if (0 : Nat) = c.length then INVALID_PAGE_ID
                    else c.getD 0 0 + 2) = _
                rw [if_neg (fun hh => hL0 hh.symm)]
                rw [if_neg (by
                  simp only [List.length_append, List.length_cons, List.length_nil]
                  omega)]
                rw [getD_append_left' c [ps.length] 0 0 (by omega)]
              · show ps.length + 2 = _
                rw [if_neg (by
                  simp only [List.length_append, List.length_cons, List.length_nil]
                  omega)]
                rw [getD_append_right_eq' c ps.length _ 0 (by
                  simp only [List.length_append, List.length_cons, List.length_nil]
                  omega)]
              · intro q hq
                simp only [List.length_append, List.length_cons,
                  List.length_nil] at hq
                by_cases hqL : q < c.length
                · rw [getD_append_left' c [ps.length] q 0 hqL]
                  have hposq : c.getD q 0 < ps.length := hcb q hqL
                  rw [getD_append_left _ _ _ (by
                    simp only [List.length_set]
                    omega)]
                  by_cases hq1 : q = c.length - 1
                  · subst hq1
                    rw [getD_set_self ps2 _ _ (by omega)]
                    rw [show chainNext (c ++ [ps.length]) (c.length - 1)
                        = ps.length + 2 from by
                      rw [chainNext]
                      rw [if_neg (by
                        simp only [List.length_append, List.length_cons,
                          List.length_nil]
                        omega)]
                      rw [show c.length - 1 + 1 = c.length from by omega]
                      rw [getD_append_right_eq' c ps.length c.length 0 rfl]]
                    refine pageShapeG_cons_out _ _ _ _ _ ?_ ?_
                    · refine pageShapeG_relink ids (c.length - 1) (ps.length + 2)
                        _ ((ps.getD (c.getD (c.length - 1) 0) default).2)
                        (chainNext c (c.length - 1))
                        (hshape (c.length - 1) (by omega))
                        ?_ ?_ ?_ rfl
                      · exact (hsame2 _ hposq).1
                      · exact (hsame2 _ hposq).2.1
                      · exact (hsame2 _ hposq).2.2.1
                    · intro i hi hiS
                      simp only [IDS_PER_PAGE] at hi hiS
                      omega
                  · rw [getD_set_ne ps2 _ _ _ (fun h =>
                      (nodup_getD_ne c hnd (c.length - 1) q (by omega) (by omega)
                        (fun hh => hq1 hh.symm)) h)]
                    rw [show chainNext (c ++ [ps.length]) q = chainNext c q
                        from by
                      rw [chainNext, chainNext]
                      rw [if_neg (by
                          simp only [List.length_append, List.length_cons,
                            List.length_nil]
                          omega),
                        if_neg (by omega)]
                      rw [getD_append_left' c [ps.length] (q + 1) 0 (by omega)]]
                    refine pageShapeG_cons_out _ _ _ _ _
                      (pageShapeG_of_same ids q _ _ _ (hsame2 _ hposq)
                        (hshape q hqL)) ?_
                    intro i hi hiS
                    simp only [IDS_PER_PAGE] at hi hiS
                    omega
                · have hqeq : q = c.length := by omega
                  subst hqeq
                  rw [getD_append_right_eq' c ps.length c.length 0 rfl]
                  rw [getD_append_right_eq _ _ _ (by
                    simp only [List.length_set]
                    omega)]
                  rw [show chainNext (c ++ [ps.length]) c.length
                      = INVALID_PAGE_ID from by
                    rw [chainNext]
                    rw [if_pos (by simp)]]
                  exact hshape_new c.length rfl
              · intro id hmem
                rw [List.mem_cons] at hmem
                simp only [List.length_append, List.length_cons, List.length_nil,
                  IDS_PER_PAGE] at hmem ⊢
                cases hmem with
                | inl h =>
                  subst h
                  omega
                | inr h =>
                  have := hbound _ h
                  simp only [IDS_PER_PAGE] at this
                  omega
            · simp only [List.length_append, List.length_set, List.length_cons,
                List.length_nil]
              omega
            · simp only [List.length_append, List.length_cons, List.length_nil]
              omega
        · obtain ⟨np3f, hinsf⟩ := page_insert_fresh_fail
            { header :=
                { page_id := (Page.make (ps.length + 2)
                    (IDS_PER_PAGE * c.length + 1)).header.page_id,
                  slot_count := (Page.make (ps.length + 2)
                    (IDS_PER_PAGE * c.length + 1)).header.slot_count,
                  free_space := (Page.make (ps.length + 2)
                    (IDS_PER_PAGE * c.length + 1)).header.free_space,
                  free_space_offset := (Page.make (ps.length + 2)
                    (IDS_PER_PAGE * c.length + 1)).header.free_space_offset,
                  next_page_id := (Page.make (ps.length + 2)
                    (IDS_PER_PAGE * c.length + 1)).header.next_page_id,
                  flags := (Page.make (ps.length + 2)
                    (IDS_PER_PAGE * c.length + 1)).header.flags,
                  lsn := (Page.make (ps.length + 2)
                    (IDS_PER_PAGE * c.length + 1)).header.lsn,
                  id_range_start := IDS_PER_PAGE * c.length + 1,
                  id_range_end := IDS_PER_PAGE * c.length + 1 + IDS_PER_PAGE },
              slots := (Page.make (ps.length + 2)
                (IDS_PER_PAGE * c.length + 1)).slots,
              data := (Page.make (ps.length + 2)
                (IDS_PER_PAGE * c.length + 1)).data,
              free_id_bitmap := List.replicate IDS_PER_PAGE false }
            record (IDS_PER_PAGE * c.length + 1) rfl rfl hfit
          rw [hinsf]
          dsimp only
          have haupf : aupsert (ps2 ++ [(ps.length + 2,
                Page.make (ps.length + 2) (IDS_PER_PAGE * c.length + 1))])
              (ps.length + 2) np3f
              = ps2 ++ [(ps.length + 2, np3f)] := by
            have h1 := aupsert_keyed (ps2 ++ [(ps.length + 2,
                Page.make (ps.length + 2) (IDS_PER_PAGE * c.length + 1))]) 2
              ps.length np3f (hkeysAppG _)
              (by simp only [List.length_append, List.length_cons,
                    List.length_nil]
                  omega)
            rw [h1, ← hlen2, set_append_last]
          rw [haupf]
          right
          refine ⟨"Failed to insert record in new page", _,
            ps2 ++ [(ps.length + 2, np3f)], rfl, ?_, ?_⟩
          · refine ⟨hopen, htl, hdp, hfpid, ?_, rfl, hkeysAppG _, hnib, hnd,
              ?_, ?_, hfirst, hlast, ?_, hbound⟩
            · show ps.length + 2 = _
              simp only [List.length_append, List.length_cons, List.length_nil]
              omega
            · simp only [List.length_append, List.length_cons, List.length_nil]
              omega
            · intro p hp
              have := hcbm p hp
              simp only [List.length_append, List.length_cons, List.length_nil]
              omega
            · intro q hq
              have hq' : c.getD q 0 < ps.length := hcb q hq
              rw [getD_append_left _ _ _ (by omega)]
              exact pageShapeG_of_same ids q _ _ _ (hsame2 _ hq')
                (hshape q hq)
          · simp only [List.length_append, List.length_cons, List.length_nil]
            omega

/-- Run `insert(t, vs)` for each row `vs` of `vss`, collecting the
results. -/
def runInserts (t : List Nat) : Store → List (List (List Nat)) →
    List (Except String Nat) × Store
  | s, [] => ([], s)
  | s, vs :: rest =>
    let r := FileStorageLayer.insert s t vs
    let rest2 := runInserts t r.2 rest
    (r.1 :: rest2.1, rest2.2)

/-- The record ids of the successful inserts, in call order. -/
def okIds : List (Except String Nat) → List Nat
  | [] => []
  | Except.ok i :: rest => i :: okIds rest
  | Except.error _ :: rest => okIds rest

theorem run_inserts_inv (t : List Nat) :
    ∀ (vss : List (List (List Nat))) (s : Store) (ps : List (Nat × Page))
      (c : List Nat) (m : TableMetadata) (ids : List Nat),
    chainInv t ids s ps c m → ids.Nodup →
    ps.length + vss.length + 2 < INVALID_PAGE_ID →
    IDS_PER_PAGE * (c.length + vss.length) + 1 < 4294967296 →
    ∃ ids2 s2 ps2 c2 m2,
      (runInserts t s vss).2 = s2
      ∧ chainInv t ids2 s2 ps2 c2 m2
      ∧ ids2.Nodup
      ∧ ids2 = (okIds (runInserts t s vss).1).reverse ++ ids
      ∧ ps2.length ≤ ps.length + vss.length
      ∧ c2.length ≤ c.length + vss.length := by
  intro vss
  induction vss with
  | nil =>
    intro s ps c m ids hinv hnodup _ _
    exact ⟨ids, s, ps, c, m, rfl, hinv, hnodup, by simp [runInserts, okIds],
      by omega, by omega⟩
  | cons vs rest ih =>
    intro s ps c m ids hinv hnodup hbig hwrap
    simp only [List.length_cons] at hbig hwrap
    rcases insert_step t ids s ps c m vs hinv (by omega)
        (by simp only [IDS_PER_PAGE] at hwrap ⊢; omega) with
      (⟨rid, s2, ps2, c2, m2, heq, hfreshI, hinv2, hlenp, hlenc⟩ |
       ⟨e, s2, ps2, heq, hinv2, hlenp⟩)
    · obtain ⟨ids3, s3, ps3, c3, m3, hrun2, hinv3, hnodup3, hids3, hl3, hc3⟩ :=
        ih s2 ps2 c2 m2 (rid :: ids) hinv2
          (List.nodup_cons.mpr ⟨hfreshI, hnodup⟩)
          (by omega)
          (by simp only [IDS_PER_PAGE] at hwrap ⊢; omega)
      rw [runInserts]
      dsimp only
      rw [heq]
      dsimp only
      refine ⟨ids3, s3, ps3, c3, m3, hrun2, hinv3, hnodup3, ?_,
        by simp only [List.length_cons]; omega,
        by simp only [List.length_cons]; omega⟩
      rw [hids3, okIds]
      simp [List.append_assoc]
    · obtain ⟨ids3, s3, ps3, c3, m3, hrun2, hinv3, hnodup3, hids3, hl3, hc3⟩ :=
        ih s2 ps2 c m ids hinv2 hnodup
          (by omega)
          (by simp only [IDS_PER_PAGE] at hwrap ⊢; omega)
      rw [runInserts]
      dsimp only
      rw [heq]
      dsimp only
      refine ⟨ids3, s3, ps3, c3, m3, hrun2, hinv3, hnodup3, ?_,
        by simp only [List.length_cons]; omega,
        by simp only [List.length_cons]; omega⟩
      rw [hids3, okIds]

/-- A freshly opened storage layer with no disk files. -/
def freshStore : Store :=
  (FileStorageLayer.openStore (FileStorageLayer.new none [])).2

theorem add_table_header_pres (c : CatalogPage) (nm : List Nat) :
    ((c.add_table nm).2).header.free_page_id = c.header.free_page_id
    ∧ ((c.add_table nm).2).header.system_page_count
        = c.header.system_page_count := by
  rw [CatalogPage.add_table]
  by_cases h1 : c.header.table_count ≥ MAX_TABLES
  · rw [if_pos h1]
    exact ⟨rfl, rfl⟩
  · rw [if_neg h1]
    by_cases h2 : (c.get_table nm).isSome = true
    · rw [if_pos h2]
      exact ⟨rfl, rfl⟩
    · rw [if_neg h2]
      exact ⟨rfl, rfl⟩

/-- `create` on the fresh store establishes the chain invariant for
the new table: no pages, no issued ids, and the metadata produced by
`make_table_metadata` — for an arbitrary table name and schema. -/
theorem create_fresh_inv (tn : List Nat) (schema : List ColumnSchema) :
    chainInv tn [] ((FileStorageLayer.create freshStore tn schema).2) [] []
      (make_table_metadata tn schema) := by
  have hfree : freshStore.catalog.get_table tn = none := rfl
  have hs : (FileStorageLayer.create freshStore tn schema).2
      = { freshStore with
          catalog := { ((freshStore.catalog.add_table tn).2.update_table
              (make_table_metadata tn schema)).2 with catalog_dirty := true }
          table_cache := tupsert freshStore.table_cache tn
            (make_table_metadata tn schema) } := by
    rw [FileStorageLayer.create, if_neg (by rw [hfree]; simp)]
  rw [hs]
  refine ⟨rfl, ?_, rfl, ?_, ?_, rfl, ?_, rfl, List.nodup_nil,
    Nat.le_refl _, ?_, rfl, rfl, ?_, ?_⟩
  · show tlookup (tupsert freshStore.table_cache tn (make_table_metadata tn schema))
        tn = some (make_table_metadata tn schema)
    exact tlookup_tupsert _ _ _
  · exact (update_table_header_pres _ _).1.trans
      ((add_table_header_pres _ _).1.trans rfl)
  · exact (update_table_header_pres _ _).2.trans
      ((add_table_header_pres _ _).2.trans rfl)
  · intro k hk
    exact absurd hk (by simp)
  · intro p hp
    exact absurd hp (List.not_mem_nil p)
  · intro q hq
    exact absurd hq (by simp)
  · intro id hid
    exact absurd hid (List.not_mem_nil id)

/-- C7 (amended): for any table name and schema, and any sequence of
insert calls with arbitrary row values against the freshly created
table — short enough that the block counter stays below the `uint32_t`
wrap of `id_range_start = next_id_block * 1024 + 1` — the ids of the
successful inserts contain no duplicates; chain page `q` carries the
half-open 1024-id block `[1024 q + 1, 1024 (q + 1) + 1)` assigned in
order by `next_id_block`; blocks of distinct pages are disjoint; and
every issued id lies inside the block of the page it was drawn from.
Beyond the bound the wrapped arithmetic reissues ranges (see
`insert_id_range_wrap_collision`). -/
theorem insert_ids_nodup (tn : List Nat) (schema : List ColumnSchema)
    (vss : List (List (List Nat)))
    (hn : IDS_PER_PAGE * vss.length + IDS_PER_PAGE < 4294967296) :
    (okIds (runInserts tn ((FileStorageLayer.create freshStore tn schema).2)
        vss).1).Nodup
    ∧ ∃ (ps : List (Nat × Page)) (c : List Nat) (m : TableMetadata),
        (runInserts tn ((FileStorageLayer.create freshStore tn schema).2)
            vss).2.page_cache = ps
        ∧ tlookup (runInserts tn
            ((FileStorageLayer.create freshStore tn schema).2)
              vss).2.table_cache tn = some m
        ∧ m.next_id_block = c.length
        ∧ (∀ q, q < c.length → c.getD q 0 < ps.length)
        ∧ (∀ q, q < c.length →
            (ps.getD (c.getD q 0) default).2.header.id_range_start
              = IDS_PER_PAGE * q + 1
            ∧ (ps.getD (c.getD q 0) default).2.header.id_range_end
              = IDS_PER_PAGE * q + 1 + IDS_PER_PAGE)
        ∧ (∀ q r, q < c.length → r < c.length → q ≠ r →
            (ps.getD (c.getD q 0) default).2.header.id_range_end
                ≤ (ps.getD (c.getD r 0) default).2.header.id_range_start
            ∨ (ps.getD (c.getD r 0) default).2.header.id_range_end
                ≤ (ps.getD (c.getD q 0) default).2.header.id_range_start)
        ∧ (∀ id ∈ okIds (runInserts tn
              ((FileStorageLayer.create freshStore tn schema).2) vss).1,
            ∃ q, q < c.length
              ∧ (ps.getD (c.getD q 0) default).2.header.id_range_start ≤ id
              ∧ id < (ps.getD (c.getD q 0) default).2.header.id_range_end) := by
  obtain ⟨ids2, s2, ps2, c2, m2, hrun, hinv, hnodup, hids, hlenp, hlenc⟩ :=
    run_inserts_inv tn vss ((FileStorageLayer.create freshStore tn schema).2)
      [] [] (make_table_metadata tn schema) []
      (create_fresh_inv tn schema) List.nodup_nil
      (by simp only [List.length_nil, INVALID_PAGE_ID]
          simp only [IDS_PER_PAGE] at hn
          omega)
      (by simp only [List.length_nil, IDS_PER_PAGE] at hn ⊢
          omega)
  obtain ⟨hopen, htl, hdp, hfpid, hspc, hpc, hkeys, hnib, hnd, hclen, hcbm,
    hfirst, hlast, hshape, hbound⟩ := hinv
  have hmemids : ∀ id, id ∈ okIds (runInserts tn
      ((FileStorageLayer.create freshStore tn schema).2) vss).1 →
      id ∈ ids2 := by
    intro id hid
    rw [hids, List.append_nil, List.mem_reverse]
    exact hid
  constructor
  · rw [hids, List.append_nil] at hnodup
    exact List.nodup_reverse.mp hnodup
  · refine ⟨ps2, c2, m2, ?_, ?_, hnib, ?_, ?_, ?_, ?_⟩
    · rw [hrun]
      exact hpc
    · rw [hrun]
      exact htl
    · intro q hq
      exact hcbm _ (getD_mem_of_lt c2 q 0 hq)
    · intro q hq
      obtain ⟨g1, g2, _, _, _⟩ := hshape q hq
      exact ⟨g1, g2⟩
    · intro q r hq hr hqr
      obtain ⟨gq1, gq2, _, _, _⟩ := hshape q hq
      obtain ⟨gr1, gr2, _, _, _⟩ := hshape r hr
      rw [gq1, gq2, gr1, gr2]
      simp only [IDS_PER_PAGE]
      omega
    · intro id hid
      have hb := hbound id (hmemids id hid)
      have hq : (id - 1) / IDS_PER_PAGE < c2.length := by
        simp only [IDS_PER_PAGE] at hb ⊢
        omega
      obtain ⟨g1, g2, _, _, _⟩ := hshape ((id - 1) / IDS_PER_PAGE) hq
      refine ⟨(id - 1) / IDS_PER_PAGE, hq, ?_, ?_⟩
      · rw [g1]
        simp only [IDS_PER_PAGE] at hb ⊢
        omega
      · rw [g2]
        simp only [IDS_PER_PAGE] at hb ⊢
        omega

/-- Witness for the C7 theorem: two empty-row inserts into a fresh
zero-column table `t`. -/
theorem insert_ids_nodup_witness :
    (okIds (runInserts (strBytes "t")
        ((FileStorageLayer.create freshStore (strBytes "t") []).2)
        [[], []]).1).Nodup
    ∧ ∃ (ps : List (Nat × Page)) (c : List Nat) (m : TableMetadata),
        (runInserts (strBytes "t")
            ((FileStorageLayer.create freshStore (strBytes "t") []).2)
            [[], []]).2.page_cache = ps
        ∧ tlookup (runInserts (strBytes "t")
            ((FileStorageLayer.create freshStore (strBytes "t") []).2)
              [[], []]).2.table_cache (strBytes "t") = some m
        ∧ m.next_id_block = c.length
        ∧ (∀ q, q < c.length → c.getD q 0 < ps.length)
        ∧ (∀ q, q < c.length →
            (ps.getD (c.getD q 0) default).2.header.id_range_start
              = IDS_PER_PAGE * q + 1
            ∧ (ps.getD (c.getD q 0) default).2.header.id_range_end
              = IDS_PER_PAGE * q + 1 + IDS_PER_PAGE)
        ∧ (∀ q r, q < c.length → r < c.length → q ≠ r →
            (ps.getD (c.getD q 0) default).2.header.id_range_end
                ≤ (ps.getD (c.getD r 0) default).2.header.id_range_start
            ∨ (ps.getD (c.getD r 0) default).2.header.id_range_end
                ≤ (ps.getD (c.getD q 0) default).2.header.id_range_start)
        ∧ (∀ id ∈ okIds (runInserts (strBytes "t")
              ((FileStorageLayer.create freshStore (strBytes "t") []).2)
              [[], []]).1,
            ∃ q, q < c.length
              ∧ (ps.getD (c.getD q 0) default).2.header.id_range_start ≤ id
              ∧ id < (ps.getD (c.getD q 0) default).2.header.id_range_end) :=
  insert_ids_nodup (strBytes "t") [] [[], []] (by decide)

/-- The fresh store holding one zero-column table `t`. -/
def wrapStore0 : Store :=
  (FileStorageLayer.create freshStore (strBytes "t") []).2

/-- The same table's metadata at the block-counter value the code
reaches after allocating `2^22` data pages. -/
def wrapMeta : TableMetadata :=
  { make_table_metadata (strBytes "t") [] with next_id_block := 4194304 }

def wrapStore : Store :=
  { wrapStore0 with table_cache := [(strBytes "t", wrapMeta)] }

/-- C7 counterexample — the `uint32_t` wrap of the id-block
arithmetic.  The first insert into the fresh table draws id 1 from the
block assigned at `next_id_block = 0`.  Once `next_id_block` has
reached `2^22` (after `2^22` page allocations), `insert` computes
`id_range_start = (4194304 * 1024 + 1) mod 2^32 = 1` and hands out
id 1 again, on a new page whose id range `[1, 1025)` duplicates the
very first page's range instead of being disjoint from it: the block
ranges assigned by the increasing `next_id_block` counter repeat, so
id uniqueness is not unconditional as the claim states. -/
theorem insert_id_range_wrap_collision :
    wrapMeta.next_id_block = 4194304
    ∧ (FileStorageLayer.insert wrapStore0 (strBytes "t") []).1 = Except.ok 1
    ∧ (FileStorageLayer.insert wrapStore (strBytes "t") []).1 = Except.ok 1
    ∧ ((alookup (FileStorageLayer.insert wrapStore0 (strBytes "t") []).2.page_cache
          2).getD default).header.id_range_start = 1
    ∧ ((alookup (FileStorageLayer.insert wrapStore0 (strBytes "t") []).2.page_cache
          2).getD default).header.id_range_end = 1025
    ∧ ((alookup (FileStorageLayer.insert wrapStore (strBytes "t") []).2.page_cache
          2).getD default).header.id_range_start = 1
    ∧ ((alookup (FileStorageLayer.insert wrapStore (strBytes "t") []).2.page_cache
          2).getD default).header.id_range_end = 1025 := by
  exact ⟨by decide, by decide, by decide, by decide, by decide, by decide,
    by decide⟩
end StorageLayer
